import Mathlib

/-!
Machine Deletion Remediation: the reconciler.

A shallow embedding of `controllers/machinedeletionremediation_controller.go`.

* Kubernetes objects are records holding the fields the controller reads.
* The API server is a record of responses (`Client`); every function that
  talks to it also returns the list of calls it made, in order.
* Go's multiple return values are tuples, a `nil` pointer or `nil` error is
  `none`, and a mutated `*MachineDeletionRemediation` is returned explicitly.
-/

namespace MachineDeletion

/-! ## Constants of the controller and of the libraries it imports -/

def machineAnnotationOpenshift : String := "machine.openshift.io/machine"

def MachineNameNsAnnotation : String :=
  "machine-deletion-remediation.medik8s.io/machineNameNamespace"

/-- The stop-signal key `commonannotations.NhcTimedOut` of medik8s/common. -/
def NhcTimedOut : String := "remediation.medik8s.io/nhc-timed-out"

/-- The condition type `commonconditions.ProcessingType`. -/
def ProcessingType : String := "Processing"

/-- The condition type `commonconditions.SucceededType`. -/
def SucceededType : String := "Succeeded"

/-- The condition type `commonconditions.PermanentNodeDeletionExpectedType`. -/
def PermanentNodeDeletionExpectedType : String := "PermanentNodeDeletionExpected"

def noAnnotationsError : String := "failed to find machine annotation on node name: "

def noMachineAnnotationError : String :=
  "failed to find openshift machine annotation on node name: "

def invalidValueMachineAnnotationError : String :=
  "failed to extract Machine Name and Machine Namespace from machine annotation on the node for node name: "

def machineDeletedOnCloudProviderMessage : String :=
  "Machine will be deleted and the unhealthy node replaced. This is a Cloud cluster provider: the new node is expected to have a new name"

def machineDeletedOnBareMetalProviderMessage : String :=
  "Machine will be deleted and the unhealthy node replaced. This is a BareMetal cluster provider: the new node is NOT expected to have a new name"

def machineDeletedOnUnknownProviderMessage : String :=
  "Machine will be deleted and the unhealthy node replaced. Unknown cluster provider: no information about the new node's name"

def MachineDeletionOnCloudProviderReason : String :=
  "MachineDeletionOnCloudProviderCausesNewNodeName"

def MachineDeletionOnBareMetalProviderReason : String :=
  "MachineDeletionOnBareMetalProviderKeepsNodeName"

def MachineDeletionOnUndefinedProviderReason : String :=
  "MachineDeletionUndefinedNodeNameExpectation"

/-- The type `processingChangeReason` is a Go string type. -/
abbrev processingChangeReason := String

def remediationStarted : processingChangeReason := "RemediationStarted"
def remediationTimedOutByNhc : processingChangeReason := "RemediationStoppedByNHC"
def remediationFinished : processingChangeReason := "RemediationFinished"
def remediationFailed : processingChangeReason := "RemediationFailed"

/-- Go durations are nanoseconds; this is `time.Second`. -/
def Second : Int := 1000000000

/-! ## Errors -/

/-- The value `metav1.StatusReasonNotFound`. -/
def StatusReasonNotFound : String := "NotFound"

/-- The value `metav1.StatusReasonConflict`. -/
def StatusReasonConflict : String := "Conflict"

/-- Go error values: an API status error with its reason, a plain
`fmt.Errorf` text, an error wrapping a cause (`%w`, `errors.Wrapf`), and
the aggregate built by `utilerrors.NewAggregate`. -/
inductive Err where
  | status (reason : String) (message : String)
  | text (message : String)
  | wrap (message : String) (cause : Err)
  | aggregate (errs : List Err)

/-- The function `apiErrors.ReasonForError`: the reason of the first API
status error on the unwrap chain, the empty (unknown) reason otherwise. -/
def ReasonForError : Err → String
  | .status reason _ => reason
  | .wrap _ cause => ReasonForError cause
  | .text _ => ""
  | .aggregate _ => ""

def IsNotFound (err : Err) : Bool := ReasonForError err == StatusReasonNotFound

def IsConflict (err : Err) : Bool := ReasonForError err == StatusReasonConflict

/-- The text of `err.Error()`; a wrapping error stores its whole text. The
controller never reads the text of an aggregate, which stands as a fixed
marker here. -/
def Err.Error : Err → String
  | .status _ message => message
  | .text message => message
  | .wrap message _ => message
  | .aggregate _ => "aggregate"

/-- The function `utilerrors.NewAggregate`: nil entries are dropped, and an
empty list gives nil. -/
def NewAggregate (errlist : List (Option Err)) : Option Err :=
  match errlist.filterMap id with
  | [] => none
  | errs => some (.aggregate errs)

/-! ## Kubernetes objects -/

/-- The three values of `metav1.ConditionStatus`. -/
inductive ConditionStatus where
  | ConditionTrue
  | ConditionFalse
  | ConditionUnknown
  deriving DecidableEq, Repr

open ConditionStatus

/-- A `metav1.Condition`; times are numbers and `0` is the zero time. -/
structure Condition where
  Type_ : String
  Status : ConditionStatus
  ObservedGeneration : Int
  LastTransitionTime : Nat
  Reason : String
  Message : String
  deriving DecidableEq, Repr

/-- A Go `map[string]string`, which may be nil. -/
abbrev Annotations := Option (List (String × String))

structure MachineDeletionRemediationStatus where
  Conditions : List Condition
  deriving DecidableEq, Repr

structure MachineDeletionRemediation where
  Name : String
  Namespace : String
  Annotations : Annotations
  DeletionTimestamp : Option Nat
  Status : MachineDeletionRemediationStatus
  deriving DecidableEq, Repr

structure Node where
  Name : String
  Annotations : Annotations
  deriving DecidableEq, Repr

structure OwnerReference where
  Name : String
  Kind : String
  Controller : Option Bool
  deriving DecidableEq, Repr

/-- The values an `interface{}` of an unstructured object can hold. -/
inductive Value where
  | null
  | bool (b : Bool)
  | number (n : Int)
  | string (s : String)
  | array (items : List Value)
  | object (fields : List (String × Value))

/-- The unstructured Machine: the metadata the controller reads through
typed getters, and the other top-level fields of `machine.Object`. -/
structure Machine where
  Name : String
  Namespace : String
  OwnerReferences : List OwnerReference
  DeletionTimestamp : Option Nat
  Object : List (String × Value)

/-- The method `(*metav1.Time).IsZero`: a nil time and the zero time. -/
def IsZero : Option Nat → Bool
  | none => true
  | some t => t == 0

/-! ## Condition helpers of `k8s.io/apimachinery/pkg/api/meta` -/

/-- The function `meta.FindStatusCondition`: the first condition of the type. -/
def FindStatusCondition (conditions : List Condition) (conditionType : String) :
    Option Condition :=
  conditions.find? (fun c => c.Type_ == conditionType)

/-- The function `meta.IsStatusConditionPresentAndEqual`. -/
def IsStatusConditionPresentAndEqual :
    List Condition → String → ConditionStatus → Bool
  | [], _, _ => false
  | condition :: rest, conditionType, status =>
    if condition.Type_ = conditionType then condition.Status == status
    else IsStatusConditionPresentAndEqual rest conditionType status

/-- What `meta.SetStatusCondition` writes into an existing condition. -/
def mergeCondition (existingCondition newCondition : Condition) (now : Nat) : Condition :=
  { Type_ := existingCondition.Type_
    Status := newCondition.Status
    ObservedGeneration := newCondition.ObservedGeneration
    LastTransitionTime :=
      if existingCondition.Status ≠ newCondition.Status then
        (if newCondition.LastTransitionTime ≠ 0 then newCondition.LastTransitionTime else now)
      else existingCondition.LastTransitionTime
    Reason := newCondition.Reason
    Message := newCondition.Message }

/-- The function `meta.SetStatusCondition`: the first condition of the new
condition type is overwritten in place; when there is none the new
condition is appended, stamped with the current time. -/
def SetStatusCondition : List Condition → Condition → Nat → List Condition
  | [], newCondition, now =>
    [{ newCondition with
        LastTransitionTime :=
          if newCondition.LastTransitionTime = 0 then now
          else newCondition.LastTransitionTime }]
  | existing :: rest, newCondition, now =>
    if existing.Type_ = newCondition.Type_ then
      mergeCondition existing newCondition now :: rest
    else existing :: SetStatusCondition rest newCondition now

/-! ## Go library helpers: maps, strings, unstructured access -/

/-- A Go map read `m[key]` with its presence flag; a nil map has no key. -/
def mapLookup (m : Annotations) (key : String) : Option String :=
  match m with
  | none => none
  | some entries => entries.lookup key

/-- A Go map write `m[key] = value` on a non-nil map. -/
def mapSet : List (String × String) → String → String → List (String × String)
  | [], key, value => [(key, value)]
  | (k, v) :: rest, key, value =>
    if k = key then (k, value) :: rest else (k, v) :: mapSet rest key value

/-- The pieces of `strings.Split(s, sep)` for a one-character separator. -/
def splitChars (sep : Char) : List Char → List (List Char)
  | [] => [[]]
  | c :: cs =>
    if c = sep then [] :: splitChars sep cs
    else
      match splitChars sep cs with
      | [] => [[c]]
      | piece :: pieces => (c :: piece) :: pieces

/-- The function `strings.Split` with the separator "/" the controller uses. -/
def Split (s : String) (sep : Char) : List String :=
  (splitChars sep s.data).map String.mk

/-- The function `strings.HasPrefix`. -/
def HasPrefix (s pre : String) : Bool := pre.data.isPrefixOf s.data

/-- The function `unstructured.NestedFieldNoCopy`: value, found, error. -/
def NestedFieldNoCopy : Value → List String → Value × Bool × Option Err
  | val, [] => (val, true, none)
  | .null, _ :: _ => (.null, false, none)
  | .object m, field :: fields =>
    match m.lookup field with
    | none => (.null, false, none)
    | some val => NestedFieldNoCopy val fields
  | _, _ :: _ =>
    (.null, false, some (.text "accessor error: expected map[string]interface{}"))

/-- The function `unstructured.NestedMap`. -/
def NestedMap (obj : List (String × Value)) (fields : List String) :
    List (String × Value) × Bool × Option Err :=
  match NestedFieldNoCopy (.object obj) fields with
  | (_, false, err) => ([], false, err)
  | (_, true, some err) => ([], true, some err)
  | (.object m, true, none) => (m, true, none)
  | (_, true, none) =>
    ([], false, some (.text "accessor error: expected map[string]interface{}"))

/-- The function `unstructured.NestedString`. -/
def NestedString (obj : List (String × Value)) (fields : List String) :
    String × Bool × Option Err :=
  match NestedFieldNoCopy (.object obj) fields with
  | (_, false, err) => ("", false, err)
  | (_, true, some err) => ("", true, some err)
  | (.string s, true, none) => (s, true, none)
  | (_, true, none) => ("", false, some (.text "accessor error: expected string"))

/-! ## The API server as seen by one invocation -/

structure Request where
  Name : String
  Namespace : String
  deriving DecidableEq, Repr

/-- The `ctrl.Result` returned to the work queue. -/
structure Result where
  Requeue : Bool
  RequeueAfter : Int
  deriving DecidableEq, Repr

/-- The empty `ctrl.Result`. -/
def Result.empty : Result := { Requeue := false, RequeueAfter := 0 }

/-- The responses of the embedded `client.Client` during one invocation,
and the reading of the clock used by `meta.SetStatusCondition`. A write
answers with its error (nil on success); the object in memory is taken to
stay as it was sent. -/
structure Client where
  GetRemediation : String → String → Except Err MachineDeletionRemediation
  GetNode : String → Except Err Node
  GetMachine : String → String → Except Err Machine
  Update : MachineDeletionRemediation → Option Err
  Delete : Machine → Option Err
  StatusUpdate : MachineDeletionRemediation → Option Err
  Now : Nat

/-- The calls made on the client, recorded in order. -/
inductive Call where
  | getRemediation (name ns : String)
  | getNode (name : String)
  | getMachine (name ns : String)
  | update (obj : MachineDeletionRemediation)
  | delete (machine : Machine)
  | statusUpdate (obj : MachineDeletionRemediation)

def Call.isGetNode : Call → Bool
  | .getNode _ => true
  | _ => false

def Call.isGetMachine : Call → Bool
  | .getMachine _ _ => true
  | _ => false

def Call.isUpdate : Call → Bool
  | .update _ => true
  | _ => false

def Call.isDelete : Call → Bool
  | .delete _ => true
  | _ => false

def Call.isStatusUpdate : Call → Bool
  | .statusUpdate _ => true
  | _ => false

/-! ## The controller -/

def hasControllerOwner (machine : Machine) : Bool :=
  machine.OwnerReferences.any fun ref =>
    match ref.Controller with
    | some controller => controller
    | none => false

/-- The result is the remediation (nil when absent or on error) and the error. -/
def getRemediation (r : Client) (req : Request) :
    (Option MachineDeletionRemediation × Option Err) × List Call :=
  match r.GetRemediation req.Name req.Namespace with
  | .error err =>
    if IsNotFound err then ((none, none), [.getRemediation req.Name req.Namespace])
    else ((none, some err), [.getRemediation req.Name req.Namespace])
  | .ok remediation => ((some remediation, none), [.getRemediation req.Name req.Namespace])

def getNodeFromMdr (r : Client) (mdr : MachineDeletionRemediation) :
    Except Err Node × List Call :=
  (r.GetNode mdr.Name, [.getNode mdr.Name])

def extractNameAndNamespace (nameNs : String) (nodeName : String) :
    String × String × Option Err :=
  match Split nameNs '/' with
  | [ns, name] => (name, ns, none)
  | _ => ("", "", some (.text (invalidValueMachineAnnotationError ++ nodeName)))

def getMachineNameNsFromRemediation (remediation : MachineDeletionRemediation) :
    String × String × Option Err :=
  match mapLookup remediation.Annotations MachineNameNsAnnotation with
  | none => ("", "", none)
  | some nameNs =>
    match extractNameAndNamespace nameNs remediation.Name with
    | (_, _, some err) =>
      ("", "", some (.wrap
        ("could not get Machine data from remediation '" ++ remediation.Name ++
          "' annotation '" ++ nameNs ++ "': error " ++ err.Error) err))
    | (name, ns, none) => (name, ns, none)

def getMachineNameNsFromNode (node : Node) : String × String × Option Err :=
  match node.Annotations with
  | none => ("", "", some (.text (noAnnotationsError ++ node.Name)))
  | some nodeAnnotations =>
    let machineNameNs := (nodeAnnotations.lookup machineAnnotationOpenshift).getD ""
    if machineNameNs.length = 0 then
      ("", "", some (.text (noMachineAnnotationError ++ node.Name)))
    else
      match Split machineNameNs '/' with
      | [ns, name] => (name, ns, none)
      | _ => ("", "", some (.text (invalidValueMachineAnnotationError ++ node.Name)))

/-- The continuation of `getMachine` once name and namespace are known:
the fetch of the Machine and the reading of its error. -/
def getMachineByKey (r : Client) (machineName machineNs : String) (mustExist : Bool)
    (calls : List Call) : (Except Err Machine × Bool) × List Call :=
  match r.GetMachine machineName machineNs with
  | .error err => ((.error err, mustExist), calls ++ [.getMachine machineName machineNs])
  | .ok machine => ((.ok machine, mustExist), calls ++ [.getMachine machineName machineNs])

/-- The result is the machine or the error, and the `mustExist` flag. -/
def getMachine (r : Client) (remediation : MachineDeletionRemediation) :
    (Except Err Machine × Bool) × List Call :=
  match getMachineNameNsFromRemediation remediation with
  | (_, _, some err) => ((.error err, false), [])
  | (machineName, machineNs, none) =>
    if machineName = "" then
      match getNodeFromMdr r remediation with
      | (.error err, calls) => ((.error err, false), calls)
      | (.ok node, calls) =>
        match getMachineNameNsFromNode node with
        | (_, _, some err) => ((.error err, false), calls)
        | (nodeMachineName, nodeMachineNs, none) =>
          getMachineByKey r nodeMachineName nodeMachineNs true calls
    else getMachineByKey r machineName machineNs false []

/-- The result is the error of the update, the remediation as mutated in
memory, and the calls made. -/
def saveMachineNameNs (r : Client) (remediation : MachineDeletionRemediation)
    (machineName machineNamespace : String) :
    Option Err × MachineDeletionRemediation × List Call :=
  let write (annotations : List (String × String)) :=
    let updated : MachineDeletionRemediation :=
      { remediation with
        Annotations := some (mapSet annotations MachineNameNsAnnotation
          (machineNamespace ++ "/" ++ machineName)) }
    (r.Update updated, updated, [Call.update updated])
  match remediation.Annotations with
  | none => write []
  | some annotations =>
    if (annotations.lookup MachineNameNsAnnotation).isSome then (none, remediation, [])
    else write annotations

def updateStatus (r : Client) (mdr : MachineDeletionRemediation) : Option Err × List Call :=
  (r.StatusUpdate mdr, [.statusUpdate mdr])

/-- The result is the flag, the error, and the remediation as mutated in memory. -/
def updateConditions (r : Client) (reason : processingChangeReason)
    (mdr : MachineDeletionRemediation) : Bool × Option Err × MachineDeletionRemediation :=
  let statuses : Option (ConditionStatus × ConditionStatus) :=
    if reason = remediationStarted then some (ConditionTrue, ConditionUnknown)
    else if reason = remediationFinished then some (ConditionFalse, ConditionTrue)
    else if reason = remediationTimedOutByNhc ∨ reason = remediationFailed then
      some (ConditionFalse, ConditionFalse)
    else none
  match statuses with
  | none => (false, some (.text ("unknown processingChangeReason:" ++ reason)), mdr)
  | some (processingConditionStatus, succeededConditionStatus) =>
    if processingConditionStatus = ConditionTrue ∧
        IsStatusConditionPresentAndEqual mdr.Status.Conditions ProcessingType ConditionFalse then
      (false, none, mdr)
    else if IsStatusConditionPresentAndEqual mdr.Status.Conditions ProcessingType
          processingConditionStatus ∧
        IsStatusConditionPresentAndEqual mdr.Status.Conditions SucceededType
          succeededConditionStatus then
      (false, none, mdr)
    else
      let withProcessing := SetStatusCondition mdr.Status.Conditions
        { Type_ := ProcessingType, Status := processingConditionStatus,
          ObservedGeneration := 0, LastTransitionTime := 0,
          Reason := reason, Message := "" } r.Now
      let withSucceeded := SetStatusCondition withProcessing
        { Type_ := SucceededType, Status := succeededConditionStatus,
          ObservedGeneration := 0, LastTransitionTime := 0,
          Reason := reason, Message := "" } r.Now
      (true, none, { mdr with Status := { Conditions := withSucceeded } })

def setPermanentNodeDeletionExpectedCondition (r : Client) (status : ConditionStatus)
    (mdr : MachineDeletionRemediation) : Bool × MachineDeletionRemediation :=
  let (reason, message) :=
    match status with
    | ConditionTrue =>
      (MachineDeletionOnCloudProviderReason, machineDeletedOnCloudProviderMessage)
    | ConditionFalse =>
      (MachineDeletionOnBareMetalProviderReason, machineDeletedOnBareMetalProviderMessage)
    | ConditionUnknown =>
      (MachineDeletionOnUndefinedProviderReason, machineDeletedOnUnknownProviderMessage)
  if IsStatusConditionPresentAndEqual mdr.Status.Conditions
      PermanentNodeDeletionExpectedType status then
    (false, mdr)
  else
    let conditions := SetStatusCondition mdr.Status.Conditions
      { Type_ := PermanentNodeDeletionExpectedType, Status := status,
        ObservedGeneration := 0, LastTransitionTime := 0,
        Reason := reason, Message := message } r.Now
    (true, { mdr with Status := { Conditions := conditions } })

def isTimedOutByNHC (remediation : Option MachineDeletionRemediation) : Bool :=
  match remediation with
  | none => false
  | some remediation =>
    match remediation.Annotations, remediation.DeletionTimestamp with
    | some annotations, none => (annotations.lookup NhcTimedOut).isSome
    | _, _ => false

def getMachineProviderID (machine : Machine) : String × Option Err :=
  match NestedMap machine.Object ["spec"] with
  | (_, _, some err) => ("", some err)
  | (_, false, none) => ("", none)
  | (status, true, none) =>
    match NestedString status ["providerID"] with
    | (_, _, some err) => ("", some err)
    | (_, false, none) => ("", none)
    | (providerID, true, none) => (providerID, none)

/-- The status chosen from the providerID in `Reconcile` before it calls
`setPermanentNodeDeletionExpectedCondition`. -/
def providerStatus (providerID : String) : ConditionStatus :=
  if providerID = "" then ConditionUnknown
  else if HasPrefix providerID "baremetal" then ConditionFalse
  else ConditionTrue

/-- What the body of `Reconcile` leaves behind: the values of its return
statement, the remediation as mutated in memory, and the calls made. -/
structure Pass where
  result : Result
  err : Option Err
  remediation : MachineDeletionRemediation
  calls : List Call

/-- The part of the body of `Reconcile` that follows a successful fetch of
the Machine: from the providerID lookup to the delete. -/
def reconcileMachine (r : Client) (remediation : MachineDeletionRemediation)
    (machine : Machine) (calls : List Call) : Pass :=
  match getMachineProviderID machine with
  | (_, some _) =>
    { result := Result.empty, err := none, remediation := remediation, calls := calls }
  | (providerID, none) =>
    match setPermanentNodeDeletionExpectedCondition r (providerStatus providerID)
        remediation with
    | (true, remediation) =>
      { result := { Requeue := false, RequeueAfter := Second }, err := none,
        remediation := remediation, calls := calls }
    | (false, remediation) =>
      if !IsZero machine.DeletionTimestamp then
        { result := { Requeue := false, RequeueAfter := 30 * Second }, err := none,
          remediation := remediation, calls := calls }
      else if !hasControllerOwner machine then
        { result := Result.empty, err := none, remediation := remediation, calls := calls }
      else
        match saveMachineNameNs r remediation machine.Name machine.Namespace with
        | (some err, remediation, saveCalls) =>
          { result := Result.empty,
            err := some (.wrap
              ("failed to save Machine's name and namespace: " ++ err.Error) err),
            remediation := remediation, calls := calls ++ saveCalls }
        | (none, remediation, saveCalls) =>
          match r.Delete machine with
          | some err =>
            { result := Result.empty, err := some err, remediation := remediation,
              calls := calls ++ saveCalls ++ [.delete machine] }
          | none =>
            { result := { Requeue := true, RequeueAfter := 0 }, err := none,
              remediation := remediation,
              calls := calls ++ saveCalls ++ [.delete machine] }

/-- The body of `Reconcile` after the remediation is loaded and the
deferred status update is registered. -/
def reconcileBody (r : Client) (remediation : MachineDeletionRemediation) : Pass :=
  if isTimedOutByNHC (some remediation) then
    match updateConditions r remediationTimedOutByNhc remediation with
    | (_, err, remediation) =>
      { result := Result.empty, err := err, remediation := remediation, calls := [] }
  else
    match updateConditions r remediationStarted remediation with
    | (_, some err, remediation) =>
      { result := Result.empty, err := some err, remediation := remediation, calls := [] }
    | (true, none, remediation) =>
      { result := { Requeue := false, RequeueAfter := Second }, err := none,
        remediation := remediation, calls := [] }
    | (false, none, remediation) =>
      match getMachine r remediation with
      | ((.error err, mustExist), calls) =>
        if IsNotFound err then
          match (if mustExist then updateConditions r remediationFailed remediation
                 else updateConditions r remediationFinished remediation) with
          | (_, err, remediation) =>
            { result := Result.empty, err := err, remediation := remediation, calls := calls }
        else
          { result := Result.empty, err := some err, remediation := remediation,
            calls := calls }
      | ((.ok machine, _), calls) => reconcileMachine r remediation machine calls

/-- What one invocation of `Reconcile` returns and does; `remediation` is
nil when the request was not loaded. -/
structure Outcome where
  finalResult : Result
  finalErr : Option Err
  remediation : Option MachineDeletionRemediation
  calls : List Call

def Reconcile (r : Client) (req : Request) : Outcome :=
  match getRemediation r req with
  | ((none, err), calls) =>
    { finalResult := Result.empty, finalErr := err, remediation := none, calls := calls }
  | ((some _, some err), calls) =>
    { finalResult := Result.empty, finalErr := some err, remediation := none, calls := calls }
  | ((some remediation, none), calls) =>
    let body := reconcileBody r remediation
    match updateStatus r body.remediation with
    | (none, statusCalls) =>
      { finalResult := body.result, finalErr := body.err,
        remediation := some body.remediation,
        calls := calls ++ body.calls ++ statusCalls }
    | (some updateErr, statusCalls) =>
      { finalResult := { Requeue := body.result.Requeue, RequeueAfter := Second },
        finalErr :=
          if !IsConflict updateErr then NewAggregate [some updateErr, body.err]
          else body.err,
        remediation := some body.remediation,
        calls := calls ++ body.calls ++ statusCalls }

/-- The two conditions `updateConditions` writes for a pair of statuses. -/
def writeConditions (r : Client) (reason : String) (p s : ConditionStatus)
    (mdr : MachineDeletionRemediation) : MachineDeletionRemediation :=
  let withProcessing := SetStatusCondition mdr.Status.Conditions
    { Type_ := ProcessingType, Status := p, ObservedGeneration := 0,
      LastTransitionTime := 0, Reason := reason, Message := "" } r.Now
  let withSucceeded := SetStatusCondition withProcessing
    { Type_ := SucceededType, Status := s, ObservedGeneration := 0,
      LastTransitionTime := 0, Reason := reason, Message := "" } r.Now
  { mdr with Status := { Conditions := withSucceeded } }

/-- The remediation after the `meta.SetStatusCondition` call of
`setPermanentNodeDeletionExpectedCondition`. -/
def writePermanentNodeDeletionExpected (r : Client) (status : ConditionStatus)
    (mdr : MachineDeletionRemediation) : MachineDeletionRemediation :=
  let reason :=
    match status with
    | ConditionTrue => MachineDeletionOnCloudProviderReason
    | ConditionFalse => MachineDeletionOnBareMetalProviderReason
    | ConditionUnknown => MachineDeletionOnUndefinedProviderReason
  let message :=
    match status with
    | ConditionTrue => machineDeletedOnCloudProviderMessage
    | ConditionFalse => machineDeletedOnBareMetalProviderMessage
    | ConditionUnknown => machineDeletedOnUnknownProviderMessage
  let conditions := SetStatusCondition mdr.Status.Conditions
    { Type_ := PermanentNodeDeletionExpectedType, Status := status,
      ObservedGeneration := 0, LastTransitionTime := 0,
      Reason := reason, Message := message } r.Now
  { mdr with Status := { Conditions := conditions } }

/-- The remediation `saveMachineNameNs` sends in its update: the binding
annotation set to namespace, "/" and name. -/
def withMachineNameNs (remediation : MachineDeletionRemediation)
    (machineName machineNamespace : String) : MachineDeletionRemediation :=
  { remediation with
    Annotations := some (mapSet (remediation.Annotations.getD []) MachineNameNsAnnotation
      (machineNamespace ++ "/" ++ machineName)) }

/-! ## Concrete objects, after the fixtures of the controller test -/

def workerNodeName : String := "worker-node-x"

def workerNodeMachineName : String := "worker-node-x-machine"

def defaultNamespace : String := "default"

/-- The error of a `Get` on an object that does not exist. -/
def notFoundError : Err := .status StatusReasonNotFound "not found"

/-- The Machine of the worker node, owned by a MachineSet. -/
def workerMachine (controller : Option Bool) (deletionTimestamp : Option Nat)
    (object : List (String × Value)) : Machine :=
  { Name := workerNodeMachineName, Namespace := defaultNamespace,
    OwnerReferences := [{ Name := "machineSetX", Kind := "MachineSet", Controller := controller }],
    DeletionTimestamp := deletionTimestamp, Object := object }

/-- The worker node, annotated with its Machine. -/
def workerNode : Node :=
  { Name := workerNodeName,
    Annotations := some [(machineAnnotationOpenshift, "default/worker-node-x-machine")] }

def conditionOf (conditionType : String) (status : ConditionStatus) : Condition :=
  { Type_ := conditionType, Status := status, ObservedGeneration := 0,
    LastTransitionTime := 1, Reason := "", Message := "" }

/-- A remediation for the worker node. -/
def workerRemediation (annotations : Annotations) (conditions : List Condition) :
    MachineDeletionRemediation :=
  { Name := workerNodeName, Namespace := defaultNamespace, Annotations := annotations,
    DeletionTimestamp := none, Status := { Conditions := conditions } }

def workerRequest : Request := { Name := workerNodeName, Namespace := defaultNamespace }

/-- The conditions of a started remediation whose platform is unknown. -/
def startedConditions : List Condition :=
  [conditionOf ProcessingType ConditionTrue, conditionOf SucceededType ConditionUnknown,
   conditionOf PermanentNodeDeletionExpectedType ConditionUnknown]

/-- A client whose writes all succeed: it serves the given remediation,
the given answer for the worker node, and the given answer for its Machine. -/
def workerClient (mdr : MachineDeletionRemediation) (node : Except Err Node)
    (machine : Except Err Machine) : Client :=
  { GetRemediation := fun name ns =>
      if name = workerNodeName ∧ ns = defaultNamespace then .ok mdr else .error notFoundError
    GetNode := fun name => if name = workerNodeName then node else .error notFoundError
    GetMachine := fun name ns =>
      if name = workerNodeMachineName ∧ ns = defaultNamespace then machine
      else .error notFoundError
    Update := fun _ => none
    Delete := fun _ => none
    StatusUpdate := fun _ => none
    Now := 2 }

/-! ## The cluster: a durable store behind the client -/

/-- The objects of the store that one request can reach: the request
record itself, the Nodes and the Machines. -/
structure Cluster where
  remediation : MachineDeletionRemediation
  nodes : List Node
  machines : List Machine

/-- What the API server adds to the store during one invocation: an error
injected into a call (none: the call is served from the store), whether a
deleted Machine is held back by finalizers (then it is stamped with a
deletion time instead of being removed), and the reading of the clock. -/
structure Faults where
  getRemediation : Option Err
  getNode : Option Err
  getMachine : Option Err
  update : Option Err
  delete : Option Err
  statusUpdate : Option Err
  finalizerStamp : Option Nat
  now : Nat

/-- An invocation on which every call is served from the store. -/
def noFaults (finalizerStamp : Option Nat) (now : Nat) : Faults :=
  { getRemediation := none, getNode := none, getMachine := none,
    update := none, delete := none, statusUpdate := none,
    finalizerStamp := finalizerStamp, now := now }

def findNode (nodes : List Node) (name : String) : Option Node :=
  nodes.find? fun node => node.Name == name

def findMachine (machines : List Machine) (name ns : String) : Option Machine :=
  machines.find? fun machine => machine.Name == name && machine.Namespace == ns

/-- The client of one invocation on a store. A `Get` with an empty name is
refused, as no object has an empty name. -/
def clientOf (c : Cluster) (f : Faults) : Client :=
  { GetRemediation := fun name ns =>
      match f.getRemediation with
      | some err => .error err
      | none =>
        if c.remediation.Name = name ∧ c.remediation.Namespace = ns then .ok c.remediation
        else .error notFoundError
    GetNode := fun name =>
      match f.getNode with
      | some err => .error err
      | none =>
        match findNode c.nodes name with
        | some node => .ok node
        | none => .error notFoundError
    GetMachine := fun name ns =>
      match f.getMachine with
      | some err => .error err
      | none =>
        if name = "" then .error (.text "resource name may not be empty")
        else
          match findMachine c.machines name ns with
          | some machine => .ok machine
          | none => .error notFoundError
    Update := fun _ => f.update
    Delete := fun _ => f.delete
    StatusUpdate := fun _ => f.statusUpdate
    Now := f.now }

/-- A successful delete of the Machine under a key: without finalizers the
Machine is removed, with finalizers it gets a non-zero deletion time. -/
def deleteMachine (machines : List Machine) (name ns : String) (finalizerStamp : Option Nat) :
    List Machine :=
  match finalizerStamp with
  | none => machines.filter fun machine => !(machine.Name == name && machine.Namespace == ns)
  | some t =>
    machines.map fun machine =>
      if (machine.Name == name && machine.Namespace == ns) && IsZero machine.DeletionTimestamp
      then { machine with DeletionTimestamp := some (t + 1) }
      else machine

/-- The effect of one call on the store: an update writes the metadata, a
status update writes the status, a delete removes or stamps the Machine; a
failed call and a read change nothing. -/
def applyCall (f : Faults) (c : Cluster) : Call → Cluster
  | .update obj =>
    match f.update with
    | some _ => c
    | none =>
      let stored := c.remediation
      { c with remediation := { stored with Annotations := obj.Annotations } }
  | .delete machine =>
    match f.delete with
    | some _ => c
    | none =>
      { c with
        machines :=
          deleteMachine c.machines machine.Name machine.Namespace f.finalizerStamp }
  | .statusUpdate obj =>
    match f.statusUpdate with
    | some _ => c
    | none =>
      let stored := c.remediation
      { c with remediation := { stored with Status := obj.Status } }
  | _ => c

/-- One invocation of `Reconcile` on the store: the store it leaves and
what it returned. -/
def invoke (req : Request) (c : Cluster) (f : Faults) : Cluster × Outcome :=
  ((Reconcile (clientOf c f) req).calls.foldl (applyCall f) c, Reconcile (clientOf c f) req)

/-- The number of Machine deletes of an invocation that succeeded. -/
def successfulDeletes (f : Faults) (out : Outcome) : Nat :=
  match f.delete with
  | some _ => 0
  | none => out.calls.countP Call.isDelete

/-- What may happen to the store between two invocations: Nodes, the
conditions and the other annotations of the request may change in any way;
the binding annotation is left alone; Machines may disappear but no Machine
appears or changes. -/
def EnvStep (c c' : Cluster) : Prop :=
  mapLookup c'.remediation.Annotations MachineNameNsAnnotation =
    mapLookup c.remediation.Annotations MachineNameNsAnnotation ∧
  ∀ machine ∈ c'.machines, machine ∈ c.machines

/-- The runs of `Reconcile` on one request: from a first store, any
interleaving of invocations and steps of the environment, with the number
of successful Machine deletes so far. -/
inductive Run (req : Request) : Cluster → Cluster → Nat → Prop where
  | start (c : Cluster) : Run req c c 0
  | env {c c₁ c₂ : Cluster} {n : Nat} : Run req c c₁ n → EnvStep c₁ c₂ → Run req c c₂ n
  | invoke {c c₁ : Cluster} {n : Nat} (f : Faults) : Run req c c₁ n →
      Run req c (invoke req c₁ f).1 (n + successfulDeletes f (invoke req c₁ f).2)

/-- The Machine key recorded in the binding annotation, when the
annotation is present and has exactly one separator. -/
def bindingKey (mdr : MachineDeletionRemediation) : Option (String × String) :=
  match mapLookup mdr.Annotations MachineNameNsAnnotation with
  | none => none
  | some nameNs =>
    match Split nameNs '/' with
    | [ns, name] => some (name, ns)
    | _ => none

/-- The binding annotation, when it records a key, records a Machine name. -/
def bindingNamesMachine (mdr : MachineDeletionRemediation) : Bool :=
  match bindingKey mdr with
  | some (name, _) => name != ""
  | none => true

/-- The Machine of the master node of the controller test, given an owner here. -/
def masterMachine : Machine :=
  { Name := "master-node-x-machine", Namespace := defaultNamespace,
    OwnerReferences := [{ Name := "machineSetX", Kind := "MachineSet", Controller := some true }],
    DeletionTimestamp := none, Object := [] }

/-- A store whose request carries a binding annotation without a Machine
name, with two owned Machines; the Node names the worker Machine. -/
def emptyNameCluster : Cluster :=
  { remediation := workerRemediation (some [( MachineNameNsAnnotation, "default/")])
      startedConditions
    nodes := [workerNode]
    machines := [workerMachine (some true) none [], masterMachine] }

/-- The store `emptyNameCluster` after one invocation and after the Node
was replaced by one that names the master Machine. -/
def emptyNameClusterRepointed : Cluster :=
  let after := (invoke workerRequest emptyNameCluster (noFaults none 2)).1
  let node : Node :=
    { Name := workerNodeName
      Annotations := some [(machineAnnotationOpenshift, "default/master-node-x-machine")] }
  { after with nodes := [node] }

def Call.isWrite : Call → Bool
  | .update _ => true
  | .delete _ => true
  | .statusUpdate _ => true
  | _ => false

/-- The invariant behind the single delete: the binding annotation never
records an empty Machine name, at most one delete has succeeded, and once
one has, the annotation records a key under which every Machine left in the
store carries a deletion time. -/
def DeletedAtMostOnce (c : Cluster) (n : Nat) : Prop :=
  bindingNamesMachine c.remediation = true ∧ n ≤ 1 ∧
  (n = 1 → ∃ name ns, bindingKey c.remediation = some (name, ns) ∧
    ∀ machine ∈ c.machines, machine.Name = name → machine.Namespace = ns →
      IsZero machine.DeletionTimestamp = false)

/-- The store of the controller test: a started request for the worker
node, the Node, and its owned Machine. -/
def workerCluster : Cluster :=
  { remediation := workerRemediation none startedConditions
    nodes := [workerNode]
    machines := [workerMachine (some true) none []] }

/-- The store `workerCluster` after two invocations, the Machine being held
by a finalizer, and after the Machine was then removed. -/
def workerClusterMachineGone : Cluster :=
  let after := (invoke workerRequest
    (invoke workerRequest workerCluster (noFaults (some 5) 2)).1 (noFaults (some 5) 3)).1
  { after with machines := [] }

/-- The worker node after its replacement: it names the master Machine. -/
def repointedNode : Node :=
  { Name := workerNodeName,
    Annotations := some [(machineAnnotationOpenshift, "default/master-node-x-machine")] }

/-- A started request whose binding annotation has one separator and no
Machine name. -/
def emptyNameRemediation : MachineDeletionRemediation :=
  workerRemediation (some [( MachineNameNsAnnotation, "default/")]) startedConditions

/-- The (type, status) pairs of a conditions list, in order. -/
def statusPairs (conditions : List Condition) : List (String × ConditionStatus) :=
  conditions.map fun condition => (condition.Type_, condition.Status)

/-- A client like `workerClient` whose writes answer with the given errors. -/
def faultyWorkerClient (mdr : MachineDeletionRemediation) (node : Except Err Node)
    (machine : Except Err Machine) (updateErr deleteErr statusErr : Option Err) : Client :=
  { GetRemediation := fun name ns =>
      if name = workerNodeName ∧ ns = defaultNamespace then .ok mdr else .error notFoundError
    GetNode := fun name => if name = workerNodeName then node else .error notFoundError
    GetMachine := fun name ns =>
      if name = workerNodeMachineName ∧ ns = defaultNamespace then machine
      else .error notFoundError
    Update := fun _ => updateErr
    Delete := fun _ => deleteErr
    StatusUpdate := fun _ => statusErr
    Now := 2 }

/-- A client that cannot reach the API server: every read fails with an
error that is not a not-found error. -/
def unreachableClient : Client :=
  { GetRemediation := fun _ _ => .error (.text "connection refused")
    GetNode := fun _ => .error (.text "connection refused")
    GetMachine := fun _ _ => .error (.text "connection refused")
    Update := fun _ => some (.text "connection refused")
    Delete := fun _ => some (.text "connection refused")
    StatusUpdate := fun _ => some (.text "connection refused")
    Now := 2 }

/-- The store of scenario A: a fresh request for the worker node, without
conditions and annotations, the Node, and its owned Machine, which has no
providerID. -/
def freshCluster : Cluster :=
  { remediation := workerRemediation none []
    nodes := [workerNode]
    machines := [workerMachine (some true) none []] }

/-- The invocation number `k` of scenario A: every call succeeds, and the
deleted Machine is held by a finalizer. -/
def scenarioFaults (k : Nat) : Faults := noFaults (some 5) k

def scenarioAfter1 : Cluster := (invoke workerRequest freshCluster (scenarioFaults 1)).1

def scenarioAfter2 : Cluster := (invoke workerRequest scenarioAfter1 (scenarioFaults 2)).1

def scenarioAfter3 : Cluster := (invoke workerRequest scenarioAfter2 (scenarioFaults 3)).1

def scenarioAfter4 : Cluster := (invoke workerRequest scenarioAfter3 (scenarioFaults 4)).1

/-- The store after the fourth invocation, once the Machine is removed. -/
def scenarioMachineGone : Cluster :=
  let after := scenarioAfter4
  { after with machines := [] }

def scenarioAfter5 : Cluster := (invoke workerRequest scenarioMachineGone (scenarioFaults 5)).1

/-- The store of scenario B: a started request for the worker node, whose
Node carries a machine annotation without separator. -/
def invalidPairCluster : Cluster :=
  { remediation := workerRemediation none
      [conditionOf ProcessingType ConditionTrue, conditionOf SucceededType ConditionUnknown]
    nodes := [{ Name := workerNodeName,
                Annotations := some [(machineAnnotationOpenshift, "not-a-valid-pair")] }]
    machines := [workerMachine (some true) none []] }

/-- What a pass decides: the result and error of the body, and whether it
issued the Machine delete. -/
def Pass.decision (pass : Pass) : Result × Option Err × Bool :=
  (pass.result, pass.err, pass.calls.any Call.isDelete)

/-- The conditions of a started remediation on a bare-metal platform. -/
def startedBareMetalConditions : List Condition :=
  [conditionOf ProcessingType ConditionTrue, conditionOf SucceededType ConditionUnknown,
   conditionOf PermanentNodeDeletionExpectedType ConditionFalse]

/-- The Object of a Machine with the bare-metal providerID of the test. -/
def bareMetalObject : List (String × Value) :=
  [("spec", .object [("providerID", .string "baremetal dummy provider ID")])]

/-- The store with its Machines replaced: what the environment does when
Machines are removed between two invocations. -/
def withMachines (c : Cluster) (machines : List Machine) : Cluster :=
  { c with machines := machines }

/-- The conditions that the first pass of scenario A writes at time `now`. -/
def scenarioStarted (now : Nat) : List Condition :=
  [{ Type_ := ProcessingType, Status := ConditionTrue, ObservedGeneration := 0,
     LastTransitionTime := now, Reason := remediationStarted, Message := "" },
   { Type_ := SucceededType, Status := ConditionUnknown, ObservedGeneration := 0,
     LastTransitionTime := now, Reason := remediationStarted, Message := "" }]

/-- The condition that the second pass of scenario A adds at time `now`. -/
def scenarioUnknownProvider (now : Nat) : Condition :=
  { Type_ := PermanentNodeDeletionExpectedType, Status := ConditionUnknown,
    ObservedGeneration := 0, LastTransitionTime := now,
    Reason := MachineDeletionOnUndefinedProviderReason,
    Message := machineDeletedOnUnknownProviderMessage }

/-- The conditions that the last pass of scenario A leaves at time `now`. -/
def scenarioFinished (classified now : Nat) : List Condition :=
  [{ Type_ := ProcessingType, Status := ConditionFalse, ObservedGeneration := 0,
     LastTransitionTime := now, Reason := remediationFinished, Message := "" },
   { Type_ := SucceededType, Status := ConditionTrue, ObservedGeneration := 0,
     LastTransitionTime := now, Reason := remediationFinished, Message := "" },
   scenarioUnknownProvider classified]

/-! ## Properties of the condition helpers -/

theorem IsStatusConditionPresentAndEqual_set_same (conditions : List Condition)
    (newCondition : Condition) (now : Nat) (status : ConditionStatus) :
    IsStatusConditionPresentAndEqual (SetStatusCondition conditions newCondition now)
      newCondition.Type_ status = (newCondition.Status == status) := by
  induction conditions with
  | nil => simp [SetStatusCondition, IsStatusConditionPresentAndEqual]
  | cons c cs ih =>
    by_cases h : c.Type_ = newCondition.Type_
    · simp [SetStatusCondition, IsStatusConditionPresentAndEqual, h, mergeCondition]
    · simp [SetStatusCondition, IsStatusConditionPresentAndEqual, h, ih]

theorem IsStatusConditionPresentAndEqual_set_other (conditions : List Condition)
    (newCondition : Condition) (now : Nat) (conditionType : String) (status : ConditionStatus)
    (hne : newCondition.Type_ ≠ conditionType) :
    IsStatusConditionPresentAndEqual (SetStatusCondition conditions newCondition now)
      conditionType status = IsStatusConditionPresentAndEqual conditions conditionType status := by
  induction conditions with
  | nil => simp [SetStatusCondition, IsStatusConditionPresentAndEqual, hne]
  | cons c cs ih =>
    by_cases h : c.Type_ = newCondition.Type_
    · have h2 : c.Type_ ≠ conditionType := fun e => hne (h ▸ e)
      simp [SetStatusCondition, IsStatusConditionPresentAndEqual, h, mergeCondition, h2, hne]
    · by_cases h3 : c.Type_ = conditionType
      · rw [SetStatusCondition, if_neg h]
        simp [IsStatusConditionPresentAndEqual, h3]
      · simp [SetStatusCondition, IsStatusConditionPresentAndEqual, h, h3, ih]

theorem hasControllerOwner_iff (machine : Machine) :
    hasControllerOwner machine = true ↔
      ∃ ref ∈ machine.OwnerReferences, ref.Controller = some true := by
  unfold hasControllerOwner
  rw [List.any_eq_true]
  constructor
  · rintro ⟨ref, hmem, h⟩
    refine ⟨ref, hmem, ?_⟩
    cases hc : ref.Controller with
    | none => simp [hc] at h
    | some b => simp [hc] at h; simp [h]
  · rintro ⟨ref, hmem, h⟩
    exact ⟨ref, hmem, by simp [h]⟩

theorem updateConditions_started (r : Client) (mdr : MachineDeletionRemediation) :
    updateConditions r remediationStarted mdr =
      if IsStatusConditionPresentAndEqual mdr.Status.Conditions ProcessingType ConditionFalse
        then (false, none, mdr)
      else if IsStatusConditionPresentAndEqual mdr.Status.Conditions ProcessingType ConditionTrue
          ∧ IsStatusConditionPresentAndEqual mdr.Status.Conditions SucceededType ConditionUnknown
        then (false, none, mdr)
      else (true, none, writeConditions r remediationStarted ConditionTrue ConditionUnknown mdr) := by
  simp [updateConditions, remediationStarted, writeConditions]

theorem updateConditions_finished (r : Client) (mdr : MachineDeletionRemediation) :
    updateConditions r remediationFinished mdr =
      if IsStatusConditionPresentAndEqual mdr.Status.Conditions ProcessingType ConditionFalse
          ∧ IsStatusConditionPresentAndEqual mdr.Status.Conditions SucceededType ConditionTrue
        then (false, none, mdr)
      else (true, none, writeConditions r remediationFinished ConditionFalse ConditionTrue mdr) := by
  simp [updateConditions, remediationStarted, remediationFinished, writeConditions]

theorem updateConditions_failed (r : Client) (mdr : MachineDeletionRemediation) :
    updateConditions r remediationFailed mdr =
      if IsStatusConditionPresentAndEqual mdr.Status.Conditions ProcessingType ConditionFalse
          ∧ IsStatusConditionPresentAndEqual mdr.Status.Conditions SucceededType ConditionFalse
        then (false, none, mdr)
      else (true, none, writeConditions r remediationFailed ConditionFalse ConditionFalse mdr) := by
  simp [updateConditions, remediationStarted, remediationFinished, remediationFailed,
    remediationTimedOutByNhc, writeConditions]

theorem updateConditions_timedOut (r : Client) (mdr : MachineDeletionRemediation) :
    updateConditions r remediationTimedOutByNhc mdr =
      if IsStatusConditionPresentAndEqual mdr.Status.Conditions ProcessingType ConditionFalse
          ∧ IsStatusConditionPresentAndEqual mdr.Status.Conditions SucceededType ConditionFalse
        then (false, none, mdr)
      else (true, none,
        writeConditions r remediationTimedOutByNhc ConditionFalse ConditionFalse mdr) := by
  simp [updateConditions, remediationStarted, remediationFinished, remediationFailed,
    remediationTimedOutByNhc, writeConditions]

theorem writeConditions_processing (r : Client) (reason : String) (p s st : ConditionStatus)
    (mdr : MachineDeletionRemediation) :
    IsStatusConditionPresentAndEqual (writeConditions r reason p s mdr).Status.Conditions
      ProcessingType st = (p == st) := by
  unfold writeConditions
  simp only []
  rw [IsStatusConditionPresentAndEqual_set_other _ _ _ ProcessingType _
    (show SucceededType ≠ ProcessingType by decide)]
  exact IsStatusConditionPresentAndEqual_set_same _ _ _ _

theorem writeConditions_succeeded (r : Client) (reason : String) (p s st : ConditionStatus)
    (mdr : MachineDeletionRemediation) :
    IsStatusConditionPresentAndEqual (writeConditions r reason p s mdr).Status.Conditions
      SucceededType st = (s == st) := by
  unfold writeConditions
  exact IsStatusConditionPresentAndEqual_set_same _ _ _ _

theorem writeConditions_other (r : Client) (reason : String) (p s st : ConditionStatus)
    (mdr : MachineDeletionRemediation) (conditionType : String)
    (hp : ProcessingType ≠ conditionType) (hs : SucceededType ≠ conditionType) :
    IsStatusConditionPresentAndEqual (writeConditions r reason p s mdr).Status.Conditions
      conditionType st =
    IsStatusConditionPresentAndEqual mdr.Status.Conditions conditionType st := by
  unfold writeConditions
  simp only []
  rw [IsStatusConditionPresentAndEqual_set_other _ _ _ _ _ hs,
    IsStatusConditionPresentAndEqual_set_other _ _ _ _ _ hp]

theorem updateConditions_known_err (r : Client) (reason : processingChangeReason)
    (mdr : MachineDeletionRemediation)
    (hk : reason = remediationStarted ∨ reason = remediationTimedOutByNhc ∨
      reason = remediationFinished ∨ reason = remediationFailed) :
    (updateConditions r reason mdr).2.1 = none := by
  rcases hk with h | h | h | h <;> subst h
  · rw [updateConditions_started]; split_ifs <;> rfl
  · rw [updateConditions_timedOut]; split_ifs <;> rfl
  · rw [updateConditions_finished]; split_ifs <;> rfl
  · rw [updateConditions_failed]; split_ifs <;> rfl

theorem updateConditions_false_unchanged (r : Client) (reason : processingChangeReason)
    (mdr : MachineDeletionRemediation) (h : (updateConditions r reason mdr).1 = false) :
    (updateConditions r reason mdr).2.2 = mdr := by
  unfold updateConditions at h ⊢
  dsimp only at h ⊢
  generalize (if reason = remediationStarted then some (ConditionTrue, ConditionUnknown)
    else if reason = remediationFinished then some (ConditionFalse, ConditionTrue)
    else if reason = remediationTimedOutByNhc ∨ reason = remediationFailed then
      some (ConditionFalse, ConditionFalse)
    else none) = statuses at h ⊢
  rcases statuses with _ | ⟨p, s⟩
  · rfl
  · dsimp only at h ⊢
    split_ifs at h ⊢ <;> rfl

theorem updateConditions_started_false (r : Client) (mdr : MachineDeletionRemediation)
    (h : (updateConditions r remediationStarted mdr).1 = false) :
    updateConditions r remediationStarted mdr = (false, none, mdr) := by
  have h1 := updateConditions_known_err r remediationStarted mdr (Or.inl rfl)
  have h2 := updateConditions_false_unchanged r remediationStarted mdr h
  cases hu : updateConditions r remediationStarted mdr with
  | mk a b =>
    cases b with
    | mk e m =>
      rw [hu] at h h1 h2
      simp only [] at h h1 h2
      subst h; subst h1; subst h2
      rfl

theorem reconcileBody_timedOut (r : Client) (mdr : MachineDeletionRemediation)
    (h : isTimedOutByNHC (some mdr) = true) :
    reconcileBody r mdr =
      { result := Result.empty, err := none,
        remediation := (updateConditions r remediationTimedOutByNhc mdr).2.2, calls := [] } := by
  have he := updateConditions_known_err r remediationTimedOutByNhc mdr (Or.inr (Or.inl rfl))
  unfold reconcileBody
  rw [if_pos h]
  cases hu : updateConditions r remediationTimedOutByNhc mdr with
  | mk a b =>
    cases b with
    | mk e m =>
      rw [hu] at he
      simp only [] at he
      subst he
      rfl

theorem reconcileBody_started (r : Client) (mdr : MachineDeletionRemediation)
    (h : isTimedOutByNHC (some mdr) = false)
    (hreq : (updateConditions r remediationStarted mdr).1 = true) :
    reconcileBody r mdr =
      { result := { Requeue := false, RequeueAfter := Second }, err := none,
        remediation := writeConditions r remediationStarted ConditionTrue ConditionUnknown mdr,
        calls := [] } := by
  have hu : updateConditions r remediationStarted mdr =
      (true, none, writeConditions r remediationStarted ConditionTrue ConditionUnknown mdr) := by
    rw [updateConditions_started] at hreq ⊢
    split_ifs at hreq ⊢
    rfl
  unfold reconcileBody
  rw [if_neg (by simp [h]), hu]

theorem reconcileBody_fetch (r : Client) (mdr : MachineDeletionRemediation)
    (h : isTimedOutByNHC (some mdr) = false)
    (hreq : (updateConditions r remediationStarted mdr).1 = false) :
    reconcileBody r mdr =
      match getMachine r mdr with
      | ((.error err, mustExist), calls) =>
        if IsNotFound err then
          { result := Result.empty, err := none,
            remediation := (updateConditions r
              (if mustExist then remediationFailed else remediationFinished) mdr).2.2,
            calls := calls }
        else
          { result := Result.empty, err := some err, remediation := mdr, calls := calls }
      | ((.ok machine, _), calls) => reconcileMachine r mdr machine calls := by
  have hu := updateConditions_started_false r mdr hreq
  unfold reconcileBody
  rw [if_neg (by simp [h]), hu]
  simp only []
  rcases getMachine r mdr with ⟨⟨err | machine, mustExist⟩, calls⟩
  · simp only []
    by_cases hnf : IsNotFound err = true
    · rw [if_pos hnf, if_pos hnf]
      cases mustExist
      · have he := updateConditions_known_err r remediationFinished mdr (by simp)
        simp [he]
      · have he := updateConditions_known_err r remediationFailed mdr (by simp)
        simp [he]
    · rw [if_neg hnf, if_neg hnf]
  · rfl

theorem writePermanentNodeDeletionExpected_status (r : Client) (status st : ConditionStatus)
    (mdr : MachineDeletionRemediation) :
    IsStatusConditionPresentAndEqual
      (writePermanentNodeDeletionExpected r status mdr).Status.Conditions
      PermanentNodeDeletionExpectedType st = (status == st) := by
  unfold writePermanentNodeDeletionExpected
  exact IsStatusConditionPresentAndEqual_set_same _ _ _ _

theorem setPermanentNodeDeletionExpectedCondition_eq (r : Client) (status : ConditionStatus)
    (mdr : MachineDeletionRemediation) :
    setPermanentNodeDeletionExpectedCondition r status mdr =
      if IsStatusConditionPresentAndEqual mdr.Status.Conditions
          PermanentNodeDeletionExpectedType status then (false, mdr)
      else (true, writePermanentNodeDeletionExpected r status mdr) := by
  unfold setPermanentNodeDeletionExpectedCondition
  cases status <;> rfl

theorem setPermanentNodeDeletionExpectedCondition_false (r : Client)
    (status : ConditionStatus) (mdr : MachineDeletionRemediation)
    (h : (setPermanentNodeDeletionExpectedCondition r status mdr).1 = false) :
    (setPermanentNodeDeletionExpectedCondition r status mdr).2 = mdr := by
  rw [setPermanentNodeDeletionExpectedCondition_eq] at h ⊢
  split_ifs at h ⊢
  rfl

theorem setPermanentNodeDeletionExpectedCondition_frame (r : Client)
    (status : ConditionStatus) (mdr : MachineDeletionRemediation) :
    (setPermanentNodeDeletionExpectedCondition r status mdr).2.Annotations = mdr.Annotations ∧
    (setPermanentNodeDeletionExpectedCondition r status mdr).2.Name = mdr.Name ∧
    (setPermanentNodeDeletionExpectedCondition r status mdr).2.Namespace = mdr.Namespace ∧
    (setPermanentNodeDeletionExpectedCondition r status mdr).2.DeletionTimestamp =
      mdr.DeletionTimestamp := by
  rw [setPermanentNodeDeletionExpectedCondition_eq]
  split_ifs <;> simp [writePermanentNodeDeletionExpected]

theorem setPermanentNodeDeletionExpectedCondition_other (r : Client)
    (status st : ConditionStatus) (mdr : MachineDeletionRemediation) (conditionType : String)
    (hne : PermanentNodeDeletionExpectedType ≠ conditionType) :
    IsStatusConditionPresentAndEqual
      (setPermanentNodeDeletionExpectedCondition r status mdr).2.Status.Conditions
      conditionType st =
    IsStatusConditionPresentAndEqual mdr.Status.Conditions conditionType st := by
  rw [setPermanentNodeDeletionExpectedCondition_eq]
  split_ifs
  · rfl
  · unfold writePermanentNodeDeletionExpected
    exact IsStatusConditionPresentAndEqual_set_other _ _ _ _ _ hne

theorem setPermanentNodeDeletionExpectedCondition_status (r : Client)
    (status : ConditionStatus) (mdr : MachineDeletionRemediation) :
    IsStatusConditionPresentAndEqual
      (setPermanentNodeDeletionExpectedCondition r status mdr).2.Status.Conditions
      PermanentNodeDeletionExpectedType status = true := by
  rw [setPermanentNodeDeletionExpectedCondition_eq]
  split_ifs with h
  · exact h
  · rw [writePermanentNodeDeletionExpected_status]
    simp

theorem updateConditions_frame (r : Client) (reason : processingChangeReason)
    (mdr : MachineDeletionRemediation) :
    (updateConditions r reason mdr).2.2.Annotations = mdr.Annotations ∧
    (updateConditions r reason mdr).2.2.Name = mdr.Name ∧
    (updateConditions r reason mdr).2.2.Namespace = mdr.Namespace ∧
    (updateConditions r reason mdr).2.2.DeletionTimestamp = mdr.DeletionTimestamp := by
  unfold updateConditions
  dsimp only
  generalize (if reason = remediationStarted then some (ConditionTrue, ConditionUnknown)
    else if reason = remediationFinished then some (ConditionFalse, ConditionTrue)
    else if reason = remediationTimedOutByNhc ∨ reason = remediationFailed then
      some (ConditionFalse, ConditionFalse)
    else none) = statuses
  rcases statuses with _ | ⟨p, s⟩
  · simp
  · dsimp only
    split_ifs <;> simp

theorem saveMachineNameNs_status (r : Client) (mdr : MachineDeletionRemediation)
    (machineName machineNamespace : String) :
    (saveMachineNameNs r mdr machineName machineNamespace).2.1.Status = mdr.Status ∧
    (saveMachineNameNs r mdr machineName machineNamespace).2.1.Name = mdr.Name := by
  unfold saveMachineNameNs
  dsimp only
  split
  · simp
  · split_ifs <;> simp

theorem saveMachineNameNs_calls (r : Client) (mdr : MachineDeletionRemediation)
    (machineName machineNamespace : String) :
    (saveMachineNameNs r mdr machineName machineNamespace).2.2.any Call.isDelete = false ∧
    (saveMachineNameNs r mdr machineName machineNamespace).2.2.any Call.isGetNode = false ∧
    (saveMachineNameNs r mdr machineName machineNamespace).2.2.any Call.isGetMachine = false := by
  unfold saveMachineNameNs
  dsimp only
  split
  · simp [Call.isDelete, Call.isGetNode, Call.isGetMachine]
  · split_ifs <;> simp [Call.isDelete, Call.isGetNode, Call.isGetMachine]

theorem getMachineByKey_calls (r : Client) (machineName machineNs : String) (mustExist : Bool)
    (calls : List Call) :
    (getMachineByKey r machineName machineNs mustExist calls).2 =
      calls ++ [.getMachine machineName machineNs] := by
  unfold getMachineByKey
  split <;> rfl

theorem getMachine_calls (r : Client) (mdr : MachineDeletionRemediation) :
    (getMachine r mdr).2.any Call.isDelete = false ∧
    (getMachine r mdr).2.any Call.isUpdate = false := by
  unfold getMachine
  split
  · simp
  · split_ifs
    · unfold getNodeFromMdr
      cases r.GetNode mdr.Name with
      | error e => simp [Call.isDelete, Call.isUpdate]
      | ok node =>
        dsimp only
        split
        · simp [Call.isDelete, Call.isUpdate]
        · rw [getMachineByKey_calls]; simp [Call.isDelete, Call.isUpdate]
    · rw [getMachineByKey_calls]; simp [Call.isDelete, Call.isUpdate]

theorem saveMachineNameNs_eq (r : Client) (mdr : MachineDeletionRemediation)
    (machineName machineNamespace : String) :
    saveMachineNameNs r mdr machineName machineNamespace =
      if (mapLookup mdr.Annotations MachineNameNsAnnotation).isSome then (none, mdr, [])
      else (r.Update (withMachineNameNs mdr machineName machineNamespace),
        withMachineNameNs mdr machineName machineNamespace,
        [.update (withMachineNameNs mdr machineName machineNamespace)]) := by
  unfold saveMachineNameNs withMachineNameNs mapLookup
  cases h : mdr.Annotations with
  | none => simp
  | some annotations =>
    dsimp only
    split_ifs <;> simp

theorem reconcileMachine_eq (r : Client) (mdr : MachineDeletionRemediation)
    (machine : Machine) (calls : List Call) :
    reconcileMachine r mdr machine calls =
      if (getMachineProviderID machine).2.isSome then
        { result := Result.empty, err := none, remediation := mdr, calls := calls }
      else if IsStatusConditionPresentAndEqual mdr.Status.Conditions
          PermanentNodeDeletionExpectedType
          (providerStatus (getMachineProviderID machine).1) = false then
        { result := { Requeue := false, RequeueAfter := Second }, err := none,
          remediation := writePermanentNodeDeletionExpected r
            (providerStatus (getMachineProviderID machine).1) mdr,
          calls := calls }
      else if IsZero machine.DeletionTimestamp = false then
        { result := { Requeue := false, RequeueAfter := 30 * Second }, err := none,
          remediation := mdr, calls := calls }
      else if hasControllerOwner machine = false then
        { result := Result.empty, err := none, remediation := mdr, calls := calls }
      else if (mapLookup mdr.Annotations MachineNameNsAnnotation).isSome then
        { result := if (r.Delete machine).isSome then Result.empty
                    else { Requeue := true, RequeueAfter := 0 },
          err := r.Delete machine, remediation := mdr,
          calls := calls ++ [.delete machine] }
      else
        match r.Update (withMachineNameNs mdr machine.Name machine.Namespace) with
        | some err =>
          { result := Result.empty,
            err := some (.wrap
              ("failed to save Machine's name and namespace: " ++ err.Error) err),
            remediation := withMachineNameNs mdr machine.Name machine.Namespace,
            calls := calls ++ [.update (withMachineNameNs mdr machine.Name machine.Namespace)] }
        | none =>
          { result := if (r.Delete machine).isSome then Result.empty
                      else { Requeue := true, RequeueAfter := 0 },
            err := r.Delete machine,
            remediation := withMachineNameNs mdr machine.Name machine.Namespace,
            calls := calls ++ [.update (withMachineNameNs mdr machine.Name machine.Namespace),
              .delete machine] } := by
  unfold reconcileMachine
  rcases hp : getMachineProviderID machine with ⟨providerID, _ | perr⟩
  · simp only [Option.isSome_none, Bool.false_eq_true, if_false]
    rw [setPermanentNodeDeletionExpectedCondition_eq]
    by_cases hc : IsStatusConditionPresentAndEqual mdr.Status.Conditions
        PermanentNodeDeletionExpectedType (providerStatus providerID) = true
    · simp only [hc, if_true, Bool.true_eq_false, if_false]
      by_cases hz : IsZero machine.DeletionTimestamp = true
      · simp only [hz, Bool.not_true, Bool.false_eq_true, if_false, Bool.true_eq_false]
        by_cases ho : hasControllerOwner machine = true
        · simp only [ho, Bool.not_true, Bool.false_eq_true, if_false, Bool.true_eq_false]
          rw [saveMachineNameNs_eq]
          by_cases ha : (mapLookup mdr.Annotations MachineNameNsAnnotation).isSome = true
          · simp only [ha, if_true]
            cases r.Delete machine <;> simp
          · simp only [ha, if_false]
            cases r.Update (withMachineNameNs mdr machine.Name machine.Namespace) with
            | some e => simp
            | none => cases r.Delete machine <;> simp
        · simp only [Bool.not_eq_true] at ho
          simp [ho]
      · simp only [Bool.not_eq_true] at hz
        simp [hz]
    · simp only [Bool.not_eq_true] at hc
      simp [hc]
  · simp

theorem Reconcile_calls (r : Client) (req : Request) (mdr : MachineDeletionRemediation)
    (hload : r.GetRemediation req.Name req.Namespace = .ok mdr) :
    (Reconcile r req).calls =
      Call.getRemediation req.Name req.Namespace ::
        ((reconcileBody r mdr).calls ++ [Call.statusUpdate (reconcileBody r mdr).remediation]) := by
  unfold Reconcile getRemediation updateStatus
  rw [hload]
  dsimp only
  cases r.StatusUpdate (reconcileBody r mdr).remediation <;> simp

theorem Reconcile_remediation (r : Client) (req : Request) (mdr : MachineDeletionRemediation)
    (hload : r.GetRemediation req.Name req.Namespace = .ok mdr) :
    (Reconcile r req).remediation = some (reconcileBody r mdr).remediation := by
  unfold Reconcile getRemediation updateStatus
  rw [hload]
  dsimp only
  cases r.StatusUpdate (reconcileBody r mdr).remediation <;> simp

theorem Reconcile_any (r : Client) (req : Request) (mdr : MachineDeletionRemediation)
    (hload : r.GetRemediation req.Name req.Namespace = .ok mdr) (p : Call → Bool)
    (hget : ∀ name ns, p (.getRemediation name ns) = false)
    (hstatus : ∀ obj, p (.statusUpdate obj) = false) :
    (Reconcile r req).calls.any p = (reconcileBody r mdr).calls.any p := by
  rw [Reconcile_calls r req mdr hload]
  simp [hget, hstatus]

theorem reconcileBody_unowned_no_delete (r : Client) (mdr : MachineDeletionRemediation)
    (machine : Machine) (mustExist : Bool) (calls : List Call)
    (hfetch : getMachine r mdr = ((.ok machine, mustExist), calls))
    (hown : hasControllerOwner machine = false) :
    (reconcileBody r mdr).calls.any Call.isDelete = false := by
  have hcalls : calls.any Call.isDelete = false := by
    have h := (getMachine_calls r mdr).1
    rw [hfetch] at h
    exact h
  by_cases ht : isTimedOutByNHC (some mdr) = true
  · rw [reconcileBody_timedOut r mdr ht]
    rfl
  · simp only [Bool.not_eq_true] at ht
    by_cases hs : (updateConditions r remediationStarted mdr).1 = true
    · rw [reconcileBody_started r mdr ht hs]
      rfl
    · simp only [Bool.not_eq_true] at hs
      rw [reconcileBody_fetch r mdr ht hs, hfetch]
      dsimp only
      rw [reconcileMachine_eq]
      split_ifs <;> simp_all

/-- C1: when the machine that Reconcile fetches has no owner reference whose
controller flag is set and true, the invocation issues no delete call; and
hasControllerOwner is true exactly when some owner reference has a non-nil
controller flag equal to true. -/
theorem C1_unowned_machine_is_never_deleted (r : Client) (req : Request)
    (mdr : MachineDeletionRemediation) (machine : Machine) (mustExist : Bool)
    (calls : List Call)
    (hload : r.GetRemediation req.Name req.Namespace = .ok mdr)
    (hfetch : getMachine r mdr = ((.ok machine, mustExist), calls))
    (hown : ∀ ref ∈ machine.OwnerReferences, ref.Controller ≠ some true) :
    (Reconcile r req).calls.any Call.isDelete = false ∧
    hasControllerOwner machine = false ∧
    (∀ m : Machine, hasControllerOwner m = true ↔
      ∃ ref ∈ m.OwnerReferences, ref.Controller = some true) := by
  have hno : hasControllerOwner machine = false := by
    rw [← Bool.not_eq_true, hasControllerOwner_iff]
    rintro ⟨ref, hmem, hc⟩
    exact hown ref hmem hc
  refine ⟨?_, hno, hasControllerOwner_iff⟩
  rw [Reconcile_any r req mdr hload Call.isDelete (fun _ _ => rfl) (fun _ => rfl)]
  exact reconcileBody_unowned_no_delete r mdr machine mustExist calls hfetch hno

/-- Witness of C1: the worker Machine with its only owner reference flagged
`controller: false`, in a state where an owned Machine would be deleted. -/
theorem C1_unowned_machine_is_never_deleted_witness :
    (Reconcile (workerClient (workerRemediation none startedConditions) (.ok workerNode)
        (.ok (workerMachine (some false) none []))) workerRequest).calls.any Call.isDelete = false
    ∧ hasControllerOwner (workerMachine (some false) none []) = false :=
  have h := C1_unowned_machine_is_never_deleted
    (workerClient (workerRemediation none startedConditions) (.ok workerNode)
      (.ok (workerMachine (some false) none [])))
    workerRequest (workerRemediation none startedConditions)
    (workerMachine (some false) none []) true
    [.getNode workerNodeName, .getMachine workerNodeMachineName defaultNamespace]
    rfl rfl (by decide)
  ⟨h.1, h.2.1⟩

theorem HasPrefix_empty_baremetal : HasPrefix "" "baremetal" = false := by decide

theorem reconcileMachine_status (r : Client) (mdr : MachineDeletionRemediation)
    (machine : Machine) (calls : List Call) (providerID : String)
    (hp : getMachineProviderID machine = (providerID, none)) :
    (reconcileMachine r mdr machine calls).remediation.Status =
      (setPermanentNodeDeletionExpectedCondition r (providerStatus providerID) mdr).2.Status := by
  rw [reconcileMachine_eq, setPermanentNodeDeletionExpectedCondition_eq, hp]
  by_cases hc : IsStatusConditionPresentAndEqual mdr.Status.Conditions
      PermanentNodeDeletionExpectedType (providerStatus providerID) = true
  · simp only [hc, if_true, Option.isSome_none, Bool.false_eq_true, if_false, Bool.true_eq_false]
    split_ifs <;> first | rfl | (split <;> rfl)
  · simp only [Bool.not_eq_true] at hc
    simp [hc]

/-- C2: the status Reconcile hands to setPermanentNodeDeletionExpectedCondition
for a providerID p is Unknown when p is empty, False when p starts with
"baremetal", True for every other non-empty p; exactly one of the three
cases applies; and the conditions Reconcile leaves are those of that call,
so PermanentNodeDeletionExpected carries that status. -/
theorem C2_provider_classification (p : String) (r : Client) (req : Request)
    (mdr : MachineDeletionRemediation) (machine : Machine) (mustExist : Bool)
    (calls : List Call)
    (hload : r.GetRemediation req.Name req.Namespace = .ok mdr)
    (hstop : isTimedOutByNHC (some mdr) = false)
    (hstarted : (updateConditions r remediationStarted mdr).1 = false)
    (hfetch : getMachine r mdr = ((.ok machine, mustExist), calls))
    (hp : getMachineProviderID machine = (p, none)) :
    (p = "" → providerStatus p = ConditionUnknown) ∧
    (HasPrefix p "baremetal" = true → providerStatus p = ConditionFalse) ∧
    (p ≠ "" → HasPrefix p "baremetal" = false → providerStatus p = ConditionTrue) ∧
    ((p = "" ∧ HasPrefix p "baremetal" = false) ∨
      (p ≠ "" ∧ HasPrefix p "baremetal" = true) ∨
      (p ≠ "" ∧ HasPrefix p "baremetal" = false)) ∧
    (∃ final, (Reconcile r req).remediation = some final ∧
      final.Status =
        (setPermanentNodeDeletionExpectedCondition r (providerStatus p) mdr).2.Status ∧
      IsStatusConditionPresentAndEqual final.Status.Conditions
        PermanentNodeDeletionExpectedType (providerStatus p) = true) := by
  refine ⟨?_, ?_, ?_, ?_, ?_⟩
  · intro h
    simp [providerStatus, h]
  · intro h
    have hne : p ≠ "" := by
      rintro rfl
      rw [HasPrefix_empty_baremetal] at h
      exact Bool.noConfusion h
    simp [providerStatus, hne, h]
  · intro hne h
    simp [providerStatus, hne, h]
  · by_cases hne : p = ""
    · subst hne
      exact Or.inl ⟨rfl, HasPrefix_empty_baremetal⟩
    · cases h : HasPrefix p "baremetal"
      · exact Or.inr (Or.inr ⟨hne, rfl⟩)
      · exact Or.inr (Or.inl ⟨hne, rfl⟩)
  · refine ⟨(reconcileBody r mdr).remediation, Reconcile_remediation r req mdr hload, ?_⟩
    have hbody : (reconcileBody r mdr).remediation.Status =
        (setPermanentNodeDeletionExpectedCondition r (providerStatus p) mdr).2.Status := by
      rw [reconcileBody_fetch r mdr hstop hstarted, hfetch]
      exact reconcileMachine_status r mdr machine calls p hp
    refine ⟨hbody, ?_⟩
    rw [hbody]
    exact setPermanentNodeDeletionExpectedCondition_status r (providerStatus p) mdr

/-- Witness of C2: the bare-metal providerID of the controller test, on a
started remediation whose Machine is found through the Node. -/
theorem C2_provider_classification_witness :
    providerStatus "baremetal dummy provider ID" = ConditionFalse ∧
    (∃ final,
      (Reconcile (workerClient
        (workerRemediation none
          [conditionOf ProcessingType ConditionTrue, conditionOf SucceededType ConditionUnknown])
        (.ok workerNode)
        (.ok (workerMachine (some true) none
          [("spec", .object [("providerID", .string "baremetal dummy provider ID")])])))
        workerRequest).remediation = some final ∧
      IsStatusConditionPresentAndEqual final.Status.Conditions
        PermanentNodeDeletionExpectedType ConditionFalse = true) :=
  have h := C2_provider_classification "baremetal dummy provider ID"
    (workerClient
      (workerRemediation none
        [conditionOf ProcessingType ConditionTrue, conditionOf SucceededType ConditionUnknown])
      (.ok workerNode)
      (.ok (workerMachine (some true) none
        [("spec", .object [("providerID", .string "baremetal dummy provider ID")])])))
    workerRequest
    (workerRemediation none
      [conditionOf ProcessingType ConditionTrue, conditionOf SucceededType ConditionUnknown])
    (workerMachine (some true) none
      [("spec", .object [("providerID", .string "baremetal dummy provider ID")])])
    true [.getNode workerNodeName, .getMachine workerNodeMachineName defaultNamespace]
    rfl rfl rfl rfl rfl
  ⟨h.2.1 (by decide), h.2.2.2.2.imp fun _ hf => ⟨hf.1, (h.2.1 (by decide)) ▸ hf.2.2⟩⟩

theorem isTimedOutByNHC_iff (remediation : Option MachineDeletionRemediation) :
    isTimedOutByNHC remediation = true ↔
      ∃ mdr value, remediation = some mdr ∧ mdr.DeletionTimestamp = none ∧
        mapLookup mdr.Annotations NhcTimedOut = some value := by
  cases remediation with
  | none => simp [isTimedOutByNHC]
  | some mdr =>
    unfold isTimedOutByNHC mapLookup
    cases ha : mdr.Annotations with
    | none => simp [ha]
    | some annotations =>
      cases hd : mdr.DeletionTimestamp with
      | none => simp [ha, hd, Option.isSome_iff_exists]
      | some t => simp [ha, hd]

/-- C10: isTimedOutByNHC is true exactly for a non-nil request without a
deletion timestamp whose annotations hold the stop-signal key, whatever
the value stored under it (the empty string included); it is false for a
nil request, nil annotations, a missing key, and a request with a deletion
timestamp. -/
theorem C10_isTimedOutByNHC_iff (remediation : Option MachineDeletionRemediation) :
    (isTimedOutByNHC remediation = true ↔
      ∃ mdr value, remediation = some mdr ∧ mdr.DeletionTimestamp = none ∧
        mapLookup mdr.Annotations NhcTimedOut = some value) ∧
    isTimedOutByNHC none = false ∧
    (∀ mdr, mdr.Annotations = none → isTimedOutByNHC (some mdr) = false) ∧
    (∀ mdr, mapLookup mdr.Annotations NhcTimedOut = none →
      isTimedOutByNHC (some mdr) = false) ∧
    (∀ mdr t, mdr.DeletionTimestamp = some t → isTimedOutByNHC (some mdr) = false) ∧
    (∀ mdr entries, mdr.DeletionTimestamp = none →
      mdr.Annotations = some ((NhcTimedOut, "") :: entries) →
      isTimedOutByNHC (some mdr) = true) := by
  refine ⟨isTimedOutByNHC_iff remediation, rfl, ?_, ?_, ?_, ?_⟩
  · intro mdr ha
    rw [← Bool.not_eq_true, isTimedOutByNHC_iff]
    rintro ⟨m, v, hm, -, hv⟩
    cases hm
    simp [mapLookup, ha] at hv
  · intro mdr hl
    rw [← Bool.not_eq_true, isTimedOutByNHC_iff]
    rintro ⟨m, v, hm, -, hv⟩
    cases hm
    rw [hl] at hv
    cases hv
  · intro mdr t hd
    rw [← Bool.not_eq_true, isTimedOutByNHC_iff]
    rintro ⟨m, v, hm, hn, -⟩
    cases hm
    rw [hd] at hn
    cases hn
  · intro mdr entries hd ha
    rw [isTimedOutByNHC_iff]
    exact ⟨mdr, "", rfl, hd, by simp [mapLookup, ha, List.lookup]⟩

theorem IsStatusConditionPresentAndEqual_unique (conditions : List Condition)
    (conditionType : String) (s₁ s₂ : ConditionStatus)
    (h₁ : IsStatusConditionPresentAndEqual conditions conditionType s₁ = true)
    (h₂ : IsStatusConditionPresentAndEqual conditions conditionType s₂ = true) : s₁ = s₂ := by
  induction conditions with
  | nil => simp [IsStatusConditionPresentAndEqual] at h₁
  | cons c cs ih =>
    unfold IsStatusConditionPresentAndEqual at h₁ h₂
    split_ifs at h₁ h₂
    · simp only [beq_iff_eq] at h₁ h₂
      rw [← h₁, ← h₂]
    · exact ih h₁ h₂

theorem updateConditions_keeps_processing_false (r : Client) (reason : processingChangeReason)
    (mdr : MachineDeletionRemediation)
    (h : IsStatusConditionPresentAndEqual mdr.Status.Conditions ProcessingType
      ConditionFalse = true) :
    IsStatusConditionPresentAndEqual (updateConditions r reason mdr).2.2.Status.Conditions
      ProcessingType ConditionFalse = true := by
  unfold updateConditions
  dsimp only
  split_ifs with h1 h2 h3
  · subst h1
    simp [h]
  · subst h2
    simp only [true_and, reduceCtorEq, false_and, if_false]
    split_ifs
    · exact h
    · exact writeConditions_processing r remediationFinished ConditionFalse ConditionTrue
        ConditionFalse mdr
  · simp only [true_and, reduceCtorEq, false_and, if_false]
    split_ifs
    · exact h
    · exact writeConditions_processing r reason ConditionFalse ConditionFalse
        ConditionFalse mdr
  · exact h

theorem reconcileMachine_other (r : Client) (mdr : MachineDeletionRemediation)
    (machine : Machine) (calls : List Call) (conditionType : String) (st : ConditionStatus)
    (hne : PermanentNodeDeletionExpectedType ≠ conditionType) :
    IsStatusConditionPresentAndEqual
      (reconcileMachine r mdr machine calls).remediation.Status.Conditions conditionType st =
    IsStatusConditionPresentAndEqual mdr.Status.Conditions conditionType st := by
  rcases hp : getMachineProviderID machine with ⟨providerID, _ | perr⟩
  · rw [reconcileMachine_status r mdr machine calls providerID hp]
    exact setPermanentNodeDeletionExpectedCondition_other r _ st mdr conditionType hne
  · rw [reconcileMachine_eq, hp]
    rfl

theorem reconcileBody_keeps_processing_false (r : Client) (mdr : MachineDeletionRemediation)
    (h : IsStatusConditionPresentAndEqual mdr.Status.Conditions ProcessingType
      ConditionFalse = true) :
    IsStatusConditionPresentAndEqual (reconcileBody r mdr).remediation.Status.Conditions
      ProcessingType ConditionFalse = true := by
  by_cases ht : isTimedOutByNHC (some mdr) = true
  · rw [reconcileBody_timedOut r mdr ht]
    exact updateConditions_keeps_processing_false r _ mdr h
  · simp only [Bool.not_eq_true] at ht
    have hs : (updateConditions r remediationStarted mdr).1 = false := by
      rw [updateConditions_started, if_pos h]
    rw [reconcileBody_fetch r mdr ht hs]
    rcases getMachine r mdr with ⟨⟨err | machine, mustExist⟩, calls⟩
    · dsimp only
      by_cases hnf : IsNotFound err = true
      · rw [if_pos hnf]
        exact updateConditions_keeps_processing_false r _ mdr h
      · rw [if_neg hnf]
        exact h
    · dsimp only
      rw [reconcileMachine_other r mdr machine calls ProcessingType ConditionFalse (by decide)]
      exact h

/-- C3: once Processing is present with status False, updateConditions with
RemediationStarted returns (false, nil) and changes nothing, updateConditions
with any other known reason leaves Processing at False, and an invocation of
Reconcile on such a request ends with Processing at False, never at True. -/
theorem C3_processing_is_never_rearmed (r : Client) (mdr : MachineDeletionRemediation)
    (h : IsStatusConditionPresentAndEqual mdr.Status.Conditions ProcessingType
      ConditionFalse = true) :
    updateConditions r remediationStarted mdr = (false, none, mdr) ∧
    (∀ reason, reason = remediationTimedOutByNhc ∨ reason = remediationFinished ∨
        reason = remediationFailed →
      IsStatusConditionPresentAndEqual (updateConditions r reason mdr).2.2.Status.Conditions
        ProcessingType ConditionFalse = true) ∧
    (∀ req, r.GetRemediation req.Name req.Namespace = .ok mdr →
      ∃ final, (Reconcile r req).remediation = some final ∧
        IsStatusConditionPresentAndEqual final.Status.Conditions ProcessingType
          ConditionFalse = true ∧
        IsStatusConditionPresentAndEqual final.Status.Conditions ProcessingType
          ConditionTrue = false) := by
  refine ⟨?_, ?_, ?_⟩
  · rw [updateConditions_started, if_pos h]
  · intro reason _
    exact updateConditions_keeps_processing_false r reason mdr h
  · intro req hload
    have hf := reconcileBody_keeps_processing_false r mdr h
    refine ⟨_, Reconcile_remediation r req mdr hload, hf, ?_⟩
    rw [← Bool.not_eq_true]
    intro ht
    have := IsStatusConditionPresentAndEqual_unique _ _ _ _ hf ht
    cases this

/-- Witness of C3: a finished remediation (Processing=False, Succeeded=True)
whose Machine exists again, owned and not being deleted. -/
theorem C3_processing_is_never_rearmed_witness :
    updateConditions
      (workerClient (workerRemediation none [conditionOf ProcessingType ConditionFalse,
        conditionOf SucceededType ConditionTrue]) (.ok workerNode)
        (.ok (workerMachine (some true) none [])))
      remediationStarted
      (workerRemediation none [conditionOf ProcessingType ConditionFalse,
        conditionOf SucceededType ConditionTrue]) =
      (false, none, workerRemediation none [conditionOf ProcessingType ConditionFalse,
        conditionOf SucceededType ConditionTrue]) :=
  (C3_processing_is_never_rearmed
    (workerClient (workerRemediation none [conditionOf ProcessingType ConditionFalse,
      conditionOf SucceededType ConditionTrue]) (.ok workerNode)
      (.ok (workerMachine (some true) none [])))
    (workerRemediation none [conditionOf ProcessingType ConditionFalse,
      conditionOf SucceededType ConditionTrue]) (by decide)).1

theorem updateConditions_failed_conditions (r : Client) (mdr : MachineDeletionRemediation) :
    IsStatusConditionPresentAndEqual
      (updateConditions r remediationFailed mdr).2.2.Status.Conditions
      ProcessingType ConditionFalse = true ∧
    IsStatusConditionPresentAndEqual
      (updateConditions r remediationFailed mdr).2.2.Status.Conditions
      SucceededType ConditionFalse = true := by
  rw [updateConditions_failed]
  split_ifs with h
  · exact h
  · exact ⟨writeConditions_processing r _ _ _ _ mdr, writeConditions_succeeded r _ _ _ _ mdr⟩

theorem updateConditions_timedOut_conditions (r : Client) (mdr : MachineDeletionRemediation) :
    IsStatusConditionPresentAndEqual
      (updateConditions r remediationTimedOutByNhc mdr).2.2.Status.Conditions
      ProcessingType ConditionFalse = true ∧
    IsStatusConditionPresentAndEqual
      (updateConditions r remediationTimedOutByNhc mdr).2.2.Status.Conditions
      SucceededType ConditionFalse = true := by
  rw [updateConditions_timedOut]
  split_ifs with h
  · exact h
  · exact ⟨writeConditions_processing r _ _ _ _ mdr, writeConditions_succeeded r _ _ _ _ mdr⟩

theorem updateConditions_finished_conditions (r : Client) (mdr : MachineDeletionRemediation) :
    IsStatusConditionPresentAndEqual
      (updateConditions r remediationFinished mdr).2.2.Status.Conditions
      ProcessingType ConditionFalse = true ∧
    IsStatusConditionPresentAndEqual
      (updateConditions r remediationFinished mdr).2.2.Status.Conditions
      SucceededType ConditionTrue = true := by
  rw [updateConditions_finished]
  split_ifs with h
  · exact h
  · exact ⟨writeConditions_processing r _ _ _ _ mdr, writeConditions_succeeded r _ _ _ _ mdr⟩

theorem getMachine_flag (r : Client) (mdr : MachineDeletionRemediation)
    (hreach : (getMachine r mdr).2.any Call.isGetMachine = true) :
    ((getMachine r mdr).1.2 = true → (getMachine r mdr).2.any Call.isGetNode = true) ∧
    ((getMachine r mdr).1.2 = false →
      (getMachine r mdr).2.any Call.isGetNode = false ∧
      ∃ value, mapLookup mdr.Annotations MachineNameNsAnnotation = some value) := by
  unfold getMachine at hreach ⊢
  rcases hn : getMachineNameNsFromRemediation mdr with ⟨name, ns, _ | e⟩
  · rw [hn] at hreach
    dsimp only at hreach ⊢
    by_cases hname : name = ""
    · rw [if_pos hname] at hreach ⊢
      unfold getNodeFromMdr at hreach ⊢
      cases hg : r.GetNode mdr.Name with
      | error e =>
        rw [hg] at hreach
        simp [Call.isGetMachine] at hreach
      | ok node =>
        rw [hg] at hreach
        dsimp only at hreach ⊢
        rcases hnn : getMachineNameNsFromNode node with ⟨name2, ns2, _ | e2⟩
        · dsimp only
          unfold getMachineByKey
          cases r.GetMachine name2 ns2 <;> simp [Call.isGetNode]
        · rw [hnn] at hreach
          simp [Call.isGetMachine] at hreach
    · rw [if_neg hname]
      have hval : ∃ value, mapLookup mdr.Annotations MachineNameNsAnnotation = some value := by
        cases hl : mapLookup mdr.Annotations MachineNameNsAnnotation with
        | none =>
          unfold getMachineNameNsFromRemediation at hn
          rw [hl] at hn
          simp only [Prod.mk.injEq] at hn
          exact absurd hn.1.symm hname
        | some value => exact ⟨value, rfl⟩
      unfold getMachineByKey
      cases r.GetMachine name ns <;> simp [Call.isGetNode, Call.isGetMachine, hval]
  · rw [hn] at hreach
    simp at hreach

theorem reconcileBody_reaches_fetch (r : Client) (mdr : MachineDeletionRemediation)
    (hreach : (reconcileBody r mdr).calls.any Call.isGetMachine = true) :
    isTimedOutByNHC (some mdr) = false ∧
    (updateConditions r remediationStarted mdr).1 = false := by
  by_cases ht : isTimedOutByNHC (some mdr) = true
  · rw [reconcileBody_timedOut r mdr ht] at hreach
    simp at hreach
  · simp only [Bool.not_eq_true] at ht
    refine ⟨ht, ?_⟩
    by_cases hs : (updateConditions r remediationStarted mdr).1 = true
    · rw [reconcileBody_started r mdr ht hs] at hreach
      simp at hreach
    · simpa using hs

/-- C4: when an invocation of Reconcile reaches the machine fetch and the
fetch reports not-found, the pass ends with Processing=False and with
Succeeded=False if the identity came from the Node (must-exist flag true),
Succeeded=True if it came from the binding annotation (flag false); no
delete is issued and the body returns the empty result with no error. -/
theorem C4_machine_not_found (r : Client) (req : Request)
    (mdr : MachineDeletionRemediation) (err : Err) (mustExist : Bool) (calls : List Call)
    (hload : r.GetRemediation req.Name req.Namespace = .ok mdr)
    (hreach : (Reconcile r req).calls.any Call.isGetMachine = true)
    (hfetch : getMachine r mdr = ((.error err, mustExist), calls))
    (hnf : IsNotFound err = true) :
    (reconcileBody r mdr).result = Result.empty ∧
    (reconcileBody r mdr).err = none ∧
    (Reconcile r req).calls.any Call.isDelete = false ∧
    (∃ final, (Reconcile r req).remediation = some final ∧
      IsStatusConditionPresentAndEqual final.Status.Conditions ProcessingType
        ConditionFalse = true ∧
      IsStatusConditionPresentAndEqual final.Status.Conditions SucceededType
        (if mustExist then ConditionFalse else ConditionTrue) = true) ∧
    (mustExist = true → calls.any Call.isGetNode = true) ∧
    (mustExist = false → calls.any Call.isGetNode = false ∧
      ∃ value, mapLookup mdr.Annotations MachineNameNsAnnotation = some value) := by
  rw [Reconcile_any r req mdr hload Call.isGetMachine (fun _ _ => rfl) (fun _ => rfl)] at hreach
  obtain ⟨ht, hs⟩ := reconcileBody_reaches_fetch r mdr hreach
  have hbody : reconcileBody r mdr =
      { result := Result.empty, err := none,
        remediation := (updateConditions r
          (if mustExist then remediationFailed else remediationFinished) mdr).2.2,
        calls := calls } := by
    rw [reconcileBody_fetch r mdr ht hs, hfetch]
    dsimp only
    rw [if_pos hnf]
  have hcalls : (getMachine r mdr).2.any Call.isGetMachine = true := by
    rw [hbody] at hreach
    rw [hfetch]
    exact hreach
  have hflag := getMachine_flag r mdr hcalls
  rw [hfetch] at hflag
  refine ⟨by rw [hbody], by rw [hbody], ?_, ?_, hflag.1, hflag.2⟩
  · rw [Reconcile_any r req mdr hload Call.isDelete (fun _ _ => rfl) (fun _ => rfl), hbody]
    have h := (getMachine_calls r mdr).1
    rw [hfetch] at h
    exact h
  · refine ⟨_, Reconcile_remediation r req mdr hload, ?_⟩
    rw [hbody]
    cases mustExist
    · exact updateConditions_finished_conditions r mdr
    · exact updateConditions_failed_conditions r mdr

/-- Witness of C4, cold path: a started remediation without the binding
annotation, whose Node names a Machine that does not exist. -/
theorem C4_machine_not_found_witness :
    (Reconcile (workerClient (workerRemediation none startedConditions) (.ok workerNode)
      (.error notFoundError)) workerRequest).calls.any Call.isDelete = false ∧
    (∃ final, (Reconcile (workerClient (workerRemediation none startedConditions)
        (.ok workerNode) (.error notFoundError)) workerRequest).remediation = some final ∧
      IsStatusConditionPresentAndEqual final.Status.Conditions ProcessingType
        ConditionFalse = true ∧
      IsStatusConditionPresentAndEqual final.Status.Conditions SucceededType
        ConditionFalse = true) :=
  have h := C4_machine_not_found
    (workerClient (workerRemediation none startedConditions) (.ok workerNode)
      (.error notFoundError))
    workerRequest (workerRemediation none startedConditions) notFoundError true
    [.getNode workerNodeName, .getMachine workerNodeMachineName defaultNamespace]
    rfl (by decide) rfl (by decide)
  ⟨h.2.2.1, h.2.2.2.1⟩

/-- C5, the code at the failing input: a request without any annotation,
started by an earlier pass (Processing=True, Succeeded=Unknown), whose Node
does not exist. The Node lookup fails with not-found, no Machine is fetched
and none is deleted, and the pass still records Succeeded=True. -/
theorem C5_missing_node_is_marked_finished :
    mapLookup
      (workerRemediation none
        [conditionOf ProcessingType ConditionTrue,
          conditionOf SucceededType ConditionUnknown]).Annotations
      MachineNameNsAnnotation = none ∧
    (Reconcile (workerClient
      (workerRemediation none
        [conditionOf ProcessingType ConditionTrue, conditionOf SucceededType ConditionUnknown])
      (.error notFoundError) (.ok (workerMachine (some true) none [])))
      workerRequest).calls.any Call.isGetMachine = false ∧
    (Reconcile (workerClient
      (workerRemediation none
        [conditionOf ProcessingType ConditionTrue, conditionOf SucceededType ConditionUnknown])
      (.error notFoundError) (.ok (workerMachine (some true) none [])))
      workerRequest).calls.any Call.isDelete = false ∧
    (∃ final, (Reconcile (workerClient
        (workerRemediation none
          [conditionOf ProcessingType ConditionTrue,
            conditionOf SucceededType ConditionUnknown])
        (.error notFoundError) (.ok (workerMachine (some true) none [])))
        workerRequest).remediation = some final ∧
      IsStatusConditionPresentAndEqual final.Status.Conditions ProcessingType
        ConditionFalse = true ∧
      IsStatusConditionPresentAndEqual final.Status.Conditions SucceededType
        ConditionTrue = true) :=
  ⟨rfl, by decide, by decide, _, rfl, by decide, by decide⟩

theorem reconcileBody_keeps_binding (r : Client) (mdr : MachineDeletionRemediation)
    (value : String)
    (h : mapLookup mdr.Annotations MachineNameNsAnnotation = some value) :
    (reconcileBody r mdr).calls.any Call.isUpdate = false ∧
    (reconcileBody r mdr).remediation.Annotations = mdr.Annotations := by
  by_cases ht : isTimedOutByNHC (some mdr) = true
  · rw [reconcileBody_timedOut r mdr ht]
    exact ⟨rfl, (updateConditions_frame r _ mdr).1⟩
  · simp only [Bool.not_eq_true] at ht
    by_cases hs : (updateConditions r remediationStarted mdr).1 = true
    · rw [reconcileBody_started r mdr ht hs]
      exact ⟨rfl, rfl⟩
    · simp only [Bool.not_eq_true] at hs
      have hcalls := (getMachine_calls r mdr).2
      rw [reconcileBody_fetch r mdr ht hs]
      rcases hg : getMachine r mdr with ⟨⟨err | machine, mustExist⟩, calls⟩
      · rw [hg] at hcalls
        dsimp only at hcalls ⊢
        by_cases hnf : IsNotFound err = true
        · rw [if_pos hnf]
          exact ⟨hcalls, (updateConditions_frame r _ mdr).1⟩
        · rw [if_neg hnf]
          exact ⟨hcalls, rfl⟩
      · rw [hg] at hcalls
        dsimp only at hcalls ⊢
        rw [reconcileMachine_eq]
        have hsome : (mapLookup mdr.Annotations MachineNameNsAnnotation).isSome = true := by
          rw [h]; rfl
        split_ifs <;>
          first
          | exact ⟨hcalls, rfl⟩
          | exact ⟨by rw [List.any_append, hcalls]; rfl, rfl⟩

/-- C6: on a request that already carries the binding annotation, with any
value, saveMachineNameNs returns nil, makes no update call and changes no
annotation; and an invocation of Reconcile on such a request makes no
update call and leaves every annotation as loaded. -/
theorem C6_binding_annotation_is_write_once (r : Client) (mdr : MachineDeletionRemediation)
    (machineName machineNamespace value : String)
    (h : mapLookup mdr.Annotations MachineNameNsAnnotation = some value) :
    saveMachineNameNs r mdr machineName machineNamespace = (none, mdr, []) ∧
    (∀ req, r.GetRemediation req.Name req.Namespace = .ok mdr →
      (Reconcile r req).calls.any Call.isUpdate = false ∧
      ∃ final, (Reconcile r req).remediation = some final ∧
        final.Annotations = mdr.Annotations ∧
        mapLookup final.Annotations MachineNameNsAnnotation = some value) := by
  constructor
  · rw [saveMachineNameNs_eq, h]
    rfl
  · intro req hload
    have hb := reconcileBody_keeps_binding r mdr value h
    refine ⟨?_, _, Reconcile_remediation r req mdr hload, hb.2, ?_⟩
    · rw [Reconcile_any r req mdr hload Call.isUpdate (fun _ _ => rfl) (fun _ => rfl)]
      exact hb.1
    · rw [hb.2]
      exact h

/-- Witness of C6: the binding annotation names another Machine than the one
offered to saveMachineNameNs; nothing is written. -/
theorem C6_binding_annotation_is_write_once_witness :
    saveMachineNameNs
      (workerClient (workerRemediation
        (some [( MachineNameNsAnnotation, "default/worker-node-x-machine")]) startedConditions)
        (.ok workerNode) (.ok (workerMachine (some true) none [])))
      (workerRemediation
        (some [( MachineNameNsAnnotation, "default/worker-node-x-machine")]) startedConditions)
      "other-machine" "other-namespace" =
    (none, workerRemediation
      (some [( MachineNameNsAnnotation, "default/worker-node-x-machine")]) startedConditions,
      []) :=
  (C6_binding_annotation_is_write_once
    (workerClient (workerRemediation
      (some [( MachineNameNsAnnotation, "default/worker-node-x-machine")]) startedConditions)
      (.ok workerNode) (.ok (workerMachine (some true) none [])))
    (workerRemediation
      (some [( MachineNameNsAnnotation, "default/worker-node-x-machine")]) startedConditions)
    "other-machine" "other-namespace" "default/worker-node-x-machine" (by decide)).1

theorem isTimedOutByNHC_congr (mdr other : MachineDeletionRemediation)
    (ha : other.Annotations = mdr.Annotations)
    (hd : other.DeletionTimestamp = mdr.DeletionTimestamp) :
    isTimedOutByNHC (some other) = isTimedOutByNHC (some mdr) := by
  unfold isTimedOutByNHC
  dsimp only
  rw [ha, hd]

/-- C9: on a request that has no deletion timestamp and carries the
stop-signal annotation, whatever its conditions and whatever the client
answers, one invocation of Reconcile ends with Processing=False and
Succeeded=False, fetches neither Node nor Machine, writes no annotation,
issues no delete, and its body returns the empty result with no error; an
invocation on the request as that pass left it changes nothing. -/
theorem C9_stop_signal (r : Client) (req : Request) (mdr : MachineDeletionRemediation)
    (value : String)
    (hload : r.GetRemediation req.Name req.Namespace = .ok mdr)
    (hdel : mdr.DeletionTimestamp = none)
    (hstop : mapLookup mdr.Annotations NhcTimedOut = some value) :
    (∃ final, (Reconcile r req).remediation = some final ∧
      IsStatusConditionPresentAndEqual final.Status.Conditions ProcessingType
        ConditionFalse = true ∧
      IsStatusConditionPresentAndEqual final.Status.Conditions SucceededType
        ConditionFalse = true ∧
      final.Annotations = mdr.Annotations ∧
      (∀ (r₂ : Client) (req₂ : Request),
        r₂.GetRemediation req₂.Name req₂.Namespace = .ok final →
        (Reconcile r₂ req₂).remediation = some final)) ∧
    (Reconcile r req).calls.any Call.isGetNode = false ∧
    (Reconcile r req).calls.any Call.isGetMachine = false ∧
    (Reconcile r req).calls.any Call.isUpdate = false ∧
    (Reconcile r req).calls.any Call.isDelete = false ∧
    (reconcileBody r mdr).result = Result.empty ∧
    (reconcileBody r mdr).err = none := by
  have ht : isTimedOutByNHC (some mdr) = true :=
    (isTimedOutByNHC_iff (some mdr)).2 ⟨mdr, value, rfl, hdel, hstop⟩
  have hbody := reconcileBody_timedOut r mdr ht
  have hc := updateConditions_timedOut_conditions r mdr
  have hframe := updateConditions_frame r remediationTimedOutByNhc mdr
  refine ⟨⟨_, Reconcile_remediation r req mdr hload, ?_, ?_, ?_, ?_⟩, ?_, ?_, ?_, ?_, ?_, ?_⟩
  · rw [hbody]; exact hc.1
  · rw [hbody]; exact hc.2
  · rw [hbody]; exact hframe.1
  · intro r₂ req₂ hload₂
    rw [Reconcile_remediation r₂ req₂ _ hload₂, hbody]
    dsimp only
    have ht₂ : isTimedOutByNHC (some (updateConditions r remediationTimedOutByNhc mdr).2.2)
        = true := by
      rw [isTimedOutByNHC_congr mdr _ hframe.1 hframe.2.2.2]
      exact ht
    rw [reconcileBody_timedOut r₂ _ ht₂]
    dsimp only
    rw [updateConditions_timedOut r₂, if_pos hc]
  · rw [Reconcile_any r req mdr hload Call.isGetNode (fun _ _ => rfl) (fun _ => rfl), hbody]
    rfl
  · rw [Reconcile_any r req mdr hload Call.isGetMachine (fun _ _ => rfl) (fun _ => rfl),
      hbody]
    rfl
  · rw [Reconcile_any r req mdr hload Call.isUpdate (fun _ _ => rfl) (fun _ => rfl), hbody]
    rfl
  · rw [Reconcile_any r req mdr hload Call.isDelete (fun _ _ => rfl) (fun _ => rfl), hbody]
    rfl
  · rw [hbody]
  · rw [hbody]

/-- Witness of C9: the stop signal of the controller test on a fresh request
whose Machine is owned and could be deleted. -/
theorem C9_stop_signal_witness :
    (∃ final, (Reconcile (workerClient
        (workerRemediation (some [(NhcTimedOut, "some timestamp")]) [])
        (.ok workerNode) (.ok (workerMachine (some true) none []))) workerRequest).remediation
        = some final ∧
      IsStatusConditionPresentAndEqual final.Status.Conditions ProcessingType
        ConditionFalse = true ∧
      IsStatusConditionPresentAndEqual final.Status.Conditions SucceededType
        ConditionFalse = true) ∧
    (Reconcile (workerClient (workerRemediation (some [(NhcTimedOut, "some timestamp")]) [])
      (.ok workerNode) (.ok (workerMachine (some true) none [])))
      workerRequest).calls.any Call.isGetMachine = false :=
  have h := C9_stop_signal
    (workerClient (workerRemediation (some [(NhcTimedOut, "some timestamp")]) [])
      (.ok workerNode) (.ok (workerMachine (some true) none [])))
    workerRequest (workerRemediation (some [(NhcTimedOut, "some timestamp")]) [])
    "some timestamp" rfl rfl (by decide)
  ⟨h.1.imp fun _ hf => ⟨hf.1, hf.2.1, hf.2.2.1⟩, h.2.2.1⟩

/-- C8 fails as stated. A request recorded as failed (Processing=False,
Succeeded=False) whose Machine is found later, owned and not being deleted,
has that Machine deleted; and a request recorded as finished (Succeeded=True)
that receives the stop signal has Succeeded rewritten to False. -/
theorem C8_terminal_state_counterexample :
    (IsStatusConditionPresentAndEqual
        [conditionOf ProcessingType ConditionFalse, conditionOf SucceededType ConditionFalse,
          conditionOf PermanentNodeDeletionExpectedType ConditionUnknown]
        SucceededType ConditionFalse = true ∧
      (Reconcile (workerClient
        (workerRemediation none
          [conditionOf ProcessingType ConditionFalse, conditionOf SucceededType ConditionFalse,
            conditionOf PermanentNodeDeletionExpectedType ConditionUnknown])
        (.ok workerNode) (.ok (workerMachine (some true) none [])))
        workerRequest).calls.any Call.isDelete = true) ∧
    (IsStatusConditionPresentAndEqual
        [conditionOf ProcessingType ConditionFalse, conditionOf SucceededType ConditionTrue]
        SucceededType ConditionTrue = true ∧
      ∃ final, (Reconcile (workerClient
          (workerRemediation
            (some [( MachineNameNsAnnotation, "default/worker-node-x-machine"),
              (NhcTimedOut, "some timestamp")])
            [conditionOf ProcessingType ConditionFalse, conditionOf SucceededType ConditionTrue])
          (.ok workerNode) (.error notFoundError)) workerRequest).remediation = some final ∧
        IsStatusConditionPresentAndEqual final.Status.Conditions SucceededType
          ConditionTrue = false ∧
        final.Status.Conditions ≠
          [conditionOf ProcessingType ConditionFalse,
            conditionOf SucceededType ConditionTrue]) :=
  ⟨⟨by decide, by decide⟩, by decide, _, rfl, by decide, by decide⟩

/-- C8 as amended: a request that records Processing=False with a Succeeded
status is left exactly as loaded, and no delete is issued, when the
invocation meets the cause of that terminal state again: the stop signal is
active and Succeeded=False is recorded, or no stop signal is active and the
machine fetch reports not-found, with Succeeded=False recorded on the cold
path (must-exist flag true) and Succeeded=True on the warm path. -/
theorem C8_terminal_state_is_kept (r : Client) (req : Request)
    (mdr : MachineDeletionRemediation)
    (hload : r.GetRemediation req.Name req.Namespace = .ok mdr)
    (hp : IsStatusConditionPresentAndEqual mdr.Status.Conditions ProcessingType
      ConditionFalse = true)
    (hcause :
      (isTimedOutByNHC (some mdr) = true ∧
        IsStatusConditionPresentAndEqual mdr.Status.Conditions SucceededType
          ConditionFalse = true) ∨
      (isTimedOutByNHC (some mdr) = false ∧
        ∃ err mustExist calls, getMachine r mdr = ((.error err, mustExist), calls) ∧
          IsNotFound err = true ∧ calls.any Call.isGetMachine = true ∧
          IsStatusConditionPresentAndEqual mdr.Status.Conditions SucceededType
            (if mustExist then ConditionFalse else ConditionTrue) = true)) :
    (Reconcile r req).calls.any Call.isDelete = false ∧
    (Reconcile r req).remediation = some mdr := by
  rw [Reconcile_any r req mdr hload Call.isDelete (fun _ _ => rfl) (fun _ => rfl),
    Reconcile_remediation r req mdr hload]
  rcases hcause with ⟨ht, hs⟩ | ⟨ht, err, mustExist, calls, hfetch, hnf, -, hs⟩
  · rw [reconcileBody_timedOut r mdr ht, updateConditions_timedOut, if_pos ⟨hp, hs⟩]
    exact ⟨rfl, rfl⟩
  · have hstart : (updateConditions r remediationStarted mdr).1 = false := by
      rw [updateConditions_started, if_pos hp]
    have hcalls := (getMachine_calls r mdr).1
    rw [hfetch] at hcalls
    rw [reconcileBody_fetch r mdr ht hstart, hfetch]
    dsimp only
    rw [if_pos hnf]
    refine ⟨hcalls, ?_⟩
    cases mustExist
    · rw [if_neg (by simp), updateConditions_finished, if_pos ⟨hp, hs⟩]
    · rw [if_pos rfl, updateConditions_failed, if_pos ⟨hp, hs⟩]

/-- Witness of C8 as amended: a finished request whose bound Machine is gone. -/
theorem C8_terminal_state_is_kept_witness :
    (Reconcile (workerClient
      (workerRemediation (some [( MachineNameNsAnnotation, "default/worker-node-x-machine")])
        [conditionOf ProcessingType ConditionFalse, conditionOf SucceededType ConditionTrue])
      (.ok workerNode) (.error notFoundError)) workerRequest).calls.any Call.isDelete = false ∧
    (Reconcile (workerClient
      (workerRemediation (some [( MachineNameNsAnnotation, "default/worker-node-x-machine")])
        [conditionOf ProcessingType ConditionFalse, conditionOf SucceededType ConditionTrue])
      (.ok workerNode) (.error notFoundError)) workerRequest).remediation =
      some (workerRemediation
        (some [( MachineNameNsAnnotation, "default/worker-node-x-machine")])
        [conditionOf ProcessingType ConditionFalse, conditionOf SucceededType ConditionTrue]) :=
  C8_terminal_state_is_kept
    (workerClient
      (workerRemediation (some [( MachineNameNsAnnotation, "default/worker-node-x-machine")])
        [conditionOf ProcessingType ConditionFalse, conditionOf SucceededType ConditionTrue])
      (.ok workerNode) (.error notFoundError))
    workerRequest
    (workerRemediation (some [( MachineNameNsAnnotation, "default/worker-node-x-machine")])
      [conditionOf ProcessingType ConditionFalse, conditionOf SucceededType ConditionTrue])
    rfl (by decide)
    (Or.inr ⟨by decide, notFoundError, false,
      [.getMachine workerNodeMachineName defaultNamespace], rfl, by decide, by decide,
      by decide⟩)

/-! ## Splitting and joining a name and a namespace -/

theorem splitChars_ne_nil (sep : Char) (l : List Char) : splitChars sep l ≠ [] := by
  cases l with
  | nil => simp [splitChars]
  | cons c cs =>
    unfold splitChars
    split_ifs
    · simp
    · split <;> simp

theorem splitChars_no_sep (sep : Char) (l : List Char) :
    ∀ piece ∈ splitChars sep l, sep ∉ piece := by
  induction l with
  | nil => simp [splitChars]
  | cons c cs ih =>
    unfold splitChars
    split_ifs with hc
    · intro piece hmem
      rcases List.mem_cons.1 hmem with h | h
      · subst h; simp
      · exact ih piece h
    · cases hs : splitChars sep cs with
      | nil => exact absurd hs (splitChars_ne_nil sep cs)
      | cons p ps =>
        rw [hs] at ih
        intro piece hmem
        rcases List.mem_cons.1 hmem with h | h
        · subst h
          intro hin
          rcases List.mem_cons.1 hin with h1 | h1
          · exact hc h1.symm
          · exact ih p (List.mem_cons_self _ _) h1
        · exact ih piece (List.mem_cons_of_mem _ h)

theorem splitChars_of_not_mem (sep : Char) (l : List Char) (h : sep ∉ l) :
    splitChars sep l = [l] := by
  induction l with
  | nil => rfl
  | cons c cs ih =>
    have hc : ¬ c = sep := fun e => h (e ▸ List.mem_cons_self _ _)
    have hcs : sep ∉ cs := fun e => h (List.mem_cons_of_mem _ e)
    unfold splitChars
    rw [if_neg hc, ih hcs]

theorem splitChars_append (sep : Char) (a b : List Char) (h : sep ∉ a) :
    splitChars sep (a ++ sep :: b) = a :: splitChars sep b := by
  induction a with
  | nil =>
    show splitChars sep (sep :: b) = [] :: splitChars sep b
    rw [splitChars, if_pos rfl]
  | cons c cs ih =>
    have hc : ¬ c = sep := fun e => h (e ▸ List.mem_cons_self _ _)
    have hcs : sep ∉ cs := fun e => h (List.mem_cons_of_mem _ e)
    show splitChars sep (c :: (cs ++ sep :: b)) = (c :: cs) :: splitChars sep b
    rw [splitChars, if_neg hc, ih hcs]

theorem Split_join (ns name : String) (hns : '/' ∉ ns.data) (hname : '/' ∉ name.data) :
    Split (ns ++ "/" ++ name) '/' = [ns, name] := by
  unfold Split
  have hdata : (ns ++ "/" ++ name).data = ns.data ++ '/' :: name.data := by
    simp [String.data_append]
  rw [hdata, splitChars_append _ _ _ hns, splitChars_of_not_mem _ _ hname]
  rfl

theorem Split_pair (value ns name : String) (h : Split value '/' = [ns, name]) :
    '/' ∉ ns.data ∧ '/' ∉ name.data := by
  unfold Split at h
  have hsep := splitChars_no_sep '/' value.data
  cases hs : splitChars '/' value.data with
  | nil => rw [hs] at h; simp at h
  | cons a rest =>
    cases rest with
    | nil => rw [hs] at h; simp at h
    | cons b rest2 =>
      rw [hs] at h hsep
      simp only [List.map_cons, List.cons.injEq, List.map_eq_nil_iff] at h
      obtain ⟨ha, hb, -⟩ := h
      subst ha; subst hb
      exact ⟨hsep a (by simp), hsep b (by simp)⟩

theorem lookup_mapSet (entries : List (String × String)) (key value : String) :
    (mapSet entries key value).lookup key = some value := by
  induction entries with
  | nil => simp [mapSet, List.lookup]
  | cons e es ih =>
    obtain ⟨k, v⟩ := e
    unfold mapSet
    by_cases hk : k = key
    · rw [if_pos hk]
      subst hk
      simp [List.lookup]
    · rw [if_neg hk]
      have hne : (key == k) = false := by
        rw [beq_eq_false_iff_ne]
        exact fun e => hk e.symm
      simp [List.lookup, hne, ih]

theorem bindingKey_withMachineNameNs (mdr : MachineDeletionRemediation) (name ns : String)
    (hns : '/' ∉ ns.data) (hname : '/' ∉ name.data) :
    bindingKey (withMachineNameNs mdr name ns) = some (name, ns) := by
  unfold bindingKey withMachineNameNs mapLookup
  dsimp only
  rw [lookup_mapSet]
  dsimp only
  rw [Split_join ns name hns hname]

theorem getMachineNameNsFromRemediation_of_key (mdr : MachineDeletionRemediation)
    (name ns : String) (h : bindingKey mdr = some (name, ns)) :
    getMachineNameNsFromRemediation mdr = (name, ns, none) := by
  unfold bindingKey at h
  unfold getMachineNameNsFromRemediation extractNameAndNamespace
  cases hl : mapLookup mdr.Annotations MachineNameNsAnnotation with
  | none => rw [hl] at h; cases h
  | some value =>
    rw [hl] at h
    dsimp only at h ⊢
    rcases hsp : Split value '/' with _ | ⟨a, _ | ⟨b, _ | ⟨c, rest⟩⟩⟩ <;> rw [hsp] at h <;>
      simp_all

theorem getMachineNameNsFromRemediation_ok (mdr : MachineDeletionRemediation)
    (name ns : String) (h : getMachineNameNsFromRemediation mdr = (name, ns, none)) :
    (mapLookup mdr.Annotations MachineNameNsAnnotation = none ∧ name = "") ∨
    bindingKey mdr = some (name, ns) := by
  unfold getMachineNameNsFromRemediation extractNameAndNamespace at h
  unfold bindingKey
  cases hl : mapLookup mdr.Annotations MachineNameNsAnnotation with
  | none =>
    rw [hl] at h
    simp only [Prod.mk.injEq] at h
    exact Or.inl ⟨rfl, h.1.symm⟩
  | some value =>
    rw [hl] at h
    dsimp only at h ⊢
    right
    rcases hsp : Split value '/' with _ | ⟨a, _ | ⟨b, _ | ⟨c, rest⟩⟩⟩ <;> rw [hsp] at h <;>
      simp_all

/-! ## One invocation on the store -/

theorem getMachineNameNsFromNode_ok (node : Node) (name ns : String)
    (h : getMachineNameNsFromNode node = (name, ns, none)) :
    '/' ∉ name.data ∧ '/' ∉ ns.data := by
  unfold getMachineNameNsFromNode at h
  cases ha : node.Annotations with
  | none => rw [ha] at h; simp at h
  | some annotations =>
    rw [ha] at h
    dsimp only at h
    split_ifs at h
    · simp at h
    · rcases hsp : Split ((List.lookup machineAnnotationOpenshift annotations).getD "") '/'
        with _ | ⟨a, _ | ⟨b, _ | ⟨c, rest⟩⟩⟩ <;> rw [hsp] at h <;> simp at h
      obtain ⟨h1, h2⟩ := h
      subst h1 h2
      exact (Split_pair _ _ _ hsp).symm

theorem getMachineByKey_clientOf (c : Cluster) (f : Faults) (name ns : String)
    (flag flag' : Bool) (calls calls' : List Call) (machine : Machine)
    (h : getMachineByKey (clientOf c f) name ns flag calls = ((.ok machine, flag'), calls')) :
    machine ∈ c.machines ∧ machine.Name = name ∧ machine.Namespace = ns ∧ name ≠ "" := by
  unfold getMachineByKey clientOf at h
  dsimp only at h
  cases hf : f.getMachine with
  | some e => rw [hf] at h; simp at h
  | none =>
    rw [hf] at h
    dsimp only at h
    by_cases hname : name = ""
    · rw [if_pos hname] at h; simp at h
    · rw [if_neg hname] at h
      cases hfind : findMachine c.machines name ns with
      | none => rw [hfind] at h; simp at h
      | some found =>
        rw [hfind] at h
        simp only [Prod.mk.injEq, Except.ok.injEq] at h
        obtain ⟨⟨h1, -⟩, -⟩ := h
        subst h1
        unfold findMachine at hfind
        have hp := List.find?_some hfind
        have hm := List.mem_of_find?_eq_some hfind
        simp only [Bool.and_eq_true, beq_iff_eq] at hp
        exact ⟨hm, hp.1, hp.2, hname⟩

theorem getMachine_clientOf (c : Cluster) (f : Faults) (mdr : MachineDeletionRemediation)
    (machine : Machine) (mustExist : Bool) (calls : List Call)
    (h : getMachine (clientOf c f) mdr = ((.ok machine, mustExist), calls)) :
    machine ∈ c.machines ∧ machine.Name ≠ "" ∧
    (bindingKey mdr = some (machine.Name, machine.Namespace) ∨
      ((mapLookup mdr.Annotations MachineNameNsAnnotation = none ∨
          ∃ ns, bindingKey mdr = some ("", ns)) ∧
        '/' ∉ machine.Name.data ∧ '/' ∉ machine.Namespace.data)) := by
  unfold getMachine at h
  rcases hn : getMachineNameNsFromRemediation mdr with ⟨name, ns, _ | e⟩
  · rw [hn] at h
    dsimp only at h
    have hkey := getMachineNameNsFromRemediation_ok mdr name ns hn
    by_cases hname : name = ""
    · rw [if_pos hname] at h
      unfold getNodeFromMdr at h
      cases hg : (clientOf c f).GetNode mdr.Name with
      | error e => rw [hg] at h; simp at h
      | ok node =>
        rw [hg] at h
        dsimp only at h
        rcases hnn : getMachineNameNsFromNode node with ⟨name2, ns2, _ | e2⟩
        · rw [hnn] at h
          dsimp only at h
          obtain ⟨hm, h1, h2, h3⟩ := getMachineByKey_clientOf c f _ _ _ _ _ _ _ h
          obtain ⟨h4, h5⟩ := getMachineNameNsFromNode_ok node name2 ns2 hnn
          subst h1 h2
          refine ⟨hm, h3, Or.inr ⟨?_, h4, h5⟩⟩
          rcases hkey with ⟨hl, -⟩ | hk
          · exact Or.inl hl
          · exact Or.inr ⟨ns, hname ▸ hk⟩
        · rw [hnn] at h; simp at h
    · rw [if_neg hname] at h
      obtain ⟨hm, h1, h2, h3⟩ := getMachineByKey_clientOf c f _ _ _ _ _ _ _ h
      subst h1 h2
      refine ⟨hm, h3, Or.inl ?_⟩
      rcases hkey with ⟨-, he⟩ | hk
      · exact absurd he hname
      · exact hk
  · rw [hn] at h
    simp at h

theorem getMachine_no_write (r : Client) (mdr : MachineDeletionRemediation) :
    ∀ call ∈ (getMachine r mdr).2, call.isWrite = false := by
  unfold getMachine
  split
  · simp
  · split_ifs
    · unfold getNodeFromMdr
      cases r.GetNode mdr.Name with
      | error e => simp [Call.isWrite]
      | ok node =>
        dsimp only
        split
        · simp [Call.isWrite]
        · rw [getMachineByKey_calls]; simp [Call.isWrite]
    · rw [getMachineByKey_calls]; simp [Call.isWrite]

theorem foldl_applyCall_reads (f : Faults) (c : Cluster) (calls : List Call)
    (h : ∀ call ∈ calls, call.isWrite = false) :
    calls.foldl (applyCall f) c = c := by
  induction calls generalizing c with
  | nil => rfl
  | cons x xs ih =>
    have hx : applyCall f c x = c := by
      have := h x (List.mem_cons_self _ _)
      cases x <;> first | rfl | simp [Call.isWrite] at this
    rw [List.foldl_cons, hx]
    exact ih c fun call hmem => h call (List.mem_cons_of_mem _ hmem)

theorem countP_isDelete_reads (calls : List Call)
    (h : ∀ call ∈ calls, call.isWrite = false) : calls.countP Call.isDelete = 0 := by
  rw [List.countP_eq_zero]
  intro call hmem
  have := h call hmem
  cases call <;> simp_all [Call.isWrite, Call.isDelete]

/-- The writes of the body of `Reconcile`: none, or, after the Machine was
fetched with a zero deletion time, the delete alone when the binding
annotation exists, else the update of the annotation, followed by the
delete when the update succeeded. -/
theorem reconcileBody_writes (r : Client) (mdr : MachineDeletionRemediation) :
    (∀ call ∈ (reconcileBody r mdr).calls, call.isWrite = false) ∨
    ∃ machine mustExist calls, getMachine r mdr = ((.ok machine, mustExist), calls) ∧
      IsZero machine.DeletionTimestamp = true ∧
      (((mapLookup mdr.Annotations MachineNameNsAnnotation).isSome = true ∧
          (reconcileBody r mdr).calls = calls ++ [.delete machine]) ∨
        ((mapLookup mdr.Annotations MachineNameNsAnnotation).isSome = false ∧
          (r.Update (withMachineNameNs mdr machine.Name machine.Namespace)).isSome = true ∧
          (reconcileBody r mdr).calls =
            calls ++ [.update (withMachineNameNs mdr machine.Name machine.Namespace)]) ∨
        ((mapLookup mdr.Annotations MachineNameNsAnnotation).isSome = false ∧
          r.Update (withMachineNameNs mdr machine.Name machine.Namespace) = none ∧
          (reconcileBody r mdr).calls =
            calls ++ [.update (withMachineNameNs mdr machine.Name machine.Namespace),
              .delete machine])) := by
  by_cases ht : isTimedOutByNHC (some mdr) = true
  · left
    rw [reconcileBody_timedOut r mdr ht]
    simp
  · simp only [Bool.not_eq_true] at ht
    by_cases hs : (updateConditions r remediationStarted mdr).1 = true
    · left
      rw [reconcileBody_started r mdr ht hs]
      simp
    · simp only [Bool.not_eq_true] at hs
      have hreads := getMachine_no_write r mdr
      rw [reconcileBody_fetch r mdr ht hs]
      rcases hg : getMachine r mdr with ⟨⟨err | machine, mustExist⟩, calls⟩
      · left
        rw [hg] at hreads
        dsimp only
        split_ifs <;> exact hreads
      · rw [hg] at hreads
        dsimp only at hreads ⊢
        rw [reconcileMachine_eq]
        by_cases h1 : (getMachineProviderID machine).2.isSome = true
        · left; rw [if_pos h1]; exact hreads
        · rw [if_neg h1]
          by_cases h2 : IsStatusConditionPresentAndEqual mdr.Status.Conditions
              PermanentNodeDeletionExpectedType
              (providerStatus (getMachineProviderID machine).1) = false
          · left; rw [if_pos h2]; exact hreads
          · rw [if_neg h2]
            by_cases h3 : IsZero machine.DeletionTimestamp = false
            · left; rw [if_pos h3]; exact hreads
            · rw [if_neg h3]
              simp only [Bool.not_eq_false] at h3
              by_cases h4 : hasControllerOwner machine = false
              · left; rw [if_pos h4]; exact hreads
              · rw [if_neg h4]
                right
                refine ⟨machine, mustExist, calls, rfl, h3, ?_⟩
                by_cases h5 : (mapLookup mdr.Annotations MachineNameNsAnnotation).isSome = true
                · rw [if_pos h5]
                  exact Or.inl ⟨h5, rfl⟩
                · rw [if_neg h5]
                  simp only [Bool.not_eq_true] at h5
                  cases hu : r.Update (withMachineNameNs mdr machine.Name machine.Namespace) with
                  | some e => exact Or.inr (Or.inl ⟨h5, rfl, rfl⟩)
                  | none => exact Or.inr (Or.inr ⟨h5, rfl, rfl⟩)

theorem bindingKey_congr (mdr other : MachineDeletionRemediation)
    (h : mapLookup other.Annotations MachineNameNsAnnotation =
      mapLookup mdr.Annotations MachineNameNsAnnotation) :
    bindingKey other = bindingKey mdr := by
  unfold bindingKey
  rw [h]

theorem DeletedAtMostOnce_congr (c c' : Cluster) (n : Nat)
    (hb : mapLookup c'.remediation.Annotations MachineNameNsAnnotation =
      mapLookup c.remediation.Annotations MachineNameNsAnnotation)
    (hm : ∀ machine ∈ c'.machines, machine ∈ c.machines)
    (h : DeletedAtMostOnce c n) : DeletedAtMostOnce c' n := by
  obtain ⟨hwf, hn, hdel⟩ := h
  have hk := bindingKey_congr c.remediation c'.remediation hb
  refine ⟨?_, hn, ?_⟩
  · unfold bindingNamesMachine at hwf ⊢
    rw [hk]
    exact hwf
  · intro h1
    obtain ⟨name, ns, hkey, hall⟩ := hdel h1
    exact ⟨name, ns, hk ▸ hkey, fun machine hmem => hall machine (hm machine hmem)⟩

theorem deleteMachine_stamped (machines : List Machine) (name ns : String)
    (finalizerStamp : Option Nat) :
    ∀ machine ∈ deleteMachine machines name ns finalizerStamp,
      machine.Name = name → machine.Namespace = ns →
      IsZero machine.DeletionTimestamp = false := by
  intro machine hmem hname hns
  unfold deleteMachine at hmem
  cases finalizerStamp with
  | none =>
    dsimp only at hmem
    have := (List.mem_filter.1 hmem).2
    simp [hname, hns] at this
  | some t =>
    dsimp only at hmem
    obtain ⟨old, -, hold⟩ := List.mem_map.1 hmem
    by_cases hc : ((old.Name == name && old.Namespace == ns) &&
        IsZero old.DeletionTimestamp) = true
    · rw [if_pos hc] at hold
      subst hold
      simp [IsZero]
    · rw [if_neg hc] at hold
      subst hold
      simp only [Bool.and_eq_true, beq_iff_eq, not_and, Bool.not_eq_true] at hc
      exact hc ⟨hname, hns⟩

theorem Reconcile_calls_not_loaded (r : Client) (req : Request) (err : Err)
    (hload : r.GetRemediation req.Name req.Namespace = .error err) :
    (Reconcile r req).calls = [.getRemediation req.Name req.Namespace] := by
  unfold Reconcile getRemediation
  rw [hload]
  dsimp only
  split_ifs <;> rfl

theorem clientOf_GetRemediation_ok (c : Cluster) (f : Faults) (name ns : String)
    (mdr : MachineDeletionRemediation)
    (h : (clientOf c f).GetRemediation name ns = .ok mdr) : mdr = c.remediation := by
  unfold clientOf at h
  dsimp only at h
  cases hf : f.getRemediation with
  | some e => rw [hf] at h; simp at h
  | none =>
    rw [hf] at h
    dsimp only at h
    split_ifs at h
    simp only [Except.ok.injEq] at h
    exact h.symm

theorem bindingNamesMachine_of_key (mdr : MachineDeletionRemediation) (name ns : String)
    (hkey : bindingKey mdr = some (name, ns)) (hname : name ≠ "") :
    bindingNamesMachine mdr = true := by
  unfold bindingNamesMachine
  rw [hkey]
  simpa using hname

/-- The writes of the body, applied to the store, keep the invariant and
count the successful deletes. -/
theorem body_preserves (c : Cluster) (f : Faults) (n : Nat) (h : DeletedAtMostOnce c n) :
    DeletedAtMostOnce
      ((reconcileBody (clientOf c f) c.remediation).calls.foldl (applyCall f) c)
      (n + match f.delete with
        | some _ => 0
        | none => (reconcileBody (clientOf c f) c.remediation).calls.countP Call.isDelete) := by
  obtain ⟨hwf, hn, hdel⟩ := h
  rcases reconcileBody_writes (clientOf c f) c.remediation with
    hreads | ⟨machine, mustExist, calls, hfetch, hzero, hcase⟩
  · rw [foldl_applyCall_reads f c _ hreads, countP_isDelete_reads _ hreads]
    have : (match f.delete with | some _ => 0 | none => 0) = 0 := by cases f.delete <;> rfl
    rw [this]
    exact ⟨hwf, hn, hdel⟩
  · have hcalls : ∀ call ∈ calls, call.isWrite = false := by
      have := getMachine_no_write (clientOf c f) c.remediation
      rw [hfetch] at this
      exact this
    obtain ⟨hmem, hname, hkey⟩ := getMachine_clientOf c f c.remediation machine mustExist calls
      hfetch
    rcases hcase with ⟨hsome, hb⟩ | ⟨hnone, hupd, hb⟩ | ⟨hnone, hupd, hb⟩
    · -- the binding annotation exists: the delete alone
      have hk : bindingKey c.remediation = some (machine.Name, machine.Namespace) := by
        rcases hkey with hk | ⟨hl | ⟨ns, hk⟩, -, -⟩
        · exact hk
        · rw [hl] at hsome; cases hsome
        · unfold bindingNamesMachine at hwf
          rw [hk] at hwf
          simp at hwf
      have hn0 : n = 0 := by
        rcases Nat.le_one_iff_eq_zero_or_eq_one.1 hn with h0 | h1
        · exact h0
        · obtain ⟨name, ns, hkey1, hall⟩ := hdel h1
          rw [hk] at hkey1
          simp only [Option.some.injEq, Prod.mk.injEq] at hkey1
          have := hall machine hmem hkey1.1 hkey1.2
          rw [hzero] at this
          cases this
      subst hn0
      rw [hb, List.foldl_append, foldl_applyCall_reads f c calls hcalls, List.countP_append,
        countP_isDelete_reads calls hcalls]
      cases hd : f.delete with
      | some e =>
        simp only [List.foldl_cons, List.foldl_nil, applyCall, hd]
        exact ⟨hwf, Nat.zero_le _, fun h => absurd h (by decide)⟩
      | none =>
        simp only [List.foldl_cons, List.foldl_nil, applyCall, hd]
        refine ⟨hwf, by simp [Call.isDelete], fun _ =>
          ⟨machine.Name, machine.Namespace, hk, ?_⟩⟩
        exact deleteMachine_stamped c.machines machine.Name machine.Namespace f.finalizerStamp
    · -- the update of the annotation fails: the store is unchanged
      have hfu : ∃ e, f.update = some e := Option.isSome_iff_exists.1 hupd
      obtain ⟨e, hfu⟩ := hfu
      rw [hb, List.foldl_append, foldl_applyCall_reads f c calls hcalls, List.countP_append,
        countP_isDelete_reads calls hcalls]
      simp only [List.foldl_cons, List.foldl_nil, applyCall, hfu]
      have : (match f.delete with
          | some _ => 0
          | none => 0 + List.countP Call.isDelete
              [Call.update (withMachineNameNs c.remediation machine.Name machine.Namespace)])
          = 0 := by
        cases f.delete <;> simp [Call.isDelete]
      rw [this]
      exact ⟨hwf, hn, hdel⟩
    · -- the annotation is written, then the delete is issued
      have hfu : f.update = none := hupd
      have hl : mapLookup c.remediation.Annotations MachineNameNsAnnotation = none := by
        cases hlook : mapLookup c.remediation.Annotations MachineNameNsAnnotation with
        | none => rfl
        | some v => rw [hlook] at hnone; cases hnone
      have hslash : '/' ∉ machine.Name.data ∧ '/' ∉ machine.Namespace.data := by
        rcases hkey with hk | ⟨-, h1, h2⟩
        · unfold bindingKey at hk
          rw [hl] at hk
          cases hk
        · exact ⟨h1, h2⟩
      have hn0 : n = 0 := by
        rcases Nat.le_one_iff_eq_zero_or_eq_one.1 hn with h0 | h1
        · exact h0
        · obtain ⟨name, ns, hkey1, -⟩ := hdel h1
          unfold bindingKey at hkey1
          rw [hl] at hkey1
          cases hkey1
      subst hn0
      have hk := bindingKey_withMachineNameNs c.remediation machine.Name machine.Namespace
        hslash.2 hslash.1
      rw [hb, List.foldl_append, foldl_applyCall_reads f c calls hcalls, List.countP_append,
        countP_isDelete_reads calls hcalls]
      have hk' : ∀ machines : List Machine, bindingKey
          ({ remediation :=
              { Name := c.remediation.Name, Namespace := c.remediation.Namespace,
                Annotations := (withMachineNameNs c.remediation machine.Name
                  machine.Namespace).Annotations,
                DeletionTimestamp := c.remediation.DeletionTimestamp,
                Status := c.remediation.Status },
             nodes := c.nodes, machines := machines } : Cluster).remediation =
          some (machine.Name, machine.Namespace) := fun _ => by
        rw [← hk]
        exact bindingKey_congr _ _ rfl
      cases hd : f.delete with
      | some e =>
        simp only [List.foldl_cons, List.foldl_nil, applyCall, hd, hfu]
        exact ⟨bindingNamesMachine_of_key _ _ _ (hk' _) hname, Nat.zero_le _,
          fun h => absurd h (by decide)⟩
      | none =>
        simp only [List.foldl_cons, List.foldl_nil, applyCall, hd, hfu]
        refine ⟨bindingNamesMachine_of_key _ _ _ (hk' _) hname, by simp [Call.isDelete],
          fun _ => ⟨machine.Name, machine.Namespace, hk' _, ?_⟩⟩
        exact deleteMachine_stamped c.machines machine.Name machine.Namespace f.finalizerStamp

theorem invoke_preserves (req : Request) (c : Cluster) (f : Faults) (n : Nat)
    (h : DeletedAtMostOnce c n) :
    DeletedAtMostOnce (invoke req c f).1 (n + successfulDeletes f (invoke req c f).2) := by
  unfold invoke successfulDeletes
  dsimp only
  cases hload : (clientOf c f).GetRemediation req.Name req.Namespace with
  | error err =>
    rw [Reconcile_calls_not_loaded _ req err hload]
    have : (match f.delete with
        | some _ => 0
        | none => List.countP Call.isDelete [Call.getRemediation req.Name req.Namespace])
        = 0 := by
      cases f.delete <;> simp [Call.isDelete]
    rw [this]
    exact h
  | ok mdr =>
    have hmdr := clientOf_GetRemediation_ok c f _ _ mdr hload
    subst hmdr
    rw [Reconcile_calls _ req _ hload]
    have hb := body_preserves c f n h
    have hcount : List.countP Call.isDelete
        (Call.getRemediation req.Name req.Namespace ::
          ((reconcileBody (clientOf c f) c.remediation).calls ++
            [Call.statusUpdate (reconcileBody (clientOf c f) c.remediation).remediation])) =
        List.countP Call.isDelete (reconcileBody (clientOf c f) c.remediation).calls := by
      simp [List.countP_cons, List.countP_append, Call.isDelete]
    rw [hcount, List.foldl_cons, List.foldl_append]
    refine DeletedAtMostOnce_congr _ _ _ ?_ ?_ hb
    · simp only [List.foldl_cons, List.foldl_nil, applyCall]
      cases f.statusUpdate <;> rfl
    · simp only [List.foldl_cons, List.foldl_nil, applyCall]
      cases f.statusUpdate <;> exact fun _ hm => hm

theorem Run_preserves (req : Request) (c c' : Cluster) (n : Nat)
    (hwf : bindingNamesMachine c.remediation = true) (hrun : Run req c c' n) :
    DeletedAtMostOnce c' n := by
  induction hrun with
  | start => exact ⟨hwf, Nat.zero_le _, fun h => absurd h (by decide)⟩
  | env _ henv ih => exact DeletedAtMostOnce_congr _ _ _ henv.1 henv.2 ih
  | invoke f _ ih => exact invoke_preserves req _ f _ ih

/-- C7, the code at the failing input: the request starts with the binding
annotation "default/", which has no Machine name and which getMachine reads
as no binding at all. The first invocation deletes the worker Machine named
by the Node and writes no annotation; the Node is then replaced by one
naming the master Machine, no Machine being touched in between; and the
next invocation deletes the master Machine too. The run has two successful
deletes and leaves no Machine in the store. -/
theorem C7_two_deletes_from_an_empty_name_binding :
    (invoke workerRequest emptyNameCluster (noFaults none 2)).2.calls.any
      (fun call =>
        match call with
        | .delete machine => machine.Name == workerNodeMachineName
        | _ => false) = true ∧
    (invoke workerRequest emptyNameCluster (noFaults none 2)).2.calls.any
      Call.isUpdate = false ∧
    emptyNameClusterRepointed.machines = [masterMachine] ∧
    mapLookup emptyNameClusterRepointed.remediation.Annotations MachineNameNsAnnotation =
      some "default/" ∧
    (invoke workerRequest emptyNameClusterRepointed (noFaults none 3)).2.calls.any
      (fun call =>
        match call with
        | .delete machine => machine.Name == masterMachine.Name
        | _ => false) = true ∧
    Run workerRequest emptyNameCluster
      (invoke workerRequest emptyNameClusterRepointed (noFaults none 3)).1 2 ∧
    (invoke workerRequest emptyNameClusterRepointed (noFaults none 3)).1.machines.length = 0 :=
  ⟨by decide, by decide, rfl, by decide, by decide,
    Run.invoke (noFaults none 3)
      (Run.env (Run.invoke (noFaults none 2) (Run.start emptyNameCluster))
        ⟨rfl, fun _ h => h⟩), by decide⟩

/-- On every run of invocations of Reconcile on one request, from any store
whose binding annotation, when it records a key, records a Machine name, in
which the environment leaves the binding annotation alone and Machines
change only by the delete of Reconcile (which stamps or removes the
Machine) or by disappearing, at most one Machine delete succeeds. -/
theorem at_most_one_successful_delete (req : Request) (c c' : Cluster) (n : Nat)
    (hwf : bindingNamesMachine c.remediation = true) (hrun : Run req c c' n) : n ≤ 1 :=
  (Run_preserves req c c' n hwf hrun).2.1

/-- An instance of `at_most_one_successful_delete`: the worker Machine is
deleted by the first invocation and held by a finalizer, polled by the
second, removed by the environment, and found gone by the third; one delete
succeeded. -/
theorem at_most_one_successful_delete_example :
    bindingNamesMachine workerCluster.remediation = true ∧
    Run workerRequest workerCluster
      (invoke workerRequest workerClusterMachineGone (noFaults (some 5) 4)).1 1 ∧
    1 ≤ 1 :=
  have hrun : Run workerRequest workerCluster
      (invoke workerRequest workerClusterMachineGone (noFaults (some 5) 4)).1 1 :=
    Run.invoke (noFaults (some 5) 4)
      (Run.env
        (Run.invoke (noFaults (some 5) 3)
          (Run.invoke (noFaults (some 5) 2) (Run.start workerCluster)))
        ⟨rfl, fun _ h => nomatch h⟩)
  ⟨by decide, hrun, at_most_one_successful_delete workerRequest workerCluster _ 1
    (by decide) hrun⟩

/-! ## Parsing the name and the namespace -/

theorem splitChars_length (sep : Char) (l : List Char) :
    (splitChars sep l).length = l.count sep + 1 := by
  induction l with
  | nil => simp [splitChars]
  | cons c cs ih =>
    unfold splitChars
    by_cases hc : c = sep
    · rw [if_pos hc]
      subst hc
      simp [ih]
    · rw [if_neg hc]
      cases hs : splitChars sep cs with
      | nil => exact absurd hs (splitChars_ne_nil sep cs)
      | cons p ps =>
        rw [hs] at ih
        rw [List.count_cons_of_ne (Ne.symm hc)]
        simpa using ih

theorem splitChars_single (sep : Char) (l b : List Char) (h : splitChars sep l = [b]) :
    l = b := by
  induction l generalizing b with
  | nil =>
    simp only [splitChars, List.cons.injEq, and_true] at h
    exact h
  | cons c cs ih =>
    unfold splitChars at h
    by_cases hc : c = sep
    · rw [if_pos hc] at h
      simp only [List.cons.injEq] at h
      exact absurd h.2 (splitChars_ne_nil sep cs)
    · rw [if_neg hc] at h
      cases hs : splitChars sep cs with
      | nil => exact absurd hs (splitChars_ne_nil sep cs)
      | cons p ps =>
        rw [hs] at h
        simp only [List.cons.injEq] at h
        obtain ⟨h1, h2⟩ := h
        subst h1 h2
        rw [ih p hs]

theorem splitChars_pair (sep : Char) (l a b : List Char) (h : splitChars sep l = [a, b]) :
    l = a ++ sep :: b := by
  induction l generalizing a with
  | nil => simp [splitChars] at h
  | cons c cs ih =>
    unfold splitChars at h
    by_cases hc : c = sep
    · rw [if_pos hc] at h
      simp only [List.cons.injEq] at h
      obtain ⟨h1, h2⟩ := h
      subst h1 hc
      rw [splitChars_single c cs b h2]
      rfl
    · rw [if_neg hc] at h
      cases hs : splitChars sep cs with
      | nil => exact absurd hs (splitChars_ne_nil sep cs)
      | cons p ps =>
        rw [hs] at h
        simp only [List.cons.injEq] at h
        obtain ⟨h1, h2⟩ := h
        subst h1 h2
        rw [ih p hs]
        rfl

theorem Split_length (s : String) : (Split s '/').length = s.data.count '/' + 1 := by
  unfold Split
  rw [List.length_map, splitChars_length]

theorem Split_pair_eq (s ns name : String) (h : Split s '/' = [ns, name]) :
    s = ns ++ "/" ++ name := by
  unfold Split at h
  cases hs : splitChars '/' s.data with
  | nil => rw [hs] at h; simp at h
  | cons a rest =>
    cases rest with
    | nil => rw [hs] at h; simp at h
    | cons b rest2 =>
      rw [hs] at h
      simp only [List.map_cons, List.cons.injEq, List.map_eq_nil_iff] at h
      obtain ⟨ha, hb, hr⟩ := h
      subst ha hb hr
      have hd := splitChars_pair '/' s.data a b hs
      apply String.ext
      simp [String.data_append, hd]

/-- The result of `extractNameAndNamespace`, read off the split of the value. -/
theorem extractNameAndNamespace_cases (s nodeName : String) :
    (s.data.count '/' = 1 ∧ ∃ ns name, Split s '/' = [ns, name] ∧
      extractNameAndNamespace s nodeName = (name, ns, none)) ∨
    (s.data.count '/' ≠ 1 ∧
      extractNameAndNamespace s nodeName =
        ("", "", some (.text (invalidValueMachineAnnotationError ++ nodeName)))) := by
  have hlen := Split_length s
  unfold extractNameAndNamespace
  rcases hsp : Split s '/' with _ | ⟨a, _ | ⟨b, _ | ⟨c, rest⟩⟩⟩ <;> rw [hsp] at hlen
  · simp at hlen
  · right
    simp only [List.length_singleton] at hlen
    exact ⟨by omega, rfl⟩
  · left
    simp only [List.length_cons, List.length_nil] at hlen
    exact ⟨by omega, a, b, rfl, rfl⟩
  · right
    simp only [List.length_cons] at hlen
    exact ⟨by omega, rfl⟩

/-- C11: extractNameAndNamespace succeeds exactly on the strings with one
"/", then returning the text after it as name and the text before it as
namespace, and otherwise returns an error with empty name and namespace;
getMachineNameNsFromRemediation returns ("", "", nil) when the binding
annotation is absent and fails exactly when the annotation is present
without exactly one "/", with an error text that holds the name of the
request and the raw value. -/
theorem C11_binding_annotation_parsing (s nodeName : String)
    (remediation : MachineDeletionRemediation) :
    ((extractNameAndNamespace s nodeName).2.2 = none ↔ s.data.count '/' = 1) ∧
    ((extractNameAndNamespace s nodeName).2.2 = none →
      s = (extractNameAndNamespace s nodeName).2.1 ++ "/" ++
        (extractNameAndNamespace s nodeName).1 ∧
      '/' ∉ (extractNameAndNamespace s nodeName).1.data ∧
      '/' ∉ (extractNameAndNamespace s nodeName).2.1.data) ∧
    ((extractNameAndNamespace s nodeName).2.2 ≠ none →
      (extractNameAndNamespace s nodeName).1 = "" ∧
      (extractNameAndNamespace s nodeName).2.1 = "") ∧
    (mapLookup remediation.Annotations MachineNameNsAnnotation = none →
      getMachineNameNsFromRemediation remediation = ("", "", none)) ∧
    ((getMachineNameNsFromRemediation remediation).2.2 ≠ none ↔
      ∃ value, mapLookup remediation.Annotations MachineNameNsAnnotation = some value ∧
        value.data.count '/' ≠ 1) ∧
    (∀ err, (getMachineNameNsFromRemediation remediation).2.2 = some err →
      (getMachineNameNsFromRemediation remediation).1 = "" ∧
      (getMachineNameNsFromRemediation remediation).2.1 = "" ∧
      ∃ value before between after,
        mapLookup remediation.Annotations MachineNameNsAnnotation = some value ∧
        err.Error = before ++ remediation.Name ++ between ++ value ++ after) := by
  refine ⟨?_, ?_, ?_, ?_, ?_, ?_⟩
  · rcases extractNameAndNamespace_cases s nodeName with ⟨hc, ns, name, -, he⟩ | ⟨hc, he⟩
    · rw [he]; simp [hc]
    · rw [he]; simp [hc]
  · intro hok
    rcases extractNameAndNamespace_cases s nodeName with ⟨-, ns, name, hsp, he⟩ | ⟨-, he⟩
    · rw [he]
      obtain ⟨h1, h2⟩ := Split_pair s ns name hsp
      exact ⟨Split_pair_eq s ns name hsp, h2, h1⟩
    · rw [he] at hok; simp at hok
  · intro herr
    rcases extractNameAndNamespace_cases s nodeName with ⟨-, ns, name, -, he⟩ | ⟨-, he⟩
    · rw [he] at herr; simp at herr
    · rw [he]; exact ⟨rfl, rfl⟩
  · intro hl
    unfold getMachineNameNsFromRemediation
    rw [hl]
  · unfold getMachineNameNsFromRemediation
    cases hl : mapLookup remediation.Annotations MachineNameNsAnnotation with
    | none => simp
    | some value =>
      dsimp only
      rcases extractNameAndNamespace_cases value remediation.Name with
        ⟨hc, ns, name, -, he⟩ | ⟨hc, he⟩
      · rw [he]; simp [hc]
      · rw [he]; simp [hc]
  · intro err herr
    unfold getMachineNameNsFromRemediation at herr ⊢
    cases hl : mapLookup remediation.Annotations MachineNameNsAnnotation with
    | none => rw [hl] at herr; simp at herr
    | some value =>
      rw [hl] at herr
      dsimp only at herr ⊢
      rcases extractNameAndNamespace_cases value remediation.Name with
        ⟨-, ns, name, -, he⟩ | ⟨-, he⟩
      · rw [he] at herr; simp at herr
      · rw [he] at herr ⊢
        simp only [Option.some.injEq] at herr
        subst herr
        exact ⟨rfl, rfl, value, "could not get Machine data from remediation '",
          "' annotation '", "': error " ++
            (Err.text (invalidValueMachineAnnotationError ++ remediation.Name)).Error,
          rfl, by simp [Err.Error, String.append_assoc]⟩

theorem String_length_eq_zero (s : String) : s.length = 0 ↔ s = "" := by
  cases s with
  | mk data =>
    simp only [String.length, List.length_eq_zero]
    constructor
    · intro h; subst h; rfl
    · intro h; exact congrArg String.data h

/-- The result of `getMachineNameNsFromNode` on a Node with annotations,
read off the value of the machine annotation. -/
theorem getMachineNameNsFromNode_cases (node : Node) (annotations : List (String × String))
    (ha : node.Annotations = some annotations) :
    ((annotations.lookup machineAnnotationOpenshift).getD "" = "" ∧
      getMachineNameNsFromNode node =
        ("", "", some (.text (noMachineAnnotationError ++ node.Name)))) ∨
    ((annotations.lookup machineAnnotationOpenshift).getD "" ≠ "" ∧
      ((annotations.lookup machineAnnotationOpenshift).getD "").data.count '/' ≠ 1 ∧
      getMachineNameNsFromNode node =
        ("", "", some (.text (invalidValueMachineAnnotationError ++ node.Name)))) ∨
    (((annotations.lookup machineAnnotationOpenshift).getD "").data.count '/' = 1 ∧
      ∃ ns name, Split ((annotations.lookup machineAnnotationOpenshift).getD "") '/' = [ns, name] ∧
        getMachineNameNsFromNode node = (name, ns, none)) := by
  unfold getMachineNameNsFromNode
  rw [ha]
  dsimp only
  by_cases hlen : ((annotations.lookup machineAnnotationOpenshift).getD "").length = 0
  · left
    rw [if_pos hlen]
    exact ⟨(String_length_eq_zero _).1 hlen, rfl⟩
  · right
    rw [if_neg hlen]
    have hne : (annotations.lookup machineAnnotationOpenshift).getD "" ≠ "" :=
      fun h => hlen ((String_length_eq_zero _).2 h)
    have hl := Split_length ((annotations.lookup machineAnnotationOpenshift).getD "")
    rcases hsp : Split ((annotations.lookup machineAnnotationOpenshift).getD "") '/'
      with _ | ⟨a, _ | ⟨b, _ | ⟨c, rest⟩⟩⟩ <;> rw [hsp] at hl
    · simp at hl
    · left
      simp only [List.length_singleton] at hl
      exact ⟨hne, by omega, rfl⟩
    · right
      simp only [List.length_cons, List.length_nil] at hl
      exact ⟨by omega, a, b, rfl, rfl⟩
    · left
      simp only [List.length_cons] at hl
      exact ⟨hne, by omega, rfl⟩

/-- C12: getMachineNameNsFromNode fails with the 'no annotations' error on a
nil annotation map, with the 'no machine annotation' error when the machine
annotation is missing or empty, with the 'invalid value' error when the
value does not hold exactly one "/", and otherwise returns the text after
the separator as name and the text before it as namespace, with no error;
every error text ends with the name of the Node. -/
theorem C12_node_annotation_parsing (node : Node) :
    (node.Annotations = none →
      getMachineNameNsFromNode node =
        ("", "", some (.text (noAnnotationsError ++ node.Name)))) ∧
    (∀ annotations, node.Annotations = some annotations →
      (annotations.lookup machineAnnotationOpenshift = none ∨
        annotations.lookup machineAnnotationOpenshift = some "") →
      getMachineNameNsFromNode node =
        ("", "", some (.text (noMachineAnnotationError ++ node.Name)))) ∧
    (∀ annotations value, node.Annotations = some annotations →
      annotations.lookup machineAnnotationOpenshift = some value → value ≠ "" →
      value.data.count '/' ≠ 1 →
      getMachineNameNsFromNode node =
        ("", "", some (.text (invalidValueMachineAnnotationError ++ node.Name)))) ∧
    (∀ annotations value, node.Annotations = some annotations →
      annotations.lookup machineAnnotationOpenshift = some value →
      value.data.count '/' = 1 →
      ∃ ns name, getMachineNameNsFromNode node = (name, ns, none) ∧
        value = ns ++ "/" ++ name ∧ '/' ∉ ns.data ∧ '/' ∉ name.data) ∧
    (∀ err, (getMachineNameNsFromNode node).2.2 = some err →
      ∃ before, err.Error = before ++ node.Name) := by
  refine ⟨?_, ?_, ?_, ?_, ?_⟩
  · intro ha
    unfold getMachineNameNsFromNode
    rw [ha]
  · intro annotations ha hl
    have hv : (annotations.lookup machineAnnotationOpenshift).getD "" = "" := by
      rcases hl with h | h <;> rw [h] <;> rfl
    rcases getMachineNameNsFromNode_cases node annotations ha with
      ⟨-, h⟩ | ⟨hne, -, -⟩ | ⟨hc, -⟩
    · exact h
    · exact absurd hv hne
    · rw [hv] at hc
      simp at hc
  · intro annotations value ha hl hne hcount
    have hv : (annotations.lookup machineAnnotationOpenshift).getD "" = value := by
      rw [hl]; rfl
    rcases getMachineNameNsFromNode_cases node annotations ha with
      ⟨h, -⟩ | ⟨-, -, h⟩ | ⟨hc, -⟩
    · rw [hv] at h
      exact absurd h hne
    · exact h
    · rw [hv] at hc
      exact absurd hc hcount
  · intro annotations value ha hl hcount
    have hv : (annotations.lookup machineAnnotationOpenshift).getD "" = value := by
      rw [hl]; rfl
    rcases getMachineNameNsFromNode_cases node annotations ha with
      ⟨h, -⟩ | ⟨-, hc, -⟩ | ⟨-, ns, name, hsp, h⟩
    · rw [hv] at h
      subst h
      simp at hcount
    · rw [hv] at hc
      exact absurd hcount hc
    · rw [hv] at hsp
      obtain ⟨h1, h2⟩ := Split_pair value ns name hsp
      exact ⟨ns, name, h, Split_pair_eq value ns name hsp, h1, h2⟩
  · intro err herr
    cases ha : node.Annotations with
    | none =>
      unfold getMachineNameNsFromNode at herr
      rw [ha] at herr
      simp only [Option.some.injEq] at herr
      subst herr
      exact ⟨noAnnotationsError, rfl⟩
    | some annotations =>
      rcases getMachineNameNsFromNode_cases node annotations ha with
        ⟨-, h⟩ | ⟨-, -, h⟩ | ⟨-, ns, name, -, h⟩
      · rw [h] at herr
        simp only [Option.some.injEq] at herr
        subst herr
        exact ⟨noMachineAnnotationError, rfl⟩
      · rw [h] at herr
        simp only [Option.some.injEq] at herr
        subst herr
        exact ⟨invalidValueMachineAnnotationError, rfl⟩
      · rw [h] at herr
        simp at herr

/-- A binding annotation that records a Machine name decides the lookup
alone: the Node is not fetched and the must-exist flag is false. -/
theorem getMachine_of_named_binding (r : Client) (mdr : MachineDeletionRemediation)
    (name ns : String) (hkey : bindingKey mdr = some (name, ns)) (hname : name ≠ "") :
    getMachine r mdr = getMachineByKey r name ns false [] ∧
    (getMachine r mdr).2 = [.getMachine name ns] ∧
    (getMachine r mdr).1.2 = false := by
  have hg : getMachine r mdr = getMachineByKey r name ns false [] := by
    unfold getMachine
    rw [getMachineNameNsFromRemediation_of_key mdr name ns hkey]
    dsimp only
    rw [if_neg hname]
  refine ⟨hg, ?_, ?_⟩
  · rw [hg, getMachineByKey_calls]
    rfl
  · rw [hg]
    unfold getMachineByKey
    cases r.GetMachine name ns <;> rfl

/-- C13, the code at the failing input: the binding annotation "default/"
has exactly one separator, yet getMachine fetches the Node, looks up the
Machine that the Node names (another Machine when the Node names another),
and reports the must-exist flag as true. -/
theorem C13_empty_name_binding_reads_the_node :
    mapLookup emptyNameRemediation.Annotations MachineNameNsAnnotation = some "default/" ∧
    ("default/" : String).data.count '/' = 1 ∧
    (getMachine (workerClient emptyNameRemediation (.ok workerNode)
        (.ok (workerMachine (some true) none []))) emptyNameRemediation).2 =
      [.getNode workerNodeName, .getMachine workerNodeMachineName defaultNamespace] ∧
    (getMachine (workerClient emptyNameRemediation (.ok workerNode)
        (.ok (workerMachine (some true) none []))) emptyNameRemediation).1.2 = true ∧
    (getMachine (workerClient emptyNameRemediation (.ok repointedNode)
        (.ok (workerMachine (some true) none []))) emptyNameRemediation).2 =
      [.getNode workerNodeName, .getMachine "master-node-x-machine" defaultNamespace] :=
  ⟨rfl, by decide, rfl, rfl, rfl⟩

/-! ## What the condition writes leave in the list -/

theorem FindStatusCondition_set_same (conditions : List Condition)
    (newCondition : Condition) (now : Nat) :
    ∃ found, FindStatusCondition (SetStatusCondition conditions newCondition now)
        newCondition.Type_ = some found ∧
      found.Status = newCondition.Status ∧ found.Reason = newCondition.Reason ∧
      found.Message = newCondition.Message := by
  induction conditions with
  | nil =>
    refine ⟨{ newCondition with
      LastTransitionTime :=
        if newCondition.LastTransitionTime = 0 then now
        else newCondition.LastTransitionTime }, ?_, rfl, rfl, rfl⟩
    simp [SetStatusCondition, FindStatusCondition]
  | cons c cs ih =>
    by_cases h : c.Type_ = newCondition.Type_
    · refine ⟨mergeCondition c newCondition now, ?_, rfl, rfl, rfl⟩
      simp [SetStatusCondition, FindStatusCondition, h, mergeCondition]
    · obtain ⟨found, hf, hrest⟩ := ih
      refine ⟨found, ?_, hrest⟩
      unfold FindStatusCondition at hf ⊢
      rw [SetStatusCondition, if_neg h, List.find?_cons_of_neg _ (by simpa using h)]
      exact hf

theorem FindStatusCondition_set_other (conditions : List Condition)
    (newCondition : Condition) (now : Nat) (conditionType : String)
    (hne : newCondition.Type_ ≠ conditionType) :
    FindStatusCondition (SetStatusCondition conditions newCondition now) conditionType =
      FindStatusCondition conditions conditionType := by
  induction conditions with
  | nil =>
    simp only [SetStatusCondition, FindStatusCondition]
    rw [List.find?_cons_of_neg _ (by simpa using hne)]
  | cons c cs ih =>
    unfold FindStatusCondition at ih ⊢
    by_cases h : c.Type_ = newCondition.Type_
    · have h2 : c.Type_ ≠ conditionType := fun e => hne (h ▸ e)
      rw [SetStatusCondition, if_pos h, List.find?_cons_of_neg _ (by simpa using h2),
        List.find?_cons_of_neg _ (by simpa [mergeCondition] using h2)]
    · rw [SetStatusCondition, if_neg h]
      by_cases h3 : c.Type_ = conditionType
      · rw [List.find?_cons_of_pos _ (by simpa using h3),
          List.find?_cons_of_pos _ (by simpa using h3)]
      · rw [List.find?_cons_of_neg _ (by simpa using h3),
          List.find?_cons_of_neg _ (by simpa using h3), ih]

theorem writeConditions_found (r : Client) (reason : String) (p s : ConditionStatus)
    (mdr : MachineDeletionRemediation) :
    ∃ processing succeeded,
      FindStatusCondition (writeConditions r reason p s mdr).Status.Conditions
        ProcessingType = some processing ∧
      FindStatusCondition (writeConditions r reason p s mdr).Status.Conditions
        SucceededType = some succeeded ∧
      processing.Status = p ∧ processing.Reason = reason ∧
      succeeded.Status = s ∧ succeeded.Reason = reason := by
  obtain ⟨fp, hfp, hp1, hp2, -⟩ := FindStatusCondition_set_same mdr.Status.Conditions
    { Type_ := ProcessingType, Status := p, ObservedGeneration := 0,
      LastTransitionTime := 0, Reason := reason, Message := "" } r.Now
  obtain ⟨fs, hfs, hs1, hs2, -⟩ := FindStatusCondition_set_same
    (SetStatusCondition mdr.Status.Conditions
      { Type_ := ProcessingType, Status := p, ObservedGeneration := 0,
        LastTransitionTime := 0, Reason := reason, Message := "" } r.Now)
    { Type_ := SucceededType, Status := s, ObservedGeneration := 0,
      LastTransitionTime := 0, Reason := reason, Message := "" } r.Now
  refine ⟨fp, fs, ?_, hfs, hp1, hp2, hs1, hs2⟩
  unfold writeConditions
  dsimp only
  rw [FindStatusCondition_set_other _ _ _ ProcessingType
    (show SucceededType ≠ ProcessingType by decide)]
  exact hfp

/-- C14: for each of the four known reasons, when updateConditions returns
true the list holds Processing and Succeeded with the statuses of that
reason (RemediationStarted: True and Unknown; RemediationFinished: False and
True; RemediationStoppedByNHC and RemediationFailed: False and False), both
with the reason string as their Reason; for the three terminal reasons the
statuses hold after the call whatever it returned. -/
theorem C14_conditions_written_per_reason (r : Client) (reason : processingChangeReason)
    (mdr : MachineDeletionRemediation)
    (hk : reason = remediationStarted ∨ reason = remediationFinished ∨
      reason = remediationTimedOutByNhc ∨ reason = remediationFailed) :
    ((updateConditions r reason mdr).1 = true →
      ∃ processing succeeded,
        FindStatusCondition (updateConditions r reason mdr).2.2.Status.Conditions
          ProcessingType = some processing ∧
        FindStatusCondition (updateConditions r reason mdr).2.2.Status.Conditions
          SucceededType = some succeeded ∧
        processing.Reason = reason ∧ succeeded.Reason = reason ∧
        (reason = remediationStarted →
          processing.Status = ConditionTrue ∧ succeeded.Status = ConditionUnknown) ∧
        (reason = remediationFinished →
          processing.Status = ConditionFalse ∧ succeeded.Status = ConditionTrue) ∧
        (reason = remediationTimedOutByNhc ∨ reason = remediationFailed →
          processing.Status = ConditionFalse ∧ succeeded.Status = ConditionFalse)) ∧
    (reason = remediationFinished →
      IsStatusConditionPresentAndEqual (updateConditions r reason mdr).2.2.Status.Conditions
        ProcessingType ConditionFalse = true ∧
      IsStatusConditionPresentAndEqual (updateConditions r reason mdr).2.2.Status.Conditions
        SucceededType ConditionTrue = true) ∧
    (reason = remediationTimedOutByNhc ∨ reason = remediationFailed →
      IsStatusConditionPresentAndEqual (updateConditions r reason mdr).2.2.Status.Conditions
        ProcessingType ConditionFalse = true ∧
      IsStatusConditionPresentAndEqual (updateConditions r reason mdr).2.2.Status.Conditions
        SucceededType ConditionFalse = true) := by
  refine ⟨?_, ?_, ?_⟩
  · intro htrue
    rcases hk with h | h | h | h <;> subst h
    · rw [updateConditions_started] at htrue ⊢
      split_ifs at htrue ⊢
      obtain ⟨fp, fs, h1, h2, h3, h4, h5, h6⟩ :=
        writeConditions_found r remediationStarted ConditionTrue ConditionUnknown mdr
      exact ⟨fp, fs, h1, h2, h4, h6, fun _ => ⟨h3, h5⟩, fun h => absurd h (by decide),
        fun h => absurd h (by decide)⟩
    · rw [updateConditions_finished] at htrue ⊢
      split_ifs at htrue ⊢
      obtain ⟨fp, fs, h1, h2, h3, h4, h5, h6⟩ :=
        writeConditions_found r remediationFinished ConditionFalse ConditionTrue mdr
      exact ⟨fp, fs, h1, h2, h4, h6, fun h => absurd h (by decide), fun _ => ⟨h3, h5⟩,
        fun h => absurd h (by decide)⟩
    · rw [updateConditions_timedOut] at htrue ⊢
      split_ifs at htrue ⊢
      obtain ⟨fp, fs, h1, h2, h3, h4, h5, h6⟩ :=
        writeConditions_found r remediationTimedOutByNhc ConditionFalse ConditionFalse mdr
      exact ⟨fp, fs, h1, h2, h4, h6, fun h => absurd h (by decide),
        fun h => absurd h (by decide), fun _ => ⟨h3, h5⟩⟩
    · rw [updateConditions_failed] at htrue ⊢
      split_ifs at htrue ⊢
      obtain ⟨fp, fs, h1, h2, h3, h4, h5, h6⟩ :=
        writeConditions_found r remediationFailed ConditionFalse ConditionFalse mdr
      exact ⟨fp, fs, h1, h2, h4, h6, fun h => absurd h (by decide),
        fun h => absurd h (by decide), fun _ => ⟨h3, h5⟩⟩
  · intro h
    subst h
    exact updateConditions_finished_conditions r mdr
  · intro h
    rcases h with h | h <;> subst h
    · exact updateConditions_timedOut_conditions r mdr
    · exact updateConditions_failed_conditions r mdr

/-- Witness of C14: RemediationStarted on a request without conditions. -/
theorem C14_conditions_written_per_reason_witness :
    (updateConditions (workerClient (workerRemediation none []) (.ok workerNode)
        (.ok (workerMachine (some true) none []))) remediationStarted
        (workerRemediation none [])).1 = true ∧
    ∃ processing succeeded,
      FindStatusCondition (updateConditions (workerClient (workerRemediation none [])
          (.ok workerNode) (.ok (workerMachine (some true) none []))) remediationStarted
          (workerRemediation none [])).2.2.Status.Conditions ProcessingType =
        some processing ∧
      FindStatusCondition (updateConditions (workerClient (workerRemediation none [])
          (.ok workerNode) (.ok (workerMachine (some true) none []))) remediationStarted
          (workerRemediation none [])).2.2.Status.Conditions SucceededType =
        some succeeded ∧
      processing.Reason = remediationStarted ∧ succeeded.Reason = remediationStarted ∧
      processing.Status = ConditionTrue ∧ succeeded.Status = ConditionUnknown :=
  have h := (C14_conditions_written_per_reason
    (workerClient (workerRemediation none []) (.ok workerNode)
      (.ok (workerMachine (some true) none [])))
    remediationStarted (workerRemediation none []) (Or.inl rfl)).1 (by decide)
  ⟨by decide, h.imp fun _ hp => hp.imp fun _ hs =>
    ⟨hs.1, hs.2.1, hs.2.2.1, hs.2.2.2.1, hs.2.2.2.2.1 rfl⟩⟩

theorem IsStatusConditionPresentAndEqual_of_pairs (a b : List Condition)
    (conditionType : String) (status : ConditionStatus)
    (h : statusPairs a = statusPairs b) :
    IsStatusConditionPresentAndEqual a conditionType status =
      IsStatusConditionPresentAndEqual b conditionType status := by
  induction a generalizing b with
  | nil =>
    cases b with
    | nil => rfl
    | cons y ys => simp [statusPairs] at h
  | cons x xs ih =>
    cases b with
    | nil => simp [statusPairs] at h
    | cons y ys =>
      simp only [statusPairs, List.map_cons, List.cons.injEq, Prod.mk.injEq] at h
      obtain ⟨⟨ht, hs⟩, hrest⟩ := h
      unfold IsStatusConditionPresentAndEqual
      rw [ht, hs, ih ys hrest]

/-- Set-if-changed for a reason that writes the statuses `p` and `s`
whenever they are not both recorded. -/
theorem updateConditions_set_if_changed (reason : processingChangeReason)
    (p s : ConditionStatus)
    (hu : ∀ (r : Client) (m : MachineDeletionRemediation), updateConditions r reason m =
      if IsStatusConditionPresentAndEqual m.Status.Conditions ProcessingType p ∧
          IsStatusConditionPresentAndEqual m.Status.Conditions SucceededType s
        then (false, none, m)
      else (true, none, writeConditions r reason p s m))
    (r r₂ : Client) (mdr : MachineDeletionRemediation) :
    ((updateConditions r reason mdr).1 = true ↔
      statusPairs (updateConditions r reason mdr).2.2.Status.Conditions ≠
        statusPairs mdr.Status.Conditions) ∧
    ((updateConditions r reason mdr).1 = false → (updateConditions r reason mdr).2.2 = mdr) ∧
    updateConditions r₂ reason (updateConditions r reason mdr).2.2 =
      (false, none, (updateConditions r reason mdr).2.2) := by
  rw [hu r mdr]
  by_cases hc : IsStatusConditionPresentAndEqual mdr.Status.Conditions ProcessingType p ∧
      IsStatusConditionPresentAndEqual mdr.Status.Conditions SucceededType s
  · rw [if_pos hc]
    refine ⟨by simp, fun _ => rfl, ?_⟩
    dsimp only
    rw [hu r₂ mdr, if_pos hc]
  · rw [if_neg hc]
    have hp := writeConditions_processing r reason p s p mdr
    have hs := writeConditions_succeeded r reason p s s mdr
    simp only [beq_self_eq_true] at hp hs
    refine ⟨?_, by simp, ?_⟩
    · simp only [true_iff]
      intro hpairs
      apply hc
      rw [← IsStatusConditionPresentAndEqual_of_pairs _ _ ProcessingType p hpairs,
        ← IsStatusConditionPresentAndEqual_of_pairs _ _ SucceededType s hpairs]
      exact ⟨hp, hs⟩
    · dsimp only
      rw [hu r₂, if_pos ⟨hp, hs⟩]

theorem updateConditions_started_set_if_changed (r r₂ : Client)
    (mdr : MachineDeletionRemediation) :
    ((updateConditions r remediationStarted mdr).1 = true ↔
      statusPairs (updateConditions r remediationStarted mdr).2.2.Status.Conditions ≠
        statusPairs mdr.Status.Conditions) ∧
    ((updateConditions r remediationStarted mdr).1 = false →
      (updateConditions r remediationStarted mdr).2.2 = mdr) ∧
    updateConditions r₂ remediationStarted (updateConditions r remediationStarted mdr).2.2 =
      (false, none, (updateConditions r remediationStarted mdr).2.2) := by
  rw [updateConditions_started r mdr]
  by_cases hg : IsStatusConditionPresentAndEqual mdr.Status.Conditions ProcessingType
      ConditionFalse = true
  · rw [if_pos hg]
    refine ⟨by simp, fun _ => rfl, ?_⟩
    dsimp only
    rw [updateConditions_started r₂ mdr, if_pos hg]
  · rw [if_neg hg]
    by_cases hc : IsStatusConditionPresentAndEqual mdr.Status.Conditions ProcessingType
          ConditionTrue = true ∧
        IsStatusConditionPresentAndEqual mdr.Status.Conditions SucceededType
          ConditionUnknown = true
    · rw [if_pos hc]
      refine ⟨by simp, fun _ => rfl, ?_⟩
      dsimp only
      rw [updateConditions_started r₂ mdr, if_neg hg, if_pos hc]
    · rw [if_neg hc]
      have hp := writeConditions_processing r remediationStarted ConditionTrue
        ConditionUnknown ConditionTrue mdr
      have hs := writeConditions_succeeded r remediationStarted ConditionTrue
        ConditionUnknown ConditionUnknown mdr
      have hf := writeConditions_processing r remediationStarted ConditionTrue
        ConditionUnknown ConditionFalse mdr
      simp only [beq_self_eq_true] at hp hs
      refine ⟨?_, by simp, ?_⟩
      · simp only [true_iff]
        intro hpairs
        apply hc
        rw [← IsStatusConditionPresentAndEqual_of_pairs _ _ ProcessingType ConditionTrue
            hpairs,
          ← IsStatusConditionPresentAndEqual_of_pairs _ _ SucceededType ConditionUnknown
            hpairs]
        exact ⟨hp, hs⟩
      · dsimp only
        rw [updateConditions_started r₂, if_neg (by rw [hf]; decide), if_pos ⟨hp, hs⟩]

/-- C15: updateConditions, for each known reason, and
setPermanentNodeDeletionExpectedCondition, for each status, return true
exactly when the (type, status) pairs of the list after the call differ
from those before it; when they return false the request is unchanged,
whatever reasons and messages are stored; and a second call with the same
argument on the result returns false and changes nothing. -/
theorem C15_set_if_changed (r r₂ : Client) (mdr : MachineDeletionRemediation) :
    (∀ reason : processingChangeReason,
      reason = remediationStarted ∨ reason = remediationFinished ∨
        reason = remediationTimedOutByNhc ∨ reason = remediationFailed →
      ((updateConditions r reason mdr).1 = true ↔
        statusPairs (updateConditions r reason mdr).2.2.Status.Conditions ≠
          statusPairs mdr.Status.Conditions) ∧
      ((updateConditions r reason mdr).1 = false →
        (updateConditions r reason mdr).2.2 = mdr) ∧
      updateConditions r₂ reason (updateConditions r reason mdr).2.2 =
        (false, none, (updateConditions r reason mdr).2.2)) ∧
    (∀ status : ConditionStatus,
      ((setPermanentNodeDeletionExpectedCondition r status mdr).1 = true ↔
        statusPairs (setPermanentNodeDeletionExpectedCondition r status mdr).2.Status.Conditions
          ≠ statusPairs mdr.Status.Conditions) ∧
      ((setPermanentNodeDeletionExpectedCondition r status mdr).1 = false →
        (setPermanentNodeDeletionExpectedCondition r status mdr).2 = mdr) ∧
      setPermanentNodeDeletionExpectedCondition r₂ status
          (setPermanentNodeDeletionExpectedCondition r status mdr).2 =
        (false, (setPermanentNodeDeletionExpectedCondition r status mdr).2)) := by
  constructor
  · intro reason hk
    rcases hk with h | h | h | h <;> subst h
    · exact updateConditions_started_set_if_changed r r₂ mdr
    · exact updateConditions_set_if_changed remediationFinished ConditionFalse ConditionTrue
        updateConditions_finished r r₂ mdr
    · exact updateConditions_set_if_changed remediationTimedOutByNhc ConditionFalse
        ConditionFalse updateConditions_timedOut r r₂ mdr
    · exact updateConditions_set_if_changed remediationFailed ConditionFalse ConditionFalse
        updateConditions_failed r r₂ mdr
  · intro status
    rw [setPermanentNodeDeletionExpectedCondition_eq r status mdr]
    by_cases hc : IsStatusConditionPresentAndEqual mdr.Status.Conditions
        PermanentNodeDeletionExpectedType status = true
    · rw [if_pos hc]
      refine ⟨by simp, fun _ => rfl, ?_⟩
      dsimp only
      rw [setPermanentNodeDeletionExpectedCondition_eq r₂ status mdr, if_pos hc]
    · rw [if_neg hc]
      have hw := writePermanentNodeDeletionExpected_status r status status mdr
      simp only [beq_self_eq_true] at hw
      refine ⟨?_, by simp, ?_⟩
      · simp only [true_iff]
        intro hpairs
        apply hc
        rw [← IsStatusConditionPresentAndEqual_of_pairs _ _
          PermanentNodeDeletionExpectedType status hpairs]
        exact hw
      · dsimp only
        rw [setPermanentNodeDeletionExpectedCondition_eq r₂, if_pos hw]

/-! ## The deferred status update -/

theorem reconcileBody_no_statusUpdate (r : Client) (mdr : MachineDeletionRemediation) :
    (reconcileBody r mdr).calls.any Call.isStatusUpdate = false := by
  have hread : ∀ calls : List Call, (∀ call ∈ calls, call.isWrite = false) →
      calls.any Call.isStatusUpdate = false := by
    intro calls h
    rw [List.any_eq_false]
    intro call hmem
    have := h call hmem
    cases call <;> simp_all [Call.isWrite, Call.isStatusUpdate]
  rcases reconcileBody_writes r mdr with hreads | ⟨machine, mustExist, calls, hfetch, -, hcase⟩
  · exact hread _ hreads
  · have hcalls : calls.any Call.isStatusUpdate = false := by
      apply hread
      have := getMachine_no_write r mdr
      rw [hfetch] at this
      exact this
    rcases hcase with ⟨-, hb⟩ | ⟨-, -, hb⟩ | ⟨-, -, hb⟩ <;>
      rw [hb, List.any_append, hcalls] <;> rfl

/-- C16 fails as stated. When the load of the request fails with an error
that is not a not-found error, Reconcile returns that error and attempts no
status update. -/
theorem C16_failed_load_counterexample :
    unreachableClient.GetRemediation workerRequest.Name workerRequest.Namespace =
      .error (.text "connection refused") ∧
    IsNotFound (.text "connection refused") = false ∧
    (Reconcile unreachableClient workerRequest).calls.countP Call.isStatusUpdate = 0 ∧
    (Reconcile unreachableClient workerRequest).finalErr.isSome = true :=
  ⟨rfl, by decide, by decide, by decide⟩

/-- C16 as amended: when the load of the request fails, Reconcile makes no
further call and returns the empty result, with no error if the request is
not found and with the error of the load otherwise; when the request is
loaded, Reconcile attempts exactly one status update, as its last call,
after the calls of the body, carrying the request as the body left it. -/
theorem C16_one_status_update_when_loaded (r : Client) (req : Request) :
    (∀ err, r.GetRemediation req.Name req.Namespace = .error err →
      (Reconcile r req).calls = [.getRemediation req.Name req.Namespace] ∧
      (Reconcile r req).finalResult = Result.empty ∧
      (Reconcile r req).finalErr = (if IsNotFound err then none else some err)) ∧
    (∀ mdr, r.GetRemediation req.Name req.Namespace = .ok mdr →
      (Reconcile r req).calls =
        Call.getRemediation req.Name req.Namespace ::
          ((reconcileBody r mdr).calls ++
            [Call.statusUpdate (reconcileBody r mdr).remediation]) ∧
      (reconcileBody r mdr).calls.any Call.isStatusUpdate = false ∧
      (Reconcile r req).calls.countP Call.isStatusUpdate = 1) := by
  constructor
  · intro err hload
    refine ⟨Reconcile_calls_not_loaded r req err hload, ?_, ?_⟩
    · unfold Reconcile getRemediation
      rw [hload]
      dsimp only
      split_ifs <;> rfl
    · unfold Reconcile getRemediation
      rw [hload]
      dsimp only
      split_ifs <;> rfl
  · intro mdr hload
    have hno := reconcileBody_no_statusUpdate r mdr
    refine ⟨Reconcile_calls r req mdr hload, hno, ?_⟩
    rw [Reconcile_calls r req mdr hload]
    have hzero : (reconcileBody r mdr).calls.countP Call.isStatusUpdate = 0 := by
      rw [List.countP_eq_zero]
      intro call hmem
      have := List.any_eq_false.1 hno call hmem
      simpa using this
    simp [List.countP_cons, List.countP_append, hzero, Call.isStatusUpdate]

/-- C17: when the final status update fails with a write conflict, Reconcile
returns the error of the body; when it fails otherwise, Reconcile returns
the aggregate of the update error and the error of the body; in both cases
RequeueAfter is one second; when the update succeeds, the result and error
of the body are returned unchanged. -/
theorem C17_status_update_failure (r : Client) (req : Request)
    (mdr : MachineDeletionRemediation)
    (hload : r.GetRemediation req.Name req.Namespace = .ok mdr) :
    (r.StatusUpdate (reconcileBody r mdr).remediation = none →
      (Reconcile r req).finalResult = (reconcileBody r mdr).result ∧
      (Reconcile r req).finalErr = (reconcileBody r mdr).err) ∧
    (∀ updateErr, r.StatusUpdate (reconcileBody r mdr).remediation = some updateErr →
      IsConflict updateErr = true →
      (Reconcile r req).finalErr = (reconcileBody r mdr).err ∧
      (Reconcile r req).finalResult.RequeueAfter = Second) ∧
    (∀ updateErr, r.StatusUpdate (reconcileBody r mdr).remediation = some updateErr →
      IsConflict updateErr = false →
      (Reconcile r req).finalErr =
        some (.aggregate (updateErr :: (reconcileBody r mdr).err.toList)) ∧
      (Reconcile r req).finalResult.RequeueAfter = Second ∧
      (Reconcile r req).finalResult.Requeue = (reconcileBody r mdr).result.Requeue) := by
  refine ⟨?_, ?_, ?_⟩
  · intro hs
    unfold Reconcile getRemediation updateStatus
    rw [hload]
    dsimp only
    rw [hs]
    exact ⟨rfl, rfl⟩
  · intro updateErr hs hc
    unfold Reconcile getRemediation updateStatus
    rw [hload]
    dsimp only
    rw [hs]
    dsimp only
    rw [hc]
    exact ⟨rfl, rfl⟩
  · intro updateErr hs hc
    unfold Reconcile getRemediation updateStatus
    rw [hload]
    dsimp only
    rw [hs]
    dsimp only
    rw [hc]
    refine ⟨?_, rfl, rfl⟩
    cases (reconcileBody r mdr).err <;> rfl

/-- Witness of C17: the delete of the worker Machine fails, and then the
status update fails with an error that is not a conflict. -/
theorem C17_status_update_failure_witness :
    (Reconcile (faultyWorkerClient (workerRemediation none startedConditions)
        (.ok workerNode) (.ok (workerMachine (some true) none [])) none
        (some (.text "mock delete failure")) (some (.text "connection refused")))
      workerRequest).finalErr =
      some (.aggregate [.text "connection refused", .text "mock delete failure"]) ∧
    (Reconcile (faultyWorkerClient (workerRemediation none startedConditions)
        (.ok workerNode) (.ok (workerMachine (some true) none [])) none
        (some (.text "mock delete failure")) (some (.text "connection refused")))
      workerRequest).finalResult.RequeueAfter = Second :=
  have h := (C17_status_update_failure
    (faultyWorkerClient (workerRemediation none startedConditions)
      (.ok workerNode) (.ok (workerMachine (some true) none [])) none
      (some (.text "mock delete failure")) (some (.text "connection refused")))
    workerRequest (workerRemediation none startedConditions) rfl).2.2
      (.text "connection refused") rfl (by decide)
  ⟨h.1, h.2.1⟩

/-- C18: on a request without an active stop signal whose conditions hold
neither Processing=False nor the pair Processing=True, Succeeded=Unknown,
one invocation of Reconcile sets Processing=True and Succeeded=Unknown with
reason RemediationStarted, its body returns RequeueAfter of one second with
no error, and the pass fetches no Node or Machine, writes no annotation and
issues no delete. -/
theorem C18_first_pass_starts_and_requeues (r : Client) (req : Request)
    (mdr : MachineDeletionRemediation)
    (hload : r.GetRemediation req.Name req.Namespace = .ok mdr)
    (hstop : isTimedOutByNHC (some mdr) = false)
    (hnotFalse : IsStatusConditionPresentAndEqual mdr.Status.Conditions ProcessingType
      ConditionFalse = false)
    (hnotStarted : ¬ (IsStatusConditionPresentAndEqual mdr.Status.Conditions ProcessingType
        ConditionTrue = true ∧
      IsStatusConditionPresentAndEqual mdr.Status.Conditions SucceededType
        ConditionUnknown = true)) :
    (∃ final processing succeeded, (Reconcile r req).remediation = some final ∧
      FindStatusCondition final.Status.Conditions ProcessingType = some processing ∧
      FindStatusCondition final.Status.Conditions SucceededType = some succeeded ∧
      processing.Status = ConditionTrue ∧ processing.Reason = remediationStarted ∧
      succeeded.Status = ConditionUnknown ∧ succeeded.Reason = remediationStarted ∧
      IsStatusConditionPresentAndEqual final.Status.Conditions ProcessingType
        ConditionTrue = true ∧
      IsStatusConditionPresentAndEqual final.Status.Conditions SucceededType
        ConditionUnknown = true ∧
      final.Annotations = mdr.Annotations) ∧
    (reconcileBody r mdr).result = { Requeue := false, RequeueAfter := Second } ∧
    (reconcileBody r mdr).err = none ∧
    (Reconcile r req).calls.any Call.isGetNode = false ∧
    (Reconcile r req).calls.any Call.isGetMachine = false ∧
    (Reconcile r req).calls.any Call.isUpdate = false ∧
    (Reconcile r req).calls.any Call.isDelete = false := by
  have hreq : (updateConditions r remediationStarted mdr).1 = true := by
    rw [updateConditions_started, if_neg (by simp [hnotFalse]), if_neg hnotStarted]
  have hbody := reconcileBody_started r mdr hstop hreq
  obtain ⟨fp, fs, h1, h2, h3, h4, h5, h6⟩ :=
    writeConditions_found r remediationStarted ConditionTrue ConditionUnknown mdr
  refine ⟨⟨_, fp, fs, Reconcile_remediation r req mdr hload, ?_, ?_, h3, h4, h5, h6, ?_, ?_, ?_⟩,
    ?_, ?_, ?_, ?_, ?_, ?_⟩
  · rw [hbody]; exact h1
  · rw [hbody]; exact h2
  · rw [hbody]
    have := writeConditions_processing r remediationStarted ConditionTrue ConditionUnknown
      ConditionTrue mdr
    simpa using this
  · rw [hbody]
    have := writeConditions_succeeded r remediationStarted ConditionTrue ConditionUnknown
      ConditionUnknown mdr
    simpa using this
  · rw [hbody]; rfl
  · rw [hbody]
  · rw [hbody]
  · rw [Reconcile_any r req mdr hload Call.isGetNode (fun _ _ => rfl) (fun _ => rfl), hbody]
    rfl
  · rw [Reconcile_any r req mdr hload Call.isGetMachine (fun _ _ => rfl) (fun _ => rfl),
      hbody]
    rfl
  · rw [Reconcile_any r req mdr hload Call.isUpdate (fun _ _ => rfl) (fun _ => rfl), hbody]
    rfl
  · rw [Reconcile_any r req mdr hload Call.isDelete (fun _ _ => rfl) (fun _ => rfl), hbody]
    rfl

/-- Witness of C18: a fresh request, with no conditions and no annotations. -/
theorem C18_first_pass_starts_and_requeues_witness :
    (reconcileBody (workerClient (workerRemediation none []) (.ok workerNode)
      (.ok (workerMachine (some true) none []))) (workerRemediation none [])).result =
      { Requeue := false, RequeueAfter := Second } ∧
    (Reconcile (workerClient (workerRemediation none []) (.ok workerNode)
      (.ok (workerMachine (some true) none []))) workerRequest).calls.any
      Call.isGetMachine = false :=
  have h := C18_first_pass_starts_and_requeues
    (workerClient (workerRemediation none []) (.ok workerNode)
      (.ok (workerMachine (some true) none [])))
    workerRequest (workerRemediation none []) rfl (by decide) (by decide) (by decide)
  ⟨h.2.1, h.2.2.2.2.1⟩

/-- The pass that issues the delete: the delete is the last call of the
body, the body returns the error of the delete, the empty result when it
failed and an immediate requeue when it succeeded, and no condition changed. -/
theorem reconcileBody_delete (r : Client) (mdr : MachineDeletionRemediation)
    (hdel : (reconcileBody r mdr).calls.any Call.isDelete = true) :
    ∃ machine before, (reconcileBody r mdr).calls = before ++ [.delete machine] ∧
      before.any Call.isDelete = false ∧
      (reconcileBody r mdr).err = r.Delete machine ∧
      (reconcileBody r mdr).result =
        (if (r.Delete machine).isSome then Result.empty
         else { Requeue := true, RequeueAfter := 0 }) ∧
      (reconcileBody r mdr).remediation.Status = mdr.Status := by
  by_cases ht : isTimedOutByNHC (some mdr) = true
  · rw [reconcileBody_timedOut r mdr ht] at hdel
    simp at hdel
  · simp only [Bool.not_eq_true] at ht
    by_cases hs : (updateConditions r remediationStarted mdr).1 = true
    · rw [reconcileBody_started r mdr ht hs] at hdel
      simp at hdel
    · simp only [Bool.not_eq_true] at hs
      have hcalls := (getMachine_calls r mdr).1
      rw [reconcileBody_fetch r mdr ht hs] at hdel ⊢
      rcases hg : getMachine r mdr with ⟨⟨err | machine, mustExist⟩, calls⟩
      · rw [hg] at hdel hcalls
        dsimp only at hdel hcalls
        by_cases hnf : IsNotFound err = true
        · rw [if_pos hnf] at hdel
          rw [hcalls] at hdel
          cases hdel
        · rw [if_neg hnf] at hdel
          rw [hcalls] at hdel
          cases hdel
      · rw [hg] at hdel hcalls
        dsimp only at hdel hcalls ⊢
        rw [reconcileMachine_eq] at hdel ⊢
        by_cases h1 : (getMachineProviderID machine).2.isSome = true
        · rw [if_pos h1] at hdel; rw [hcalls] at hdel; cases hdel
        · rw [if_neg h1] at hdel ⊢
          by_cases h2 : IsStatusConditionPresentAndEqual mdr.Status.Conditions
              PermanentNodeDeletionExpectedType
              (providerStatus (getMachineProviderID machine).1) = false
          · rw [if_pos h2] at hdel; rw [hcalls] at hdel; cases hdel
          · rw [if_neg h2] at hdel ⊢
            by_cases h3 : IsZero machine.DeletionTimestamp = false
            · rw [if_pos h3] at hdel; rw [hcalls] at hdel; cases hdel
            · rw [if_neg h3] at hdel ⊢
              by_cases h4 : hasControllerOwner machine = false
              · rw [if_pos h4] at hdel; rw [hcalls] at hdel; cases hdel
              · rw [if_neg h4] at hdel ⊢
                by_cases h5 : (mapLookup mdr.Annotations MachineNameNsAnnotation).isSome = true
                · rw [if_pos h5]
                  exact ⟨machine, calls, rfl, hcalls, rfl, rfl, rfl⟩
                · rw [if_neg h5] at hdel ⊢
                  cases hu : r.Update (withMachineNameNs mdr machine.Name machine.Namespace) with
                  | some e =>
                    rw [hu] at hdel
                    simp [hcalls, Call.isDelete] at hdel
                  | none =>
                    refine ⟨machine,
                      calls ++ [.update (withMachineNameNs mdr machine.Name machine.Namespace)],
                      by simp, ?_, rfl, rfl, rfl⟩
                    rw [List.any_append, hcalls]
                    rfl

/-- C19: in an invocation of Reconcile that issues the machine delete, if
the delete fails the body returns that same error and the pass changes no
condition; if it succeeds the body returns Requeue = true with no delay and
no error. -/
theorem C19_delete_outcome (r : Client) (req : Request) (mdr : MachineDeletionRemediation)
    (hload : r.GetRemediation req.Name req.Namespace = .ok mdr)
    (hdel : (Reconcile r req).calls.any Call.isDelete = true) :
    ∃ machine before, (reconcileBody r mdr).calls = before ++ [.delete machine] ∧
      before.any Call.isDelete = false ∧
      (∀ err, r.Delete machine = some err →
        (reconcileBody r mdr).err = some err ∧
        (reconcileBody r mdr).result = Result.empty ∧
        (reconcileBody r mdr).remediation.Status = mdr.Status) ∧
      (r.Delete machine = none →
        (reconcileBody r mdr).result = { Requeue := true, RequeueAfter := 0 } ∧
        (reconcileBody r mdr).err = none ∧
        (reconcileBody r mdr).remediation.Status = mdr.Status) := by
  rw [Reconcile_any r req mdr hload Call.isDelete (fun _ _ => rfl) (fun _ => rfl)] at hdel
  obtain ⟨machine, before, hcalls, hbefore, herr, hres, hstatus⟩ := reconcileBody_delete r mdr hdel
  refine ⟨machine, before, hcalls, hbefore, ?_, ?_⟩
  · intro err he
    rw [he] at herr hres
    exact ⟨herr, hres, hstatus⟩
  · intro he
    rw [he] at herr hres
    exact ⟨hres, herr, hstatus⟩

/-- Witness of C19: the mock delete failure of the controller test. -/
theorem C19_delete_outcome_witness :
    (Reconcile (faultyWorkerClient (workerRemediation none startedConditions)
        (.ok workerNode) (.ok (workerMachine (some true) none [])) none
        (some (.text "mock delete failure")) none) workerRequest).calls.any
      Call.isDelete = true ∧
    (reconcileBody (faultyWorkerClient (workerRemediation none startedConditions)
        (.ok workerNode) (.ok (workerMachine (some true) none [])) none
        (some (.text "mock delete failure")) none)
      (workerRemediation none startedConditions)).err.isSome = true :=
  have h := C19_delete_outcome
    (faultyWorkerClient (workerRemediation none startedConditions)
      (.ok workerNode) (.ok (workerMachine (some true) none [])) none
      (some (.text "mock delete failure")) none)
    workerRequest (workerRemediation none startedConditions) rfl (by decide)
  ⟨by decide, by
    obtain ⟨machine, before, -, -, hfail, -⟩ := h
    rw [(hfail (.text "mock delete failure") rfl).1]
    rfl⟩

/-! ## Scenario A, pass by pass -/

/-- C20 fails as stated. The first invocation on the fresh request records
Processing=True and Succeeded=Unknown and nothing else: it leaves no
PermanentNodeDeletionExpected condition; and the second invocation writes
no annotation and issues no delete. -/
theorem C20_first_pass_counterexample :
    statusPairs scenarioAfter1.remediation.Status.Conditions =
      [(ProcessingType, ConditionTrue), (SucceededType, ConditionUnknown)] ∧
    IsStatusConditionPresentAndEqual scenarioAfter1.remediation.Status.Conditions
      PermanentNodeDeletionExpectedType ConditionUnknown = false ∧
    (invoke workerRequest scenarioAfter1 (scenarioFaults 2)).2.calls.any Call.isUpdate = false ∧
    (invoke workerRequest scenarioAfter1 (scenarioFaults 2)).2.calls.any Call.isDelete = false ∧
    mapLookup scenarioAfter2.remediation.Annotations MachineNameNsAnnotation = none :=
  ⟨by decide, by decide, by decide, by decide, by decide⟩

/-! ## A Node annotation that names no Machine -/

theorem Reconcile_finalErr_isSome (r : Client) (req : Request)
    (mdr : MachineDeletionRemediation)
    (hload : r.GetRemediation req.Name req.Namespace = .ok mdr)
    (herr : (reconcileBody r mdr).err.isSome = true) :
    (Reconcile r req).finalErr.isSome = true := by
  obtain ⟨e, he⟩ := Option.isSome_iff_exists.1 herr
  unfold Reconcile getRemediation updateStatus
  rw [hload]
  dsimp only
  cases hs : r.StatusUpdate (reconcileBody r mdr).remediation with
  | none => simpa using herr
  | some updateErr =>
    dsimp only
    by_cases hc : IsConflict updateErr = true
    · simp [hc, herr]
    · simp only [Bool.not_eq_true] at hc
      simp [hc, he, NewAggregate]

/-- On a started request without binding annotation and stop signal whose
Node carries a machine annotation without "/", the pass returns an error,
writes nothing and leaves the request as loaded. -/
theorem reconcile_invalid_node_annotation (r : Client) (req : Request)
    (mdr : MachineDeletionRemediation) (node : Node) (annotations : List (String × String))
    (value : String)
    (hload : r.GetRemediation req.Name req.Namespace = .ok mdr)
    (hbinding : mapLookup mdr.Annotations MachineNameNsAnnotation = none)
    (hstop : isTimedOutByNHC (some mdr) = false)
    (hprocessing : IsStatusConditionPresentAndEqual mdr.Status.Conditions ProcessingType
      ConditionTrue = true)
    (hsucceeded : IsStatusConditionPresentAndEqual mdr.Status.Conditions SucceededType
      ConditionUnknown = true)
    (hnode : r.GetNode mdr.Name = .ok node)
    (hann : node.Annotations = some annotations)
    (hvalue : annotations.lookup machineAnnotationOpenshift = some value)
    (hslash : '/' ∉ value.data) :
    (Reconcile r req).finalErr.isSome = true ∧
    (Reconcile r req).calls.any Call.isDelete = false ∧
    (Reconcile r req).calls.any Call.isUpdate = false ∧
    (Reconcile r req).calls.any Call.isGetMachine = false ∧
    (Reconcile r req).remediation = some mdr := by
  have hnf : IsStatusConditionPresentAndEqual mdr.Status.Conditions ProcessingType
      ConditionFalse = false := by
    rw [← Bool.not_eq_true]
    intro h
    have := IsStatusConditionPresentAndEqual_unique _ _ _ _ hprocessing h
    cases this
  have hs : (updateConditions r remediationStarted mdr).1 = false := by
    rw [updateConditions_started, if_neg (by simp [hnf]), if_pos ⟨hprocessing, hsucceeded⟩]
  have hcount : value.data.count '/' ≠ 1 := by
    rw [List.count_eq_zero_of_not_mem hslash]
    decide
  have hv : (annotations.lookup machineAnnotationOpenshift).getD "" = value := by
    rw [hvalue]; rfl
  obtain ⟨e, herr⟩ : ∃ e, getMachineNameNsFromNode node = ("", "", some e) := by
    rcases getMachineNameNsFromNode_cases node annotations hann with
      ⟨-, h⟩ | ⟨-, -, h⟩ | ⟨hc, -⟩
    · exact ⟨_, h⟩
    · exact ⟨_, h⟩
    · rw [hv] at hc
      exact absurd hc hcount
  have hnotfound : IsNotFound e = false := by
    rcases getMachineNameNsFromNode_cases node annotations hann with
      ⟨-, h⟩ | ⟨-, -, h⟩ | ⟨hc, -⟩
    · rw [h] at herr
      simp only [Prod.mk.injEq, Option.some.injEq, true_and] at herr
      subst herr
      rfl
    · rw [h] at herr
      simp only [Prod.mk.injEq, Option.some.injEq, true_and] at herr
      subst herr
      rfl
    · rw [hv] at hc
      exact absurd hc hcount
  have hg : getMachine r mdr = ((.error e, false), [.getNode mdr.Name]) := by
    unfold getMachine getMachineNameNsFromRemediation getNodeFromMdr
    rw [hbinding]
    dsimp only
    rw [if_pos rfl, hnode]
    dsimp only
    rw [herr]
  have hbody : reconcileBody r mdr =
      { result := Result.empty, err := some e, remediation := mdr,
        calls := [.getNode mdr.Name] } := by
    rw [reconcileBody_fetch r mdr hstop hs, hg]
    dsimp only
    rw [if_neg (by simp [hnotfound])]
  refine ⟨Reconcile_finalErr_isSome r req mdr hload (by rw [hbody]; rfl), ?_, ?_, ?_, ?_⟩
  · rw [Reconcile_any r req mdr hload Call.isDelete (fun _ _ => rfl) (fun _ => rfl), hbody]
    rfl
  · rw [Reconcile_any r req mdr hload Call.isUpdate (fun _ _ => rfl) (fun _ => rfl), hbody]
    rfl
  · rw [Reconcile_any r req mdr hload Call.isGetMachine (fun _ _ => rfl) (fun _ => rfl),
      hbody]
    rfl
  · rw [Reconcile_remediation r req mdr hload, hbody]

theorem applyCall_statusUpdate_same (f : Faults) (c : Cluster)
    (obj : MachineDeletionRemediation) (h : obj.Status = c.remediation.Status) :
    applyCall f c (.statusUpdate obj) = c := by
  unfold applyCall
  cases f.statusUpdate with
  | some e => rfl
  | none =>
    dsimp only
    rw [h]

theorem foldl_applyCall_unchanged (f : Faults) (c : Cluster) (calls : List Call)
    (h : ∀ call ∈ calls, call.isUpdate = false ∧ call.isDelete = false ∧
      ∀ obj, call = .statusUpdate obj → obj.Status = c.remediation.Status) :
    calls.foldl (applyCall f) c = c := by
  induction calls with
  | nil => rfl
  | cons x xs ih =>
    have hx : applyCall f c x = c := by
      obtain ⟨h1, h2, h3⟩ := h x (List.mem_cons_self _ _)
      cases x with
      | update obj => simp [Call.isUpdate] at h1
      | delete machine => simp [Call.isDelete] at h2
      | statusUpdate obj => exact applyCall_statusUpdate_same f c obj (h3 obj rfl)
      | getRemediation name ns => rfl
      | getNode name => rfl
      | getMachine name ns => rfl
    rw [List.foldl_cons, hx]
    exact ih fun call hmem => h call (List.mem_cons_of_mem _ hmem)

/-- C21: on a request that has no binding annotation and no stop signal,
records Processing=True and Succeeded=Unknown, and whose Node carries a
machine annotation without "/", every invocation of Reconcile returns a
non-nil error, issues no delete, writes no annotation and leaves the
request, hence Processing=True and Succeeded=Unknown, as it was; the store
is unchanged after any number of such invocations. -/
theorem C21_invalid_node_annotation_is_retried (req : Request) (c : Cluster) (node : Node)
    (annotations : List (String × String)) (value : String) (fs : List Faults)
    (hname : c.remediation.Name = req.Name) (hns : c.remediation.Namespace = req.Namespace)
    (hbinding : mapLookup c.remediation.Annotations MachineNameNsAnnotation = none)
    (hstop : isTimedOutByNHC (some c.remediation) = false)
    (hprocessing : IsStatusConditionPresentAndEqual c.remediation.Status.Conditions
      ProcessingType ConditionTrue = true)
    (hsucceeded : IsStatusConditionPresentAndEqual c.remediation.Status.Conditions
      SucceededType ConditionUnknown = true)
    (hnode : findNode c.nodes c.remediation.Name = some node)
    (hann : node.Annotations = some annotations)
    (hvalue : annotations.lookup machineAnnotationOpenshift = some value)
    (hslash : '/' ∉ value.data)
    (hserved : ∀ f ∈ fs, f.getRemediation = none ∧ f.getNode = none) :
    (∀ f ∈ fs,
      (invoke req c f).2.finalErr.isSome = true ∧
      (invoke req c f).2.calls.any Call.isDelete = false ∧
      (invoke req c f).2.calls.any Call.isUpdate = false ∧
      (invoke req c f).2.remediation = some c.remediation ∧
      (invoke req c f).1 = c) ∧
    fs.foldl (fun store f => (invoke req store f).1) c = c := by
  have hstep : ∀ f, f.getRemediation = none ∧ f.getNode = none →
      (invoke req c f).2.finalErr.isSome = true ∧
      (invoke req c f).2.calls.any Call.isDelete = false ∧
      (invoke req c f).2.calls.any Call.isUpdate = false ∧
      (invoke req c f).2.remediation = some c.remediation ∧
      (invoke req c f).1 = c := by
    intro f hf
    have hload : (clientOf c f).GetRemediation req.Name req.Namespace = .ok c.remediation := by
      unfold clientOf
      dsimp only
      rw [hf.1]
      dsimp only
      rw [if_pos ⟨hname, hns⟩]
    have hgetNode : (clientOf c f).GetNode c.remediation.Name = .ok node := by
      unfold clientOf
      dsimp only
      rw [hf.2]
      dsimp only
      rw [hnode]
    obtain ⟨h1, h2, h3, -, h5⟩ := reconcile_invalid_node_annotation (clientOf c f) req
      c.remediation node annotations value hload hbinding hstop hprocessing hsucceeded
      hgetNode hann hvalue hslash
    refine ⟨h1, h2, h3, h5, ?_⟩
    unfold invoke
    dsimp only
    apply foldl_applyCall_unchanged
    intro call hmem
    refine ⟨?_, ?_, ?_⟩
    · exact by
        have := List.any_eq_false.1 h3 call hmem
        simpa using this
    · exact by
        have := List.any_eq_false.1 h2 call hmem
        simpa using this
    · intro obj hobj
      subst hobj
      rw [Reconcile_calls _ req _ hload] at hmem
      rw [Reconcile_remediation _ req _ hload] at h5
      simp only [Option.some.injEq] at h5
      rcases List.mem_cons.1 hmem with h | h
      · cases h
      · rcases List.mem_append.1 h with h | h
        · have hno := reconcileBody_no_statusUpdate (clientOf c f) c.remediation
          have := List.any_eq_false.1 hno _ h
          simp [Call.isStatusUpdate] at this
        · simp only [List.mem_singleton, Call.statusUpdate.injEq] at h
          rw [h, h5]
  refine ⟨fun f hf => hstep f (hserved f hf), ?_⟩
  induction fs with
  | nil => rfl
  | cons f rest ih =>
    rw [List.foldl_cons, (hstep f (hserved f (List.mem_cons_self _ _))).2.2.2.2]
    exact ih fun g hg => hserved g (List.mem_cons_of_mem _ hg)

/-- Witness of C21: scenario B, the Node annotated "not-a-valid-pair",
through three invocations. -/
theorem C21_invalid_node_annotation_is_retried_witness :
    (invoke workerRequest invalidPairCluster (noFaults none 1)).2.finalErr.isSome = true ∧
    [noFaults none 1, noFaults none 2, noFaults none 3].foldl
      (fun store f => (invoke workerRequest store f).1) invalidPairCluster =
      invalidPairCluster :=
  have h := C21_invalid_node_annotation_is_retried workerRequest invalidPairCluster
    { Name := workerNodeName,
      Annotations := some [(machineAnnotationOpenshift, "not-a-valid-pair")] }
    [(machineAnnotationOpenshift, "not-a-valid-pair")] "not-a-valid-pair"
    [noFaults none 1, noFaults none 2, noFaults none 3]
    rfl rfl (by decide) (by decide) (by decide) (by decide) rfl rfl (by decide) (by decide)
    (by
      intro f hf
      simp only [List.mem_cons, List.mem_singleton, List.not_mem_nil, or_false] at hf
      rcases hf with h | h | h <;> subst h <;> exact ⟨rfl, rfl⟩)
  ⟨(h.1 (noFaults none 1) (by simp)).1, h.2⟩

/-! ## The classification does not gate the delete -/

/-- The body after the fetch when the classification of the Machine is
already recorded: the providerID and the conditions play no part. -/
theorem reconcileMachine_recorded (r : Client) (mdr : MachineDeletionRemediation)
    (machine : Machine) (calls : List Call)
    (hp : (getMachineProviderID machine).2 = none)
    (hrec : IsStatusConditionPresentAndEqual mdr.Status.Conditions
      PermanentNodeDeletionExpectedType
      (providerStatus (getMachineProviderID machine).1) = true) :
    reconcileMachine r mdr machine calls =
      if IsZero machine.DeletionTimestamp = false then
        { result := { Requeue := false, RequeueAfter := 30 * Second }, err := none,
          remediation := mdr, calls := calls }
      else if hasControllerOwner machine = false then
        { result := Result.empty, err := none, remediation := mdr, calls := calls }
      else if (mapLookup mdr.Annotations MachineNameNsAnnotation).isSome then
        { result := if (r.Delete machine).isSome then Result.empty
                    else { Requeue := true, RequeueAfter := 0 },
          err := r.Delete machine, remediation := mdr,
          calls := calls ++ [.delete machine] }
      else
        match r.Update (withMachineNameNs mdr machine.Name machine.Namespace) with
        | some err =>
          { result := Result.empty,
            err := some (.wrap
              ("failed to save Machine's name and namespace: " ++ err.Error) err),
            remediation := withMachineNameNs mdr machine.Name machine.Namespace,
            calls := calls ++ [.update (withMachineNameNs mdr machine.Name machine.Namespace)] }
        | none =>
          { result := if (r.Delete machine).isSome then Result.empty
                      else { Requeue := true, RequeueAfter := 0 },
            err := r.Delete machine,
            remediation := withMachineNameNs mdr machine.Name machine.Namespace,
            calls := calls ++ [.update (withMachineNameNs mdr machine.Name machine.Namespace),
              .delete machine] } := by
  rw [reconcileMachine_eq, if_neg (by simp [hp]), if_neg (by simp [hrec])]

theorem reconcileMachine_decision_agree (r₁ r₂ : Client)
    (mdr₁ mdr₂ : MachineDeletionRemediation) (m₁ m₂ : Machine) (calls : List Call)
    (hcalls : calls.any Call.isDelete = false)
    (hann : mdr₂.Annotations = mdr₁.Annotations)
    (hown : m₂.OwnerReferences = m₁.OwnerReferences)
    (hdt : m₂.DeletionTimestamp = m₁.DeletionTimestamp)
    (hp₁ : (getMachineProviderID m₁).2 = none) (hp₂ : (getMachineProviderID m₂).2 = none)
    (hrec₁ : IsStatusConditionPresentAndEqual mdr₁.Status.Conditions
      PermanentNodeDeletionExpectedType (providerStatus (getMachineProviderID m₁).1) = true)
    (hrec₂ : IsStatusConditionPresentAndEqual mdr₂.Status.Conditions
      PermanentNodeDeletionExpectedType (providerStatus (getMachineProviderID m₂).1) = true)
    (hupdate : ∀ a b, r₂.Update a = r₁.Update b)
    (hdelete : ∀ a b, r₂.Delete a = r₁.Delete b) :
    (reconcileMachine r₂ mdr₂ m₂ calls).decision =
      (reconcileMachine r₁ mdr₁ m₁ calls).decision := by
  have howner : hasControllerOwner m₂ = hasControllerOwner m₁ := by
    unfold hasControllerOwner
    rw [hown]
  rw [reconcileMachine_recorded r₁ mdr₁ m₁ calls hp₁ hrec₁,
    reconcileMachine_recorded r₂ mdr₂ m₂ calls hp₂ hrec₂, hann, hdt, howner,
    hdelete m₂ m₁,
    hupdate (withMachineNameNs mdr₂ m₂.Name m₂.Namespace)
      (withMachineNameNs mdr₁ m₁.Name m₁.Namespace)]
  by_cases h1 : IsZero m₁.DeletionTimestamp = false
  · rw [if_pos h1, if_pos h1]
    rfl
  · rw [if_neg h1, if_neg h1]
    by_cases h2 : hasControllerOwner m₁ = false
    · rw [if_pos h2, if_pos h2]
      rfl
    · rw [if_neg h2, if_neg h2]
      by_cases h3 : (mapLookup mdr₁.Annotations MachineNameNsAnnotation).isSome = true
      · rw [if_pos h3, if_pos h3]
        simp [Pass.decision, hcalls, Call.isDelete]
      · rw [if_neg h3, if_neg h3]
        cases r₁.Update (withMachineNameNs mdr₁ m₁.Name m₁.Namespace) with
        | some e => simp [Pass.decision, hcalls, Call.isUpdate, Call.isDelete]
        | none => simp [Pass.decision, hcalls, Call.isUpdate, Call.isDelete]

theorem getMachineByKey_agree (r₁ r₂ : Client) (name ns : String) (flag : Bool)
    (calls : List Call) (related : Machine → Machine → Prop)
    (hmachine : ∀ name ns,
      (∃ e, r₁.GetMachine name ns = .error e ∧ r₂.GetMachine name ns = .error e) ∨
      (∃ m₁ m₂, r₁.GetMachine name ns = .ok m₁ ∧ r₂.GetMachine name ns = .ok m₂ ∧
        related m₁ m₂)) :
    (∃ e b cs, getMachineByKey r₁ name ns flag calls = ((.error e, b), cs) ∧
      getMachineByKey r₂ name ns flag calls = ((.error e, b), cs)) ∨
    (∃ m₁ m₂ b cs, getMachineByKey r₁ name ns flag calls = ((.ok m₁, b), cs) ∧
      getMachineByKey r₂ name ns flag calls = ((.ok m₂, b), cs) ∧ related m₁ m₂) := by
  unfold getMachineByKey
  rcases hmachine name ns with ⟨e, h1, h2⟩ | ⟨m₁, m₂, h1, h2, hrel⟩
  · left
    rw [h1, h2]
    exact ⟨e, flag, _, rfl, rfl⟩
  · right
    rw [h1, h2]
    exact ⟨m₁, m₂, flag, _, rfl, rfl, hrel⟩

theorem getMachine_agree (r₁ r₂ : Client) (mdr₁ mdr₂ : MachineDeletionRemediation)
    (related : Machine → Machine → Prop)
    (hname : mdr₂.Name = mdr₁.Name) (hann : mdr₂.Annotations = mdr₁.Annotations)
    (hnode : r₂.GetNode = r₁.GetNode)
    (hmachine : ∀ name ns,
      (∃ e, r₁.GetMachine name ns = .error e ∧ r₂.GetMachine name ns = .error e) ∨
      (∃ m₁ m₂, r₁.GetMachine name ns = .ok m₁ ∧ r₂.GetMachine name ns = .ok m₂ ∧
        related m₁ m₂)) :
    (∃ e b cs, getMachine r₁ mdr₁ = ((.error e, b), cs) ∧
      getMachine r₂ mdr₂ = ((.error e, b), cs)) ∨
    (∃ m₁ m₂ b cs, getMachine r₁ mdr₁ = ((.ok m₁, b), cs) ∧
      getMachine r₂ mdr₂ = ((.ok m₂, b), cs) ∧ related m₁ m₂) := by
  have hrem : getMachineNameNsFromRemediation mdr₂ = getMachineNameNsFromRemediation mdr₁ := by
    unfold getMachineNameNsFromRemediation
    rw [hann, hname]
  unfold getMachine
  rw [hrem]
  rcases getMachineNameNsFromRemediation mdr₁ with ⟨name, ns, _ | e⟩
  · dsimp only
    by_cases hempty : name = ""
    · rw [if_pos hempty, if_pos hempty]
      unfold getNodeFromMdr
      rw [hnode, hname]
      cases r₁.GetNode mdr₁.Name with
      | error e => exact Or.inl ⟨e, false, _, rfl, rfl⟩
      | ok node =>
        dsimp only
        rcases getMachineNameNsFromNode node with ⟨name2, ns2, _ | e2⟩
        · exact getMachineByKey_agree r₁ r₂ name2 ns2 true _ related hmachine
        · exact Or.inl ⟨e2, false, _, rfl, rfl⟩
    · rw [if_neg hempty, if_neg hempty]
      exact getMachineByKey_agree r₁ r₂ name ns false _ related hmachine
  · exact Or.inl ⟨e, false, _, rfl, rfl⟩

theorem reconcileBody_decision_agree (r₁ r₂ : Client) (mdr₁ mdr₂ : MachineDeletionRemediation)
    (hname : mdr₂.Name = mdr₁.Name) (hann : mdr₂.Annotations = mdr₁.Annotations)
    (hdeletion : mdr₂.DeletionTimestamp = mdr₁.DeletionTimestamp)
    (hconds : ∀ conditionType status, conditionType ≠ PermanentNodeDeletionExpectedType →
      IsStatusConditionPresentAndEqual mdr₂.Status.Conditions conditionType status =
        IsStatusConditionPresentAndEqual mdr₁.Status.Conditions conditionType status)
    (hnode : r₂.GetNode = r₁.GetNode)
    (hmachine : ∀ name ns,
      (∃ e, r₁.GetMachine name ns = .error e ∧ r₂.GetMachine name ns = .error e) ∨
      (∃ m₁ m₂, r₁.GetMachine name ns = .ok m₁ ∧ r₂.GetMachine name ns = .ok m₂ ∧
        (m₂.OwnerReferences = m₁.OwnerReferences ∧
          m₂.DeletionTimestamp = m₁.DeletionTimestamp ∧
          (getMachineProviderID m₁).2 = none ∧ (getMachineProviderID m₂).2 = none ∧
          IsStatusConditionPresentAndEqual mdr₁.Status.Conditions
            PermanentNodeDeletionExpectedType
            (providerStatus (getMachineProviderID m₁).1) = true ∧
          IsStatusConditionPresentAndEqual mdr₂.Status.Conditions
            PermanentNodeDeletionExpectedType
            (providerStatus (getMachineProviderID m₂).1) = true)))
    (hupdate : ∀ a b, r₂.Update a = r₁.Update b)
    (hdelete : ∀ a b, r₂.Delete a = r₁.Delete b) :
    (reconcileBody r₂ mdr₂).decision = (reconcileBody r₁ mdr₁).decision := by
  have hp : ProcessingType ≠ PermanentNodeDeletionExpectedType := by decide
  have hs : SucceededType ≠ PermanentNodeDeletionExpectedType := by decide
  have hstop := isTimedOutByNHC_congr mdr₁ mdr₂ hann hdeletion
  have hstart : (updateConditions r₂ remediationStarted mdr₂).1 =
      (updateConditions r₁ remediationStarted mdr₁).1 := by
    rw [updateConditions_started, updateConditions_started, hconds _ _ hp, hconds _ _ hp,
      hconds _ _ hs]
    split_ifs <;> rfl
  by_cases ht : isTimedOutByNHC (some mdr₁) = true
  · rw [reconcileBody_timedOut r₁ mdr₁ ht, reconcileBody_timedOut r₂ mdr₂ (hstop ▸ ht)]
    rfl
  · simp only [Bool.not_eq_true] at ht
    by_cases hreq : (updateConditions r₁ remediationStarted mdr₁).1 = true
    · rw [reconcileBody_started r₁ mdr₁ ht hreq,
        reconcileBody_started r₂ mdr₂ (hstop ▸ ht) (hstart ▸ hreq)]
      rfl
    · simp only [Bool.not_eq_true] at hreq
      rw [reconcileBody_fetch r₁ mdr₁ ht hreq,
        reconcileBody_fetch r₂ mdr₂ (hstop ▸ ht) (hstart ▸ hreq)]
      have hcalls := (getMachine_calls r₁ mdr₁).1
      rcases getMachine_agree r₁ r₂ mdr₁ mdr₂ _ hname hann hnode hmachine with
        ⟨e, b, cs, h1, h2⟩ | ⟨m₁, m₂, b, cs, h1, h2, hown, hdt, hp₁, hp₂, hrec₁, hrec₂⟩
      · rw [h1, h2]
        dsimp only
        by_cases hnf : IsNotFound e = true
        · rw [if_pos hnf, if_pos hnf]
          rfl
        · rw [if_neg hnf, if_neg hnf]
          rfl
      · rw [h1] at hcalls
        rw [h1, h2]
        dsimp only
        exact reconcileMachine_decision_agree r₁ r₂ mdr₁ mdr₂ m₁ m₂ cs hcalls hann hown hdt
          hp₁ hp₂ hrec₁ hrec₂ hupdate hdelete

theorem Reconcile_final (r : Client) (req : Request) (mdr : MachineDeletionRemediation)
    (hload : r.GetRemediation req.Name req.Namespace = .ok mdr) :
    (Reconcile r req).finalResult =
      (match r.StatusUpdate (reconcileBody r mdr).remediation with
        | none => (reconcileBody r mdr).result
        | some _ => { Requeue := (reconcileBody r mdr).result.Requeue, RequeueAfter := Second }) ∧
    (Reconcile r req).finalErr =
      (match r.StatusUpdate (reconcileBody r mdr).remediation with
        | none => (reconcileBody r mdr).err
        | some updateErr =>
          if !IsConflict updateErr then NewAggregate [some updateErr, (reconcileBody r mdr).err]
          else (reconcileBody r mdr).err) := by
  unfold Reconcile getRemediation updateStatus
  rw [hload]
  dsimp only
  cases r.StatusUpdate (reconcileBody r mdr).remediation <;> exact ⟨rfl, rfl⟩

/-- C22: take two states that differ only in the providerID of the Machine
the client serves and in the PermanentNodeDeletionExpected status the
request records, each state recording the classification of its Machine.
Reconcile takes the same decision on the delete in both and returns the
same result and the same error. -/
theorem C22_classification_never_gates_the_delete (r₁ r₂ : Client) (req : Request)
    (mdr₁ mdr₂ : MachineDeletionRemediation)
    (hload₁ : r₁.GetRemediation req.Name req.Namespace = .ok mdr₁)
    (hload₂ : r₂.GetRemediation req.Name req.Namespace = .ok mdr₂)
    (hname : mdr₂.Name = mdr₁.Name) (hann : mdr₂.Annotations = mdr₁.Annotations)
    (hdeletion : mdr₂.DeletionTimestamp = mdr₁.DeletionTimestamp)
    (hconds : ∀ conditionType status, conditionType ≠ PermanentNodeDeletionExpectedType →
      IsStatusConditionPresentAndEqual mdr₂.Status.Conditions conditionType status =
        IsStatusConditionPresentAndEqual mdr₁.Status.Conditions conditionType status)
    (hnode : r₂.GetNode = r₁.GetNode)
    (hmachine : ∀ name ns,
      (∃ e, r₁.GetMachine name ns = .error e ∧ r₂.GetMachine name ns = .error e) ∨
      (∃ m₁ m₂, r₁.GetMachine name ns = .ok m₁ ∧ r₂.GetMachine name ns = .ok m₂ ∧
        (m₂.OwnerReferences = m₁.OwnerReferences ∧
          m₂.DeletionTimestamp = m₁.DeletionTimestamp ∧
          (getMachineProviderID m₁).2 = none ∧ (getMachineProviderID m₂).2 = none ∧
          IsStatusConditionPresentAndEqual mdr₁.Status.Conditions
            PermanentNodeDeletionExpectedType
            (providerStatus (getMachineProviderID m₁).1) = true ∧
          IsStatusConditionPresentAndEqual mdr₂.Status.Conditions
            PermanentNodeDeletionExpectedType
            (providerStatus (getMachineProviderID m₂).1) = true)))
    (hupdate : ∀ a b, r₂.Update a = r₁.Update b)
    (hdelete : ∀ a b, r₂.Delete a = r₁.Delete b)
    (hstatus : ∀ a b, r₂.StatusUpdate a = r₁.StatusUpdate b) :
    (Reconcile r₂ req).calls.any Call.isDelete = (Reconcile r₁ req).calls.any Call.isDelete ∧
    (Reconcile r₂ req).finalResult = (Reconcile r₁ req).finalResult ∧
    (Reconcile r₂ req).finalErr = (Reconcile r₁ req).finalErr := by
  have hd := reconcileBody_decision_agree r₁ r₂ mdr₁ mdr₂ hname hann hdeletion hconds hnode
    hmachine hupdate hdelete
  unfold Pass.decision at hd
  simp only [Prod.mk.injEq] at hd
  obtain ⟨hres, herr, hdel⟩ := hd
  obtain ⟨hf₁, he₁⟩ := Reconcile_final r₁ req mdr₁ hload₁
  obtain ⟨hf₂, he₂⟩ := Reconcile_final r₂ req mdr₂ hload₂
  refine ⟨?_, ?_, ?_⟩
  · rw [Reconcile_any r₁ req mdr₁ hload₁ Call.isDelete (fun _ _ => rfl) (fun _ => rfl),
      Reconcile_any r₂ req mdr₂ hload₂ Call.isDelete (fun _ _ => rfl) (fun _ => rfl)]
    exact hdel
  · rw [hf₁, hf₂, hres,
      hstatus (reconcileBody r₂ mdr₂).remediation (reconcileBody r₁ mdr₁).remediation]
  · rw [he₁, he₂, herr,
      hstatus (reconcileBody r₂ mdr₂).remediation (reconcileBody r₁ mdr₁).remediation]

/-- Witness of C22: the worker Machine without providerID, recorded as
Unknown, and with the bare-metal providerID, recorded as False; the delete
is issued in both states. -/
theorem C22_classification_never_gates_the_delete_witness :
    (Reconcile (workerClient (workerRemediation none startedBareMetalConditions)
        (.ok workerNode) (.ok (workerMachine (some true) none bareMetalObject)))
      workerRequest).calls.any Call.isDelete =
      (Reconcile (workerClient (workerRemediation none startedConditions)
        (.ok workerNode) (.ok (workerMachine (some true) none [])))
      workerRequest).calls.any Call.isDelete ∧
    (Reconcile (workerClient (workerRemediation none startedConditions)
        (.ok workerNode) (.ok (workerMachine (some true) none [])))
      workerRequest).calls.any Call.isDelete = true :=
  have h := C22_classification_never_gates_the_delete
    (workerClient (workerRemediation none startedConditions)
      (.ok workerNode) (.ok (workerMachine (some true) none [])))
    (workerClient (workerRemediation none startedBareMetalConditions)
      (.ok workerNode) (.ok (workerMachine (some true) none bareMetalObject)))
    workerRequest (workerRemediation none startedConditions)
    (workerRemediation none startedBareMetalConditions)
    rfl rfl rfl rfl rfl
    (by
      intro conditionType status hne
      simp [IsStatusConditionPresentAndEqual, startedConditions, startedBareMetalConditions,
        conditionOf, workerRemediation, Ne.symm hne])
    rfl
    (by
      intro name ns
      by_cases hk : name = workerNodeMachineName ∧ ns = defaultNamespace
      · right
        refine ⟨workerMachine (some true) none [], workerMachine (some true) none bareMetalObject,
          ?_, ?_, rfl, rfl, rfl, rfl, by decide, by decide⟩
        · simp [workerClient, hk]
        · simp [workerClient, hk]
      · left
        refine ⟨notFoundError, ?_, ?_⟩
        · simp only [workerClient]
          rw [if_neg hk]
        · simp only [workerClient]
          rw [if_neg hk])
    (fun _ _ => rfl) (fun _ _ => rfl) (fun _ _ => rfl)
  ⟨h.1, by decide⟩


/-! ## The unknown reason -/

theorem updateConditions_unknown (r : Client) (reason : processingChangeReason)
    (mdr : MachineDeletionRemediation)
    (hk : ¬ (reason = remediationStarted ∨ reason = remediationTimedOutByNhc ∨
      reason = remediationFinished ∨ reason = remediationFailed)) :
    updateConditions r reason mdr =
      (false, some (.text ("unknown processingChangeReason:" ++ reason)), mdr) := by
  simp only [not_or] at hk
  obtain ⟨h1, h2, h3, h4⟩ := hk
  unfold updateConditions
  simp only [h1, h2, h3, h4, if_false, or_self]

theorem reconcileMachine_err (r : Client) (mdr : MachineDeletionRemediation)
    (machine : Machine) (calls : List Call) (e : Err)
    (herr : (reconcileMachine r mdr machine calls).err = some e) :
    (∃ updateErr, r.Update (withMachineNameNs mdr machine.Name machine.Namespace) =
        some updateErr ∧
      e = .wrap ("failed to save Machine's name and namespace: " ++ updateErr.Error)
        updateErr) ∨
    r.Delete machine = some e := by
  rw [reconcileMachine_eq] at herr
  by_cases h1 : (getMachineProviderID machine).2.isSome
  · rw [if_pos h1] at herr
    cases herr
  rw [if_neg h1] at herr
  by_cases h2 : IsStatusConditionPresentAndEqual mdr.Status.Conditions
      PermanentNodeDeletionExpectedType (providerStatus (getMachineProviderID machine).1) = false
  · rw [if_pos h2] at herr
    cases herr
  rw [if_neg h2] at herr
  by_cases h3 : IsZero machine.DeletionTimestamp = false
  · rw [if_pos h3] at herr
    cases herr
  rw [if_neg h3] at herr
  by_cases h4 : hasControllerOwner machine = false
  · rw [if_pos h4] at herr
    cases herr
  rw [if_neg h4] at herr
  by_cases h5 : (mapLookup mdr.Annotations MachineNameNsAnnotation).isSome
  · rw [if_pos h5] at herr
    exact Or.inr herr
  rw [if_neg h5] at herr
  cases hu : r.Update (withMachineNameNs mdr machine.Name machine.Namespace) with
  | some updateErr =>
    rw [hu] at herr
    simp only [Option.some.injEq] at herr
    exact Or.inl ⟨updateErr, rfl, herr.symm⟩
  | none =>
    rw [hu] at herr
    exact Or.inr herr

/-- C23: updateConditions returns an error exactly when the reason is none
of the four known reasons, and then it returns false with the unknown-reason
error and leaves the remediation as it was. The body of Reconcile calls it
with the known reasons only: each error the body returns is the error of the
Machine lookup, of the annotation write or of the delete. -/
theorem C23_unknown_reason_is_the_only_error (r : Client) (reason : processingChangeReason)
    (mdr : MachineDeletionRemediation) :
    ((updateConditions r reason mdr).2.1 ≠ none ↔
      ¬ (reason = remediationStarted ∨ reason = remediationTimedOutByNhc ∨
        reason = remediationFinished ∨ reason = remediationFailed)) ∧
    ((updateConditions r reason mdr).2.1 ≠ none →
      updateConditions r reason mdr =
        (false, some (.text ("unknown processingChangeReason:" ++ reason)), mdr)) ∧
    (updateConditions r remediationTimedOutByNhc mdr).2.1 = none ∧
    (updateConditions r remediationStarted mdr).2.1 = none ∧
    (updateConditions r remediationFailed mdr).2.1 = none ∧
    (updateConditions r remediationFinished mdr).2.1 = none ∧
    (∀ e, (reconcileBody r mdr).err = some e →
      (∃ mustExist calls, getMachine r mdr = ((.error e, mustExist), calls) ∧
        IsNotFound e = false) ∨
      (∃ machine mustExist calls updateErr,
        getMachine r mdr = ((.ok machine, mustExist), calls) ∧
        r.Update (withMachineNameNs mdr machine.Name machine.Namespace) = some updateErr ∧
        e = .wrap ("failed to save Machine's name and namespace: " ++ updateErr.Error)
          updateErr) ∨
      (∃ machine mustExist calls, getMachine r mdr = ((.ok machine, mustExist), calls) ∧
        r.Delete machine = some e)) := by
  have hiff : (updateConditions r reason mdr).2.1 ≠ none ↔
      ¬ (reason = remediationStarted ∨ reason = remediationTimedOutByNhc ∨
        reason = remediationFinished ∨ reason = remediationFailed) := by
    constructor
    · intro herr hk
      exact herr (updateConditions_known_err r reason mdr hk)
    · intro hk
      rw [updateConditions_unknown r reason mdr hk]
      simp
  refine ⟨hiff, fun herr => updateConditions_unknown r reason mdr (hiff.mp herr),
    updateConditions_known_err r _ mdr (Or.inr (Or.inl rfl)),
    updateConditions_known_err r _ mdr (Or.inl rfl),
    updateConditions_known_err r _ mdr (Or.inr (Or.inr (Or.inr rfl))),
    updateConditions_known_err r _ mdr (Or.inr (Or.inr (Or.inl rfl))), ?_⟩
  intro e herr
  by_cases ht : isTimedOutByNHC (some mdr) = true
  · rw [reconcileBody_timedOut r mdr ht] at herr
    cases herr
  have ht : isTimedOutByNHC (some mdr) = false := by simpa using ht
  by_cases hs : (updateConditions r remediationStarted mdr).1 = true
  · rw [reconcileBody_started r mdr ht hs] at herr
    cases herr
  have hs : (updateConditions r remediationStarted mdr).1 = false := by simpa using hs
  rw [reconcileBody_fetch r mdr ht hs] at herr
  rcases hg : getMachine r mdr with ⟨⟨res, mustExist⟩, calls⟩
  rw [hg] at herr
  cases res with
  | error err =>
    dsimp only at herr
    by_cases hnf : IsNotFound err = true
    · rw [if_pos hnf] at herr
      cases herr
    · rw [if_neg hnf] at herr
      simp only [Option.some.injEq] at herr
      subst herr
      exact Or.inl ⟨mustExist, calls, rfl, by simpa using hnf⟩
  | ok machine =>
    dsimp only at herr
    rcases reconcileMachine_err r mdr machine calls e herr with ⟨updateErr, hu, he⟩ | hd
    · exact Or.inr (Or.inl ⟨machine, mustExist, calls, updateErr, rfl, hu, he⟩)
    · exact Or.inr (Or.inr ⟨machine, mustExist, calls, rfl, hd⟩)


/-! ## Recording the classification, and the deletion marker -/

theorem writePermanentNodeDeletionExpected_found (r : Client) (status : ConditionStatus)
    (mdr : MachineDeletionRemediation) :
    ∃ found, FindStatusCondition
        (writePermanentNodeDeletionExpected r status mdr).Status.Conditions
        PermanentNodeDeletionExpectedType = some found ∧
      found.Status = status ∧
      found.Reason =
        (match status with
          | ConditionTrue => MachineDeletionOnCloudProviderReason
          | ConditionFalse => MachineDeletionOnBareMetalProviderReason
          | ConditionUnknown => MachineDeletionOnUndefinedProviderReason) ∧
      found.Message =
        (match status with
          | ConditionTrue => machineDeletedOnCloudProviderMessage
          | ConditionFalse => machineDeletedOnBareMetalProviderMessage
          | ConditionUnknown => machineDeletedOnUnknownProviderMessage) := by
  unfold writePermanentNodeDeletionExpected
  exact FindStatusCondition_set_same mdr.Status.Conditions _ r.Now

theorem any_of_no_write (calls : List Call) (h : ∀ call ∈ calls, call.isWrite = false) :
    calls.any Call.isDelete = false ∧ calls.any Call.isUpdate = false := by
  constructor
  · rw [List.any_eq_false]
    intro call hc
    have := h call hc
    cases call <;> simp_all [Call.isWrite, Call.isDelete]
  · rw [List.any_eq_false]
    intro call hc
    have := h call hc
    cases call <;> simp_all [Call.isWrite, Call.isUpdate]

/-- C24: an invocation that fetches the Machine while the request does not
record the classification of its providerID writes the
PermanentNodeDeletionExpected condition with that status and the reason and
message of that status, and stops: the body returns RequeueAfter of one
second and no error, no delete and no update is issued, and the annotations
stay as loaded, whatever the deletion timestamp and the owners of the
Machine are. -/
theorem C24_classification_is_recorded_first (r : Client) (req : Request)
    (mdr : MachineDeletionRemediation) (machine : Machine) (mustExist : Bool)
    (calls : List Call)
    (hload : r.GetRemediation req.Name req.Namespace = .ok mdr)
    (hstop : isTimedOutByNHC (some mdr) = false)
    (hstarted : (updateConditions r remediationStarted mdr).1 = false)
    (hfetch : getMachine r mdr = ((.ok machine, mustExist), calls))
    (hp : (getMachineProviderID machine).2 = none)
    (hdiff : IsStatusConditionPresentAndEqual mdr.Status.Conditions
      PermanentNodeDeletionExpectedType
      (providerStatus (getMachineProviderID machine).1) = false) :
    (reconcileBody r mdr).result = { Requeue := false, RequeueAfter := Second } ∧
    (reconcileBody r mdr).err = none ∧
    (Reconcile r req).remediation =
      some (writePermanentNodeDeletionExpected r
        (providerStatus (getMachineProviderID machine).1) mdr) ∧
    (∃ found, FindStatusCondition
        (writePermanentNodeDeletionExpected r
          (providerStatus (getMachineProviderID machine).1) mdr).Status.Conditions
        PermanentNodeDeletionExpectedType = some found ∧
      found.Status = providerStatus (getMachineProviderID machine).1 ∧
      found.Reason =
        (match providerStatus (getMachineProviderID machine).1 with
          | ConditionTrue => MachineDeletionOnCloudProviderReason
          | ConditionFalse => MachineDeletionOnBareMetalProviderReason
          | ConditionUnknown => MachineDeletionOnUndefinedProviderReason) ∧
      found.Message =
        (match providerStatus (getMachineProviderID machine).1 with
          | ConditionTrue => machineDeletedOnCloudProviderMessage
          | ConditionFalse => machineDeletedOnBareMetalProviderMessage
          | ConditionUnknown => machineDeletedOnUnknownProviderMessage)) ∧
    (writePermanentNodeDeletionExpected r
      (providerStatus (getMachineProviderID machine).1) mdr).Annotations = mdr.Annotations ∧
    (Reconcile r req).calls =
      Call.getRemediation req.Name req.Namespace ::
        (calls ++ [Call.statusUpdate (writePermanentNodeDeletionExpected r
          (providerStatus (getMachineProviderID machine).1) mdr)]) ∧
    (Reconcile r req).calls.any Call.isDelete = false ∧
    (Reconcile r req).calls.any Call.isUpdate = false := by
  have hbody : reconcileBody r mdr =
      { result := { Requeue := false, RequeueAfter := Second }, err := none,
        remediation := writePermanentNodeDeletionExpected r
          (providerStatus (getMachineProviderID machine).1) mdr,
        calls := calls } := by
    rw [reconcileBody_fetch r mdr hstop hstarted, hfetch]
    dsimp only
    rw [reconcileMachine_eq, if_neg (by rw [hp]; simp), if_pos hdiff]
  have hcalls : ∀ call ∈ calls, call.isWrite = false := by
    have := getMachine_no_write r mdr
    rw [hfetch] at this
    exact this
  obtain ⟨hnd, hnu⟩ := any_of_no_write calls hcalls
  refine ⟨by rw [hbody], by rw [hbody], ?_, writePermanentNodeDeletionExpected_found r _ mdr,
    rfl, ?_, ?_, ?_⟩
  · rw [Reconcile_remediation r req mdr hload, hbody]
  · rw [Reconcile_calls r req mdr hload, hbody]
  · rw [Reconcile_any r req mdr hload Call.isDelete (fun _ _ => rfl) (fun _ => rfl), hbody]
    exact hnd
  · rw [Reconcile_any r req mdr hload Call.isUpdate (fun _ _ => rfl) (fun _ => rfl), hbody]
    exact hnu

/-- Witness of C24: the started request without a recorded classification,
and the owned worker Machine with the bare-metal providerID. -/
theorem C24_classification_is_recorded_first_witness :
    (reconcileBody (workerClient
        (workerRemediation none
          [conditionOf ProcessingType ConditionTrue, conditionOf SucceededType ConditionUnknown])
        (.ok workerNode) (.ok (workerMachine (some true) none bareMetalObject)))
      (workerRemediation none
        [conditionOf ProcessingType ConditionTrue,
          conditionOf SucceededType ConditionUnknown])).result =
      { Requeue := false, RequeueAfter := Second } ∧
    (Reconcile (workerClient
        (workerRemediation none
          [conditionOf ProcessingType ConditionTrue, conditionOf SucceededType ConditionUnknown])
        (.ok workerNode) (.ok (workerMachine (some true) none bareMetalObject)))
      workerRequest).calls.any Call.isDelete = false :=
  have h := C24_classification_is_recorded_first
    (workerClient
      (workerRemediation none
        [conditionOf ProcessingType ConditionTrue, conditionOf SucceededType ConditionUnknown])
      (.ok workerNode) (.ok (workerMachine (some true) none bareMetalObject)))
    workerRequest
    (workerRemediation none
      [conditionOf ProcessingType ConditionTrue, conditionOf SucceededType ConditionUnknown])
    (workerMachine (some true) none bareMetalObject) true
    [.getNode workerNodeName, .getMachine workerNodeMachineName defaultNamespace]
    rfl rfl (by decide) rfl rfl (by decide)
  ⟨h.1, h.2.2.2.2.2.2.1⟩

/-- C25: an invocation that fetches a Machine with a non-zero deletion
timestamp, the classification being recorded already, issues no delete and
no update, leaves the request as loaded, and its body returns RequeueAfter
of thirty seconds and no error; the owners of the Machine are not looked
at. -/
theorem C25_deletion_in_flight_is_polled (r : Client) (req : Request)
    (mdr : MachineDeletionRemediation) (machine : Machine) (mustExist : Bool)
    (calls : List Call)
    (hload : r.GetRemediation req.Name req.Namespace = .ok mdr)
    (hstop : isTimedOutByNHC (some mdr) = false)
    (hstarted : (updateConditions r remediationStarted mdr).1 = false)
    (hfetch : getMachine r mdr = ((.ok machine, mustExist), calls))
    (hp : (getMachineProviderID machine).2 = none)
    (hrecorded : IsStatusConditionPresentAndEqual mdr.Status.Conditions
      PermanentNodeDeletionExpectedType
      (providerStatus (getMachineProviderID machine).1) = true)
    (hmarker : IsZero machine.DeletionTimestamp = false) :
    (reconcileBody r mdr).result = { Requeue := false, RequeueAfter := 30 * Second } ∧
    (reconcileBody r mdr).err = none ∧
    (Reconcile r req).remediation = some mdr ∧
    (Reconcile r req).calls =
      Call.getRemediation req.Name req.Namespace :: (calls ++ [Call.statusUpdate mdr]) ∧
    (Reconcile r req).calls.any Call.isDelete = false ∧
    (Reconcile r req).calls.any Call.isUpdate = false := by
  have hbody : reconcileBody r mdr =
      { result := { Requeue := false, RequeueAfter := 30 * Second }, err := none,
        remediation := mdr, calls := calls } := by
    rw [reconcileBody_fetch r mdr hstop hstarted, hfetch]
    dsimp only
    rw [reconcileMachine_eq, if_neg (by rw [hp]; simp), if_neg (by rw [hrecorded]; simp),
      if_pos hmarker]
  have hcalls : ∀ call ∈ calls, call.isWrite = false := by
    have := getMachine_no_write r mdr
    rw [hfetch] at this
    exact this
  obtain ⟨hnd, hnu⟩ := any_of_no_write calls hcalls
  refine ⟨by rw [hbody], by rw [hbody], ?_, ?_, ?_, ?_⟩
  · rw [Reconcile_remediation r req mdr hload, hbody]
  · rw [Reconcile_calls r req mdr hload, hbody]
  · rw [Reconcile_any r req mdr hload Call.isDelete (fun _ _ => rfl) (fun _ => rfl), hbody]
    exact hnd
  · rw [Reconcile_any r req mdr hload Call.isUpdate (fun _ _ => rfl) (fun _ => rfl), hbody]
    exact hnu

/-- Witness of C25: the worker Machine carries a deletion timestamp and has
no controller owner; the body asks for a requeue after thirty seconds. -/
theorem C25_deletion_in_flight_is_polled_witness :
    hasControllerOwner (workerMachine none (some 5) []) = false ∧
    (reconcileBody (workerClient (workerRemediation none startedConditions)
        (.ok workerNode) (.ok (workerMachine none (some 5) [])))
      (workerRemediation none startedConditions)).result =
      { Requeue := false, RequeueAfter := 30 * Second } ∧
    (Reconcile (workerClient (workerRemediation none startedConditions)
        (.ok workerNode) (.ok (workerMachine none (some 5) [])))
      workerRequest).remediation = some (workerRemediation none startedConditions) :=
  have h := C25_deletion_in_flight_is_polled
    (workerClient (workerRemediation none startedConditions)
      (.ok workerNode) (.ok (workerMachine none (some 5) [])))
    workerRequest (workerRemediation none startedConditions)
    (workerMachine none (some 5) []) true
    [.getNode workerNodeName, .getMachine workerNodeMachineName defaultNamespace]
    rfl rfl (by decide) rfl rfl (by decide) (by decide)
  ⟨by decide, h.1, h.2.2.1⟩


/-! ## The binding annotation at the delete -/

theorem reconcileMachine_delete_binding (r : Client) (mdr : MachineDeletionRemediation)
    (machine : Machine) (calls : List Call)
    (hcalls : calls.any Call.isDelete = false)
    (hdel : (reconcileMachine r mdr machine calls).calls.any Call.isDelete = true) :
    IsZero machine.DeletionTimestamp = true ∧ hasControllerOwner machine = true ∧
    Call.delete machine ∈ (reconcileMachine r mdr machine calls).calls ∧
    (((mapLookup mdr.Annotations MachineNameNsAnnotation).isSome = true ∧
        (reconcileMachine r mdr machine calls).remediation = mdr) ∨
      ((mapLookup mdr.Annotations MachineNameNsAnnotation).isSome = false ∧
        r.Update (withMachineNameNs mdr machine.Name machine.Namespace) = none ∧
        (reconcileMachine r mdr machine calls).remediation =
          withMachineNameNs mdr machine.Name machine.Namespace)) := by
  rw [reconcileMachine_eq] at hdel ⊢
  by_cases h1 : (getMachineProviderID machine).2.isSome
  · rw [if_pos h1] at hdel
    rw [hcalls] at hdel
    cases hdel
  rw [if_neg h1] at hdel ⊢
  by_cases h2 : IsStatusConditionPresentAndEqual mdr.Status.Conditions
      PermanentNodeDeletionExpectedType (providerStatus (getMachineProviderID machine).1) = false
  · rw [if_pos h2] at hdel
    rw [hcalls] at hdel
    cases hdel
  rw [if_neg h2] at hdel ⊢
  by_cases h3 : IsZero machine.DeletionTimestamp = false
  · rw [if_pos h3] at hdel
    rw [hcalls] at hdel
    cases hdel
  rw [if_neg h3] at hdel ⊢
  by_cases h4 : hasControllerOwner machine = false
  · rw [if_pos h4] at hdel
    rw [hcalls] at hdel
    cases hdel
  rw [if_neg h4] at hdel ⊢
  refine ⟨by simpa using h3, by simpa using h4, ?_⟩
  by_cases h5 : (mapLookup mdr.Annotations MachineNameNsAnnotation).isSome
  · rw [if_pos h5]
    exact ⟨by simp, Or.inl ⟨h5, rfl⟩⟩
  rw [if_neg h5] at hdel ⊢
  cases hu : r.Update (withMachineNameNs mdr machine.Name machine.Namespace) with
  | some updateErr =>
    rw [hu] at hdel
    simp only [List.any_append, hcalls, List.any_cons, List.any_nil, Call.isUpdate,
      Call.isDelete, Bool.or_false, Bool.false_or] at hdel
    cases hdel
  | none =>
    exact ⟨by simp, Or.inr ⟨by simpa using h5, rfl, rfl⟩⟩

theorem reconcile_delete_binding (r : Client) (req : Request)
    (mdr : MachineDeletionRemediation)
    (hload : r.GetRemediation req.Name req.Namespace = .ok mdr)
    (hkeyed : ∀ name ns machine, r.GetMachine name ns = .ok machine →
      machine.Name = name ∧ machine.Namespace = ns)
    (hnamed : bindingNamesMachine mdr = true)
    (hdel : (Reconcile r req).calls.any Call.isDelete = true) :
    ∃ machine final, (Reconcile r req).remediation = some final ∧
      Call.delete machine ∈ (Reconcile r req).calls ∧
      mapLookup final.Annotations MachineNameNsAnnotation =
        some (machine.Namespace ++ "/" ++ machine.Name) ∧
      IsZero machine.DeletionTimestamp = true ∧ hasControllerOwner machine = true := by
  rw [Reconcile_any r req mdr hload Call.isDelete (fun _ _ => rfl) (fun _ => rfl)] at hdel
  rw [Reconcile_remediation r req mdr hload, Reconcile_calls r req mdr hload]
  by_cases ht : isTimedOutByNHC (some mdr) = true
  · rw [reconcileBody_timedOut r mdr ht] at hdel
    cases hdel
  have ht : isTimedOutByNHC (some mdr) = false := by simpa using ht
  by_cases hs : (updateConditions r remediationStarted mdr).1 = true
  · rw [reconcileBody_started r mdr ht hs] at hdel
    cases hdel
  have hs : (updateConditions r remediationStarted mdr).1 = false := by simpa using hs
  have hgc := (getMachine_calls r mdr).1
  rw [reconcileBody_fetch r mdr ht hs] at hdel ⊢
  rcases hg : getMachine r mdr with ⟨⟨res, mustExist⟩, calls⟩
  rw [hg] at hgc hdel
  change calls.any Call.isDelete = false at hgc
  cases res with
  | error err =>
    dsimp only at hdel
    by_cases hnf : IsNotFound err = true
    · rw [if_pos hnf] at hdel
      rw [hgc] at hdel
      cases hdel
    · rw [if_neg hnf] at hdel
      rw [hgc] at hdel
      cases hdel
  | ok machine =>
    dsimp only at hdel ⊢
    obtain ⟨hzero, hown, hmem, hbind⟩ :=
      reconcileMachine_delete_binding r mdr machine calls hgc hdel
    refine ⟨machine, _, rfl, ?_, ?_, hzero, hown⟩
    · simp only [List.mem_cons, List.mem_append]
      exact Or.inr (Or.inl hmem)
    · rcases hbind with ⟨hsome, hrem⟩ | ⟨-, -, hrem⟩
      · rw [hrem]
        obtain ⟨value, hvalue⟩ := Option.isSome_iff_exists.mp hsome
        rcases hk : getMachineNameNsFromRemediation mdr with ⟨name, ns, _ | err⟩
        · rcases getMachineNameNsFromRemediation_ok mdr name ns hk with ⟨hnone, -⟩ | hkey
          · rw [hnone] at hvalue
            cases hvalue
          · have hname : name ≠ "" := by
              unfold bindingNamesMachine at hnamed
              rw [hkey] at hnamed
              simpa using hnamed
            have hby := (getMachine_of_named_binding r mdr name ns hkey hname).1
            rw [hg] at hby
            unfold getMachineByKey at hby
            cases hm : r.GetMachine name ns with
            | error e =>
              rw [hm] at hby
              simp at hby
            | ok found =>
              rw [hm] at hby
              simp only [Prod.mk.injEq, Except.ok.injEq] at hby
              obtain ⟨⟨hfound, -⟩, -⟩ := hby
              subst hfound
              obtain ⟨hn, hns⟩ := hkeyed name ns machine hm
              rw [hvalue, hn, hns]
              unfold bindingKey at hkey
              rw [hvalue] at hkey
              dsimp only at hkey
              cases hsplit : Split value '/' with
              | nil =>
                rw [hsplit] at hkey
                cases hkey
              | cons a rest =>
                rw [hsplit] at hkey
                match rest, hkey, hsplit with
                | [b], hkey, hsplit =>
                  simp only [Option.some.injEq, Prod.mk.injEq] at hkey
                  obtain ⟨hb, ha⟩ := hkey
                  subst hb
                  subst ha
                  rw [Split_pair_eq value a b hsplit]
                | [], hkey, _ => cases hkey
                | _ :: _ :: _, hkey, _ => cases hkey
        · exfalso
          unfold getMachine at hg
          rw [hk] at hg
          simp at hg
      · rw [hrem]
        unfold withMachineNameNs mapLookup
        dsimp only
        rw [lookup_mapSet]

theorem reconcileMachine_failed_write (r : Client) (mdr : MachineDeletionRemediation)
    (machine : Machine) (calls : List Call)
    (hnd : calls.any Call.isDelete = false) (hnu : calls.any Call.isUpdate = false)
    (hfail : ∀ obj, (r.Update obj).isSome = true)
    (hupd : (reconcileMachine r mdr machine calls).calls.any Call.isUpdate = true) :
    (reconcileMachine r mdr machine calls).err.isSome = true ∧
    (reconcileMachine r mdr machine calls).calls.any Call.isDelete = false := by
  rw [reconcileMachine_eq] at hupd ⊢
  by_cases h1 : (getMachineProviderID machine).2.isSome
  · rw [if_pos h1] at hupd
    rw [hnu] at hupd
    cases hupd
  rw [if_neg h1] at hupd ⊢
  by_cases h2 : IsStatusConditionPresentAndEqual mdr.Status.Conditions
      PermanentNodeDeletionExpectedType (providerStatus (getMachineProviderID machine).1) = false
  · rw [if_pos h2] at hupd
    rw [hnu] at hupd
    cases hupd
  rw [if_neg h2] at hupd ⊢
  by_cases h3 : IsZero machine.DeletionTimestamp = false
  · rw [if_pos h3] at hupd
    rw [hnu] at hupd
    cases hupd
  rw [if_neg h3] at hupd ⊢
  by_cases h4 : hasControllerOwner machine = false
  · rw [if_pos h4] at hupd
    rw [hnu] at hupd
    cases hupd
  rw [if_neg h4] at hupd ⊢
  by_cases h5 : (mapLookup mdr.Annotations MachineNameNsAnnotation).isSome
  · rw [if_pos h5] at hupd
    simp only [List.any_append, hnu, List.any_cons, List.any_nil, Call.isUpdate,
      Bool.or_false] at hupd
    cases hupd
  rw [if_neg h5]
  have hf := hfail (withMachineNameNs mdr machine.Name machine.Namespace)
  cases hu : r.Update (withMachineNameNs mdr machine.Name machine.Namespace) with
  | some updateErr =>
    refine ⟨rfl, ?_⟩
    simp only [List.any_append, hnd, List.any_cons, List.any_nil, Call.isDelete,
      Bool.or_false]
  | none =>
    rw [hu] at hf
    cases hf

theorem reconcile_failed_annotation_write (r : Client) (req : Request)
    (mdr : MachineDeletionRemediation)
    (hload : r.GetRemediation req.Name req.Namespace = .ok mdr)
    (hfail : ∀ obj, (r.Update obj).isSome = true)
    (hupd : (Reconcile r req).calls.any Call.isUpdate = true) :
    (Reconcile r req).finalErr.isSome = true ∧
    (Reconcile r req).calls.any Call.isDelete = false := by
  rw [Reconcile_any r req mdr hload Call.isUpdate (fun _ _ => rfl) (fun _ => rfl)] at hupd
  rw [Reconcile_any r req mdr hload Call.isDelete (fun _ _ => rfl) (fun _ => rfl)]
  suffices hbody : (reconcileBody r mdr).err.isSome = true ∧
      (reconcileBody r mdr).calls.any Call.isDelete = false from
    ⟨Reconcile_finalErr_isSome r req mdr hload hbody.1, hbody.2⟩
  by_cases ht : isTimedOutByNHC (some mdr) = true
  · rw [reconcileBody_timedOut r mdr ht] at hupd
    cases hupd
  have ht : isTimedOutByNHC (some mdr) = false := by simpa using ht
  by_cases hs : (updateConditions r remediationStarted mdr).1 = true
  · rw [reconcileBody_started r mdr ht hs] at hupd
    cases hupd
  have hs : (updateConditions r remediationStarted mdr).1 = false := by simpa using hs
  obtain ⟨hnd, hnu⟩ := getMachine_calls r mdr
  rw [reconcileBody_fetch r mdr ht hs] at hupd ⊢
  rcases hg : getMachine r mdr with ⟨⟨res, mustExist⟩, calls⟩
  rw [hg] at hnd hnu hupd
  change calls.any Call.isDelete = false at hnd
  change calls.any Call.isUpdate = false at hnu
  cases res with
  | error err =>
    dsimp only at hupd
    by_cases hnf : IsNotFound err = true
    · rw [if_pos hnf] at hupd
      rw [hnu] at hupd
      cases hupd
    · rw [if_neg hnf] at hupd
      rw [hnu] at hupd
      cases hupd
  | ok machine =>
    dsimp only at hupd ⊢
    exact reconcileMachine_failed_write r mdr machine calls hnd hnu hfail hupd

/-- C26, the code at the failing input: the request carries the binding
annotation "default/" and the Node names the owned worker Machine. Reconcile
writes no annotation and issues the delete of worker-node-x-machine, and at
the end of the pass the annotation is still "default/", which is not the
namespace and the name of the Machine that was deleted. -/
theorem C26_delete_with_an_empty_name_binding :
    (Reconcile (workerClient emptyNameRemediation (.ok workerNode)
        (.ok (workerMachine (some true) none []))) workerRequest).calls.any
      (fun call =>
        match call with
        | .delete machine =>
          machine.Name == workerNodeMachineName && machine.Namespace == defaultNamespace
        | _ => false) = true ∧
    (Reconcile (workerClient emptyNameRemediation (.ok workerNode)
        (.ok (workerMachine (some true) none []))) workerRequest).calls.any
      Call.isUpdate = false ∧
    (Reconcile (workerClient emptyNameRemediation (.ok workerNode)
        (.ok (workerMachine (some true) none []))) workerRequest).remediation =
      some emptyNameRemediation ∧
    mapLookup emptyNameRemediation.Annotations MachineNameNsAnnotation = some "default/" ∧
    "default/" ≠ defaultNamespace ++ "/" ++ workerNodeMachineName :=
  ⟨by decide, by decide, by decide, by decide, by decide⟩


/-! ## The providerID lookup -/

theorem getMachineProviderID_cases (machine : Machine) :
    (machine.Object.lookup "spec" = none → getMachineProviderID machine = ("", none)) ∧
    (∀ v, machine.Object.lookup "spec" = some v → (∀ fields, v ≠ .object fields) →
      getMachineProviderID machine =
        ("", some (.text "accessor error: expected map[string]interface{}"))) ∧
    (∀ fields, machine.Object.lookup "spec" = some (.object fields) →
      fields.lookup "providerID" = none → getMachineProviderID machine = ("", none)) ∧
    (∀ fields v, machine.Object.lookup "spec" = some (.object fields) →
      fields.lookup "providerID" = some v → (∀ s, v ≠ .string s) →
      getMachineProviderID machine = ("", some (.text "accessor error: expected string"))) ∧
    (∀ fields s, machine.Object.lookup "spec" = some (.object fields) →
      fields.lookup "providerID" = some (.string s) →
      getMachineProviderID machine = (s, none)) := by
  refine ⟨?_, ?_, ?_, ?_, ?_⟩
  · intro h
    simp only [getMachineProviderID, NestedMap, NestedFieldNoCopy, h]
  · intro v h hv
    simp only [getMachineProviderID, NestedMap, NestedFieldNoCopy, h]
  · intro fields h hp
    simp only [getMachineProviderID, NestedMap, NestedString, NestedFieldNoCopy, h, hp]
  · intro fields v h hp hv
    simp only [getMachineProviderID, NestedMap, NestedString, NestedFieldNoCopy, h, hp]
  · intro fields s h hp
    simp only [getMachineProviderID, NestedMap, NestedString, NestedFieldNoCopy, h, hp]

/-- C27: getMachineProviderID returns an error when spec is present and is
not a map, and when spec.providerID is present and is not a string; it
returns the empty string and no error when spec or spec.providerID is
absent, and the string when providerID is one. When the lookup errs on the
fetched Machine, the body of Reconcile returns the empty result and no
error, the request stays as loaded, and no update and no delete is issued;
with a successful status update Reconcile returns the same. -/
theorem C27_provider_lookup_error_ends_the_pass (r : Client) (req : Request)
    (mdr : MachineDeletionRemediation) (machine : Machine) (mustExist : Bool)
    (calls : List Call)
    (hload : r.GetRemediation req.Name req.Namespace = .ok mdr)
    (hstop : isTimedOutByNHC (some mdr) = false)
    (hstarted : (updateConditions r remediationStarted mdr).1 = false)
    (hfetch : getMachine r mdr = ((.ok machine, mustExist), calls))
    (hlookup : (∃ v, machine.Object.lookup "spec" = some v ∧ ∀ fields, v ≠ .object fields) ∨
      (∃ fields v, machine.Object.lookup "spec" = some (.object fields) ∧
        fields.lookup "providerID" = some v ∧ ∀ s, v ≠ .string s)) :
    (getMachineProviderID machine).1 = "" ∧
    (getMachineProviderID machine).2.isSome = true ∧
    (reconcileBody r mdr).result = Result.empty ∧
    (reconcileBody r mdr).err = none ∧
    (Reconcile r req).remediation = some mdr ∧
    (Reconcile r req).calls =
      Call.getRemediation req.Name req.Namespace :: (calls ++ [Call.statusUpdate mdr]) ∧
    (Reconcile r req).calls.any Call.isDelete = false ∧
    (Reconcile r req).calls.any Call.isUpdate = false ∧
    (r.StatusUpdate mdr = none →
      (Reconcile r req).finalResult = Result.empty ∧ (Reconcile r req).finalErr = none) ∧
    (∀ m : Machine,
      (m.Object.lookup "spec" = none → getMachineProviderID m = ("", none)) ∧
      (∀ fields, m.Object.lookup "spec" = some (.object fields) →
        fields.lookup "providerID" = none → getMachineProviderID m = ("", none)) ∧
      (∀ fields s, m.Object.lookup "spec" = some (.object fields) →
        fields.lookup "providerID" = some (.string s) →
        getMachineProviderID m = (s, none))) := by
  obtain ⟨-, hmap, -, hstring, -⟩ := getMachineProviderID_cases machine
  have herr : (getMachineProviderID machine).1 = "" ∧
      (getMachineProviderID machine).2.isSome = true := by
    rcases hlookup with ⟨v, hv, hne⟩ | ⟨fields, v, hs, hv, hne⟩
    · rw [hmap v hv hne]
      exact ⟨rfl, rfl⟩
    · rw [hstring fields v hs hv hne]
      exact ⟨rfl, rfl⟩
  have hbody : reconcileBody r mdr =
      { result := Result.empty, err := none, remediation := mdr, calls := calls } := by
    rw [reconcileBody_fetch r mdr hstop hstarted, hfetch]
    dsimp only
    rw [reconcileMachine_eq, if_pos herr.2]
  have hcalls : ∀ call ∈ calls, call.isWrite = false := by
    have := getMachine_no_write r mdr
    rw [hfetch] at this
    exact this
  obtain ⟨hnd, hnu⟩ := any_of_no_write calls hcalls
  refine ⟨herr.1, herr.2, by rw [hbody], by rw [hbody], ?_, ?_, ?_, ?_, ?_, ?_⟩
  · rw [Reconcile_remediation r req mdr hload, hbody]
  · rw [Reconcile_calls r req mdr hload, hbody]
  · rw [Reconcile_any r req mdr hload Call.isDelete (fun _ _ => rfl) (fun _ => rfl), hbody]
    exact hnd
  · rw [Reconcile_any r req mdr hload Call.isUpdate (fun _ _ => rfl) (fun _ => rfl), hbody]
    exact hnu
  · intro hstatus
    obtain ⟨hf, he⟩ := Reconcile_final r req mdr hload
    rw [hf, he, hbody]
    dsimp only
    rw [hstatus]
    exact ⟨rfl, rfl⟩
  · intro m
    obtain ⟨h1, -, h3, -, h5⟩ := getMachineProviderID_cases m
    exact ⟨h1, h3, h5⟩

/-- Witness of C27: the spec of the owned worker Machine is a string. -/
theorem C27_provider_lookup_error_ends_the_pass_witness :
    (getMachineProviderID (workerMachine (some true) none [("spec", .string "none")])).2.isSome
      = true ∧
    (Reconcile (workerClient (workerRemediation none startedConditions) (.ok workerNode)
        (.ok (workerMachine (some true) none [("spec", .string "none")])))
      workerRequest).finalResult = Result.empty ∧
    (Reconcile (workerClient (workerRemediation none startedConditions) (.ok workerNode)
        (.ok (workerMachine (some true) none [("spec", .string "none")])))
      workerRequest).finalErr = none :=
  have h := C27_provider_lookup_error_ends_the_pass
    (workerClient (workerRemediation none startedConditions) (.ok workerNode)
      (.ok (workerMachine (some true) none [("spec", .string "none")])))
    workerRequest (workerRemediation none startedConditions)
    (workerMachine (some true) none [("spec", .string "none")]) true
    [.getNode workerNodeName, .getMachine workerNodeMachineName defaultNamespace]
    rfl rfl (by decide) rfl
    (Or.inl ⟨.string "none", rfl, fun _ h => nomatch h⟩)
  ⟨h.2.1, (h.2.2.2.2.2.2.2.2.1 rfl).1, (h.2.2.2.2.2.2.2.2.1 rfl).2⟩


/-! ## The condition types are written independently -/

theorem SetStatusCondition_filter_other (conditions : List Condition)
    (newCondition : Condition) (now : Nat) (p : Condition → Bool)
    (hp : ∀ c : Condition, c.Type_ = newCondition.Type_ → p c = false) :
    (SetStatusCondition conditions newCondition now).filter p = conditions.filter p := by
  induction conditions with
  | nil =>
    simp only [SetStatusCondition, List.filter_cons, List.filter_nil]
    rw [hp { newCondition with
      LastTransitionTime :=
        if newCondition.LastTransitionTime = 0 then now
        else newCondition.LastTransitionTime } rfl]
    simp
  | cons existing rest ih =>
    unfold SetStatusCondition
    by_cases h : existing.Type_ = newCondition.Type_
    · rw [if_pos h, List.filter_cons_of_neg, List.filter_cons_of_neg]
      · rw [hp existing h]
        simp
      · rw [hp (mergeCondition existing newCondition now) h]
        simp
    · rw [if_neg h, List.filter_cons, List.filter_cons, ih]

theorem updateConditions_cases (r : Client) (reason : processingChangeReason)
    (mdr : MachineDeletionRemediation) :
    (updateConditions r reason mdr).2.2 = mdr ∨
    ∃ p s, (updateConditions r reason mdr).2.2 = writeConditions r reason p s mdr := by
  unfold updateConditions
  dsimp only
  split
  · exact Or.inl rfl
  · rename_i p s _
    split_ifs
    · exact Or.inl rfl
    · exact Or.inl rfl
    · exact Or.inr ⟨p, s, rfl⟩

theorem writeConditions_filter_other (r : Client) (reason : String) (p s : ConditionStatus)
    (mdr : MachineDeletionRemediation) (keep : Condition → Bool)
    (hp : ∀ c : Condition, c.Type_ = ProcessingType → keep c = false)
    (hs : ∀ c : Condition, c.Type_ = SucceededType → keep c = false) :
    (writeConditions r reason p s mdr).Status.Conditions.filter keep =
      mdr.Status.Conditions.filter keep := by
  unfold writeConditions
  dsimp only
  rw [SetStatusCondition_filter_other _ _ _ keep hs,
    SetStatusCondition_filter_other _ _ _ keep hp]

/-- C28: updateConditions leaves every condition of a type other than
Processing and Succeeded as it was, in the same order, the
PermanentNodeDeletionExpected conditions among them; and
setPermanentNodeDeletionExpectedCondition leaves every condition of a type
other than PermanentNodeDeletionExpected as it was, the Processing and the
Succeeded conditions among them. -/
theorem C28_condition_types_are_independent (r : Client) (reason : processingChangeReason)
    (status : ConditionStatus) (mdr : MachineDeletionRemediation) :
    (updateConditions r reason mdr).2.2.Status.Conditions.filter
        (fun c => c.Type_ != ProcessingType && c.Type_ != SucceededType) =
      mdr.Status.Conditions.filter
        (fun c => c.Type_ != ProcessingType && c.Type_ != SucceededType) ∧
    (updateConditions r reason mdr).2.2.Status.Conditions.filter
        (fun c => c.Type_ == PermanentNodeDeletionExpectedType) =
      mdr.Status.Conditions.filter (fun c => c.Type_ == PermanentNodeDeletionExpectedType) ∧
    FindStatusCondition (updateConditions r reason mdr).2.2.Status.Conditions
        PermanentNodeDeletionExpectedType =
      FindStatusCondition mdr.Status.Conditions PermanentNodeDeletionExpectedType ∧
    (setPermanentNodeDeletionExpectedCondition r status mdr).2.Status.Conditions.filter
        (fun c => c.Type_ != PermanentNodeDeletionExpectedType) =
      mdr.Status.Conditions.filter (fun c => c.Type_ != PermanentNodeDeletionExpectedType) ∧
    (setPermanentNodeDeletionExpectedCondition r status mdr).2.Status.Conditions.filter
        (fun c => c.Type_ == ProcessingType) =
      mdr.Status.Conditions.filter (fun c => c.Type_ == ProcessingType) ∧
    (setPermanentNodeDeletionExpectedCondition r status mdr).2.Status.Conditions.filter
        (fun c => c.Type_ == SucceededType) =
      mdr.Status.Conditions.filter (fun c => c.Type_ == SucceededType) ∧
    FindStatusCondition
        (setPermanentNodeDeletionExpectedCondition r status mdr).2.Status.Conditions
        ProcessingType =
      FindStatusCondition mdr.Status.Conditions ProcessingType ∧
    FindStatusCondition
        (setPermanentNodeDeletionExpectedCondition r status mdr).2.Status.Conditions
        SucceededType =
      FindStatusCondition mdr.Status.Conditions SucceededType := by
  have hupdate : ∀ keep : Condition → Bool,
      (∀ c : Condition, c.Type_ = ProcessingType → keep c = false) →
      (∀ c : Condition, c.Type_ = SucceededType → keep c = false) →
      (updateConditions r reason mdr).2.2.Status.Conditions.filter keep =
        mdr.Status.Conditions.filter keep := by
    intro keep hp hs
    rcases updateConditions_cases r reason mdr with h | ⟨p, s, h⟩
    · rw [h]
    · rw [h, writeConditions_filter_other r reason p s mdr keep hp hs]
  have hset : ∀ keep : Condition → Bool,
      (∀ c : Condition, c.Type_ = PermanentNodeDeletionExpectedType → keep c = false) →
      (setPermanentNodeDeletionExpectedCondition r status mdr).2.Status.Conditions.filter keep =
        mdr.Status.Conditions.filter keep := by
    intro keep hk
    rw [setPermanentNodeDeletionExpectedCondition_eq]
    split_ifs
    · rfl
    · unfold writePermanentNodeDeletionExpected
      dsimp only
      rw [SetStatusCondition_filter_other _ _ _ keep hk]
  have hfindUpdate : FindStatusCondition (updateConditions r reason mdr).2.2.Status.Conditions
        PermanentNodeDeletionExpectedType =
      FindStatusCondition mdr.Status.Conditions PermanentNodeDeletionExpectedType := by
    rcases updateConditions_cases r reason mdr with h | ⟨p, s, h⟩
    · rw [h]
    · rw [h]
      unfold writeConditions
      dsimp only
      rw [FindStatusCondition_set_other, FindStatusCondition_set_other]
      · exact (by decide : ProcessingType ≠ PermanentNodeDeletionExpectedType)
      · exact (by decide : SucceededType ≠ PermanentNodeDeletionExpectedType)
  have hfindSet : ∀ conditionType, PermanentNodeDeletionExpectedType ≠ conditionType →
      FindStatusCondition
        (setPermanentNodeDeletionExpectedCondition r status mdr).2.Status.Conditions
        conditionType = FindStatusCondition mdr.Status.Conditions conditionType := by
    intro conditionType hne
    rw [setPermanentNodeDeletionExpectedCondition_eq]
    split_ifs
    · rfl
    · unfold writePermanentNodeDeletionExpected
      dsimp only
      rw [FindStatusCondition_set_other _ _ _ _ hne]
  refine ⟨hupdate _ ?_ ?_, hupdate _ ?_ ?_, hfindUpdate, hset _ ?_, hset _ ?_, hset _ ?_,
    hfindSet _ (by decide), hfindSet _ (by decide)⟩
  · intro c hc
    simp [hc]
  · intro c hc
    simp [hc]
  · intro c hc
    show (c.Type_ == PermanentNodeDeletionExpectedType) = false
    rw [hc]
    decide
  · intro c hc
    show (c.Type_ == PermanentNodeDeletionExpectedType) = false
    rw [hc]
    decide
  · intro c hc
    simp [hc]
  · intro c hc
    show (c.Type_ == ProcessingType) = false
    rw [hc]
    decide
  · intro c hc
    show (c.Type_ == SucceededType) = false
    rw [hc]
    decide


/-! ## Saving and reading back the binding annotation -/

theorem lookup_mapSet_other (entries : List (String × String)) (key value other : String)
    (hne : other ≠ key) :
    (mapSet entries key value).lookup other = entries.lookup other := by
  induction entries with
  | nil =>
    have hb : (other == key) = false := by
      rw [beq_eq_false_iff_ne]
      exact hne
    simp [mapSet, List.lookup, hb]
  | cons e es ih =>
    obtain ⟨k, v⟩ := e
    unfold mapSet
    by_cases hk : k = key
    · rw [if_pos hk]
      subst hk
      have hb : (other == k) = false := by
        rw [beq_eq_false_iff_ne]
        exact hne
      simp [List.lookup, hb]
    · rw [if_neg hk]
      by_cases ho : other = k
      · subst ho
        simp [List.lookup]
      · have hb : (other == k) = false := by
          rw [beq_eq_false_iff_ne]
          exact ho
        simp [List.lookup, hb, ih]

/-- C29: for a name and a namespace without "/" and a request without the
binding annotation, saveMachineNameNs leaves a request whose binding
annotation is the namespace, "/" and the name, whose other annotations are
as before, and from which getMachineNameNsFromRemediation reads back the
name and the namespace with no error; this is the request it sends in its
one update, whose error it returns. -/
theorem C29_saved_binding_reads_back (r : Client) (mdr : MachineDeletionRemediation)
    (name ns : String) (hname : '/' ∉ name.data) (hns : '/' ∉ ns.data)
    (habsent : mapLookup mdr.Annotations MachineNameNsAnnotation = none) :
    mapLookup (saveMachineNameNs r mdr name ns).2.1.Annotations MachineNameNsAnnotation =
      some (ns ++ "/" ++ name) ∧
    (∀ key, key ≠ MachineNameNsAnnotation →
      mapLookup (saveMachineNameNs r mdr name ns).2.1.Annotations key =
        mapLookup mdr.Annotations key) ∧
    getMachineNameNsFromRemediation (saveMachineNameNs r mdr name ns).2.1 = (name, ns, none) ∧
    (saveMachineNameNs r mdr name ns).2.2 =
      [Call.update (saveMachineNameNs r mdr name ns).2.1] ∧
    (saveMachineNameNs r mdr name ns).1 = r.Update (saveMachineNameNs r mdr name ns).2.1 ∧
    (saveMachineNameNs r mdr name ns).2.1.Name = mdr.Name ∧
    (saveMachineNameNs r mdr name ns).2.1.Namespace = mdr.Namespace ∧
    (saveMachineNameNs r mdr name ns).2.1.DeletionTimestamp = mdr.DeletionTimestamp ∧
    (saveMachineNameNs r mdr name ns).2.1.Status = mdr.Status := by
  have hsave : saveMachineNameNs r mdr name ns =
      (r.Update (withMachineNameNs mdr name ns), withMachineNameNs mdr name ns,
        [.update (withMachineNameNs mdr name ns)]) := by
    rw [saveMachineNameNs_eq, habsent]
    rfl
  rw [hsave]
  refine ⟨?_, ?_, ?_, rfl, rfl, rfl, rfl, rfl, rfl⟩
  · unfold withMachineNameNs mapLookup
    dsimp only
    rw [lookup_mapSet]
  · intro key hkey
    unfold withMachineNameNs
    dsimp only
    cases hann : mdr.Annotations with
    | none =>
      unfold mapLookup
      dsimp only
      rw [lookup_mapSet_other _ _ _ _ hkey]
      rfl
    | some entries =>
      unfold mapLookup
      dsimp only
      rw [lookup_mapSet_other _ _ _ _ hkey]
      rfl
  · exact getMachineNameNsFromRemediation_of_key _ name ns
      (bindingKey_withMachineNameNs mdr name ns hns hname)

/-- Witness of C29: the worker Machine saved on the started request. -/
theorem C29_saved_binding_reads_back_witness :
    mapLookup (saveMachineNameNs
        (workerClient (workerRemediation none startedConditions) (.ok workerNode)
          (.ok (workerMachine (some true) none [])))
        (workerRemediation none startedConditions) workerNodeMachineName
        defaultNamespace).2.1.Annotations MachineNameNsAnnotation =
      some "default/worker-node-x-machine" ∧
    getMachineNameNsFromRemediation (saveMachineNameNs
        (workerClient (workerRemediation none startedConditions) (.ok workerNode)
          (.ok (workerMachine (some true) none [])))
        (workerRemediation none startedConditions) workerNodeMachineName
        defaultNamespace).2.1 = (workerNodeMachineName, defaultNamespace, none) :=
  have h := C29_saved_binding_reads_back
    (workerClient (workerRemediation none startedConditions) (.ok workerNode)
      (.ok (workerMachine (some true) none [])))
    (workerRemediation none startedConditions) workerNodeMachineName defaultNamespace
    (by decide) (by decide) rfl
  ⟨h.1, h.2.2.1⟩


/-! ## A pass writes conditions or acts on the Machine, never both -/

theorem reconcileMachine_write_status (r : Client) (mdr : MachineDeletionRemediation)
    (machine : Machine) (calls : List Call)
    (hnd : calls.any Call.isDelete = false) (hnu : calls.any Call.isUpdate = false)
    (hwrite : (reconcileMachine r mdr machine calls).calls.any Call.isDelete = true ∨
      (reconcileMachine r mdr machine calls).calls.any Call.isUpdate = true) :
    (reconcileMachine r mdr machine calls).remediation.Status = mdr.Status := by
  rw [reconcileMachine_eq] at hwrite ⊢
  by_cases h1 : (getMachineProviderID machine).2.isSome
  · rw [if_pos h1]
  rw [if_neg h1] at hwrite ⊢
  by_cases h2 : IsStatusConditionPresentAndEqual mdr.Status.Conditions
      PermanentNodeDeletionExpectedType (providerStatus (getMachineProviderID machine).1) = false
  · rw [if_pos h2] at hwrite
    rw [hnd, hnu] at hwrite
    rcases hwrite with h | h <;> cases h
  rw [if_neg h2]
  by_cases h3 : IsZero machine.DeletionTimestamp = false
  · rw [if_pos h3]
  rw [if_neg h3]
  by_cases h4 : hasControllerOwner machine = false
  · rw [if_pos h4]
  rw [if_neg h4]
  by_cases h5 : (mapLookup mdr.Annotations MachineNameNsAnnotation).isSome
  · rw [if_pos h5]
  rw [if_neg h5]
  cases r.Update (withMachineNameNs mdr machine.Name machine.Namespace) <;> rfl

theorem reconcileBody_write_status (r : Client) (mdr : MachineDeletionRemediation)
    (hwrite : (reconcileBody r mdr).calls.any Call.isDelete = true ∨
      (reconcileBody r mdr).calls.any Call.isUpdate = true) :
    (reconcileBody r mdr).remediation.Status = mdr.Status := by
  by_cases ht : isTimedOutByNHC (some mdr) = true
  · rw [reconcileBody_timedOut r mdr ht] at hwrite
    rcases hwrite with h | h <;> cases h
  have ht : isTimedOutByNHC (some mdr) = false := by simpa using ht
  by_cases hs : (updateConditions r remediationStarted mdr).1 = true
  · rw [reconcileBody_started r mdr ht hs] at hwrite
    rcases hwrite with h | h <;> cases h
  have hs : (updateConditions r remediationStarted mdr).1 = false := by simpa using hs
  obtain ⟨hnd, hnu⟩ := getMachine_calls r mdr
  rw [reconcileBody_fetch r mdr ht hs] at hwrite ⊢
  rcases hg : getMachine r mdr with ⟨⟨res, mustExist⟩, calls⟩
  rw [hg] at hnd hnu hwrite
  change calls.any Call.isDelete = false at hnd
  change calls.any Call.isUpdate = false at hnu
  cases res with
  | error err =>
    dsimp only at hwrite ⊢
    by_cases hnf : IsNotFound err = true
    · rw [if_pos hnf] at hwrite
      rw [hnd, hnu] at hwrite
      rcases hwrite with h | h <;> cases h
    · rw [if_neg hnf]
  | ok machine =>
    dsimp only at hwrite ⊢
    exact reconcileMachine_write_status r mdr machine calls hnd hnu hwrite

/-- C30: when an invocation of Reconcile issues the delete or the update
that writes the binding annotation, the request it ends with has the status
it was loaded with; so a pass that ends with other conditions than it was
loaded with has issued no delete and no update. -/
theorem C30_conditions_or_machine_never_both (r : Client) (req : Request)
    (mdr : MachineDeletionRemediation)
    (hload : r.GetRemediation req.Name req.Namespace = .ok mdr) :
    ((Reconcile r req).calls.any Call.isDelete = true ∨
        (Reconcile r req).calls.any Call.isUpdate = true →
      ∃ final, (Reconcile r req).remediation = some final ∧ final.Status = mdr.Status) ∧
    (∀ final, (Reconcile r req).remediation = some final →
      final.Status.Conditions ≠ mdr.Status.Conditions →
      (Reconcile r req).calls.any Call.isDelete = false ∧
      (Reconcile r req).calls.any Call.isUpdate = false) := by
  have hd := Reconcile_any r req mdr hload Call.isDelete (fun _ _ => rfl) (fun _ => rfl)
  have hu := Reconcile_any r req mdr hload Call.isUpdate (fun _ _ => rfl) (fun _ => rfl)
  have hrem := Reconcile_remediation r req mdr hload
  rw [hd, hu, hrem]
  constructor
  · intro hwrite
    exact ⟨_, rfl, reconcileBody_write_status r mdr hwrite⟩
  · intro final hfinal hne
    simp only [Option.some.injEq] at hfinal
    subst hfinal
    by_contra hcon
    have hwrite : (reconcileBody r mdr).calls.any Call.isDelete = true ∨
        (reconcileBody r mdr).calls.any Call.isUpdate = true := by
      by_cases hdel : (reconcileBody r mdr).calls.any Call.isDelete = true
      · exact Or.inl hdel
      · by_cases hupd : (reconcileBody r mdr).calls.any Call.isUpdate = true
        · exact Or.inr hupd
        · exact absurd ⟨by simpa using hdel, by simpa using hupd⟩ hcon
    exact hne (by rw [reconcileBody_write_status r mdr hwrite])

/-- Witness of C30: the pass that saves the binding annotation and issues
the delete ends with the conditions of the started request. -/
theorem C30_conditions_or_machine_never_both_witness :
    (Reconcile (workerClient (workerRemediation none startedConditions) (.ok workerNode)
        (.ok (workerMachine (some true) none []))) workerRequest).calls.any
      Call.isDelete = true ∧
    ∃ final, (Reconcile (workerClient (workerRemediation none startedConditions)
        (.ok workerNode) (.ok (workerMachine (some true) none [])))
      workerRequest).remediation = some final ∧
      final.Status = (workerRemediation none startedConditions).Status :=
  have h := C30_conditions_or_machine_never_both
    (workerClient (workerRemediation none startedConditions) (.ok workerNode)
      (.ok (workerMachine (some true) none [])))
    workerRequest (workerRemediation none startedConditions) rfl
  ⟨by decide, h.1 (Or.inl (by decide))⟩


/-! ## Scenario A from any such store -/

theorem isTimedOutByNHC_of_lookup (mdr : MachineDeletionRemediation)
    (h : mapLookup mdr.Annotations NhcTimedOut = none) :
    isTimedOutByNHC (some mdr) = false := by
  cases ht : isTimedOutByNHC (some mdr) with
  | false => rfl
  | true =>
    obtain ⟨other, value, hsome, -, hvalue⟩ := (isTimedOutByNHC_iff (some mdr)).mp ht
    simp only [Option.some.injEq] at hsome
    subst hsome
    rw [h] at hvalue
    cases hvalue

theorem getMachine_from_node (r : Client) (mdr : MachineDeletionRemediation) (node : Node)
    (annotations : List (String × String)) (name ns : String) (machine : Machine)
    (hbinding : mapLookup mdr.Annotations MachineNameNsAnnotation = none)
    (hnode : r.GetNode mdr.Name = .ok node)
    (hann : node.Annotations = some annotations)
    (hvalue : annotations.lookup machineAnnotationOpenshift = some (ns ++ "/" ++ name))
    (hname : '/' ∉ name.data) (hns : '/' ∉ ns.data)
    (hget : r.GetMachine name ns = .ok machine) :
    getMachine r mdr = ((.ok machine, true), [.getNode mdr.Name, .getMachine name ns]) := by
  have hlen : ¬ (ns ++ "/" ++ name).length = 0 := by
    intro h
    have h1 : ("/" : String).length = 1 := rfl
    rw [String.length_append, String.length_append, h1] at h
    omega
  unfold getMachine getMachineNameNsFromRemediation
  rw [hbinding]
  dsimp only
  rw [if_pos rfl]
  unfold getNodeFromMdr
  rw [hnode]
  dsimp only
  unfold getMachineNameNsFromNode
  rw [hann]
  dsimp only
  rw [hvalue]
  dsimp only [Option.getD]
  rw [if_neg hlen, Split_join ns name hns hname]
  dsimp only
  unfold getMachineByKey
  rw [hget]
  rfl

theorem updateConditions_started_of_recorded (r : Client) (mdr : MachineDeletionRemediation)
    (hprocessing : IsStatusConditionPresentAndEqual mdr.Status.Conditions ProcessingType
      ConditionTrue = true)
    (hsucceeded : IsStatusConditionPresentAndEqual mdr.Status.Conditions SucceededType
      ConditionUnknown = true) :
    (updateConditions r remediationStarted mdr).1 = false := by
  rw [updateConditions_started]
  split_ifs <;> first | rfl | simp_all

theorem reconcileBody_first_pass (r : Client) (mdr : MachineDeletionRemediation)
    (hstop : isTimedOutByNHC (some mdr) = false)
    (hconds : mdr.Status.Conditions = []) :
    reconcileBody r mdr =
      { result := { Requeue := false, RequeueAfter := Second }, err := none,
        remediation := writeConditions r remediationStarted ConditionTrue ConditionUnknown mdr,
        calls := [] } := by
  apply reconcileBody_started r mdr hstop
  rw [updateConditions_started, hconds]
  rfl

theorem reconcileBody_classify_pass (r : Client) (mdr : MachineDeletionRemediation)
    (machine : Machine) (calls : List Call)
    (hstop : isTimedOutByNHC (some mdr) = false)
    (hprocessing : IsStatusConditionPresentAndEqual mdr.Status.Conditions ProcessingType
      ConditionTrue = true)
    (hsucceeded : IsStatusConditionPresentAndEqual mdr.Status.Conditions SucceededType
      ConditionUnknown = true)
    (hfetch : getMachine r mdr = ((.ok machine, true), calls))
    (hprovider : getMachineProviderID machine = ("", none))
    (hnot : IsStatusConditionPresentAndEqual mdr.Status.Conditions
      PermanentNodeDeletionExpectedType ConditionUnknown = false) :
    reconcileBody r mdr =
      { result := { Requeue := false, RequeueAfter := Second }, err := none,
        remediation := writePermanentNodeDeletionExpected r ConditionUnknown mdr,
        calls := calls } := by
  rw [reconcileBody_fetch r mdr hstop
    (updateConditions_started_of_recorded r mdr hprocessing hsucceeded), hfetch]
  dsimp only
  rw [reconcileMachine_eq, hprovider]
  have hnot' : IsStatusConditionPresentAndEqual mdr.Status.Conditions
      PermanentNodeDeletionExpectedType (providerStatus ("", (none : Option Err)).1) = false :=
    hnot
  rw [if_neg (by simp), if_pos hnot']
  rfl

theorem reconcileBody_delete_pass (r : Client) (mdr : MachineDeletionRemediation)
    (machine : Machine) (calls : List Call)
    (hstop : isTimedOutByNHC (some mdr) = false)
    (hprocessing : IsStatusConditionPresentAndEqual mdr.Status.Conditions ProcessingType
      ConditionTrue = true)
    (hsucceeded : IsStatusConditionPresentAndEqual mdr.Status.Conditions SucceededType
      ConditionUnknown = true)
    (hbinding : mapLookup mdr.Annotations MachineNameNsAnnotation = none)
    (hfetch : getMachine r mdr = ((.ok machine, true), calls))
    (hprovider : getMachineProviderID machine = ("", none))
    (hrecorded : IsStatusConditionPresentAndEqual mdr.Status.Conditions
      PermanentNodeDeletionExpectedType ConditionUnknown = true)
    (hzero : IsZero machine.DeletionTimestamp = true)
    (hown : hasControllerOwner machine = true)
    (hupdate : r.Update (withMachineNameNs mdr machine.Name machine.Namespace) = none)
    (hdelete : r.Delete machine = none) :
    reconcileBody r mdr =
      { result := { Requeue := true, RequeueAfter := 0 }, err := none,
        remediation := withMachineNameNs mdr machine.Name machine.Namespace,
        calls := calls ++ [.update (withMachineNameNs mdr machine.Name machine.Namespace),
          .delete machine] } := by
  rw [reconcileBody_fetch r mdr hstop
    (updateConditions_started_of_recorded r mdr hprocessing hsucceeded), hfetch]
  dsimp only
  rw [reconcileMachine_eq, hprovider]
  have hrec : IsStatusConditionPresentAndEqual mdr.Status.Conditions
      PermanentNodeDeletionExpectedType (providerStatus ("", (none : Option Err)).1) = true :=
    hrecorded
  rw [if_neg (by simp), if_neg (by rw [hrec]; simp), if_neg (by rw [hzero]; simp),
    if_neg (by rw [hown]; simp), if_neg (by rw [hbinding]; simp), hupdate]
  dsimp only
  rw [hdelete]
  rfl

theorem reconcileBody_poll_pass (r : Client) (mdr : MachineDeletionRemediation)
    (machine : Machine) (mustExist : Bool) (calls : List Call)
    (hstop : isTimedOutByNHC (some mdr) = false)
    (hprocessing : IsStatusConditionPresentAndEqual mdr.Status.Conditions ProcessingType
      ConditionTrue = true)
    (hsucceeded : IsStatusConditionPresentAndEqual mdr.Status.Conditions SucceededType
      ConditionUnknown = true)
    (hfetch : getMachine r mdr = ((.ok machine, mustExist), calls))
    (hprovider : getMachineProviderID machine = ("", none))
    (hrecorded : IsStatusConditionPresentAndEqual mdr.Status.Conditions
      PermanentNodeDeletionExpectedType ConditionUnknown = true)
    (hmarker : IsZero machine.DeletionTimestamp = false) :
    reconcileBody r mdr =
      { result := { Requeue := false, RequeueAfter := 30 * Second }, err := none,
        remediation := mdr, calls := calls } := by
  rw [reconcileBody_fetch r mdr hstop
    (updateConditions_started_of_recorded r mdr hprocessing hsucceeded), hfetch]
  dsimp only
  rw [reconcileMachine_eq, hprovider]
  have hrec : IsStatusConditionPresentAndEqual mdr.Status.Conditions
      PermanentNodeDeletionExpectedType (providerStatus ("", (none : Option Err)).1) = true :=
    hrecorded
  rw [if_neg (by simp), if_neg (by rw [hrec]; simp), if_pos hmarker]

theorem reconcileBody_gone_pass (r : Client) (mdr : MachineDeletionRemediation)
    (err : Err) (calls : List Call)
    (hstop : isTimedOutByNHC (some mdr) = false)
    (hprocessing : IsStatusConditionPresentAndEqual mdr.Status.Conditions ProcessingType
      ConditionTrue = true)
    (hsucceeded : IsStatusConditionPresentAndEqual mdr.Status.Conditions SucceededType
      ConditionUnknown = true)
    (hfetch : getMachine r mdr = ((.error err, false), calls))
    (hnotFound : IsNotFound err = true) :
    reconcileBody r mdr =
      { result := Result.empty, err := none,
        remediation := writeConditions r remediationFinished ConditionFalse ConditionTrue mdr,
        calls := calls } := by
  rw [reconcileBody_fetch r mdr hstop
    (updateConditions_started_of_recorded r mdr hprocessing hsucceeded), hfetch]
  dsimp only
  rw [if_pos hnotFound]
  have hfinished : (updateConditions r remediationFinished mdr).2.2 =
      writeConditions r remediationFinished ConditionFalse ConditionTrue mdr := by
    rw [updateConditions_finished, if_neg]
    intro h
    have := IsStatusConditionPresentAndEqual_unique _ _ _ _ hprocessing h.1
    cases this
  simp only [Bool.false_eq_true, if_false]
  rw [hfinished]

theorem clientOf_load (req : Request) (c : Cluster) (f : Faults)
    (hf : f.getRemediation = none)
    (hname : c.remediation.Name = req.Name) (hns : c.remediation.Namespace = req.Namespace) :
    (clientOf c f).GetRemediation req.Name req.Namespace = .ok c.remediation := by
  simp only [clientOf, hf]
  rw [if_pos ⟨hname, hns⟩]

theorem invoke_of_body (req : Request) (c : Cluster) (stamp : Option Nat) (now : Nat)
    (body : Pass)
    (hname : c.remediation.Name = req.Name) (hns : c.remediation.Namespace = req.Namespace)
    (hbody : reconcileBody (clientOf c (noFaults stamp now)) c.remediation = body) :
    (invoke req c (noFaults stamp now)).2.finalResult = body.result ∧
    (invoke req c (noFaults stamp now)).2.finalErr = body.err ∧
    (invoke req c (noFaults stamp now)).2.remediation = some body.remediation ∧
    (invoke req c (noFaults stamp now)).2.calls =
      Call.getRemediation req.Name req.Namespace ::
        (body.calls ++ [Call.statusUpdate body.remediation]) ∧
    (invoke req c (noFaults stamp now)).1 =
      applyCall (noFaults stamp now) (body.calls.foldl (applyCall (noFaults stamp now)) c)
        (.statusUpdate body.remediation) := by
  have hload := clientOf_load req c (noFaults stamp now) rfl hname hns
  obtain ⟨hresult, herr⟩ := Reconcile_final _ req _ hload
  have hcalls := Reconcile_calls _ req _ hload
  have hrem := Reconcile_remediation _ req _ hload
  rw [hbody] at hresult herr hcalls hrem
  refine ⟨?_, ?_, hrem, hcalls, ?_⟩
  · exact hresult
  · exact herr
  · unfold invoke
    dsimp only
    rw [hcalls, List.foldl_cons, List.foldl_append]
    rfl

theorem findMachine_key (machines : List Machine) (name ns : String) (machine : Machine)
    (h : findMachine machines name ns = some machine) :
    machine.Name = name ∧ machine.Namespace = ns := by
  unfold findMachine at h
  have := List.find?_some h
  simpa using this

theorem findMachine_deleteMachine (machines : List Machine) (name ns : String)
    (machine : Machine) (t : Nat)
    (h : findMachine machines name ns = some machine)
    (hzero : IsZero machine.DeletionTimestamp = true) :
    findMachine (deleteMachine machines name ns (some t)) name ns =
      some { machine with DeletionTimestamp := some (t + 1) } := by
  unfold findMachine deleteMachine at *
  dsimp only
  induction machines with
  | nil => cases h
  | cons m rest ih =>
    rw [List.map_cons, List.find?_cons]
    rw [List.find?_cons] at h
    by_cases hp : (m.Name == name && m.Namespace == ns) = true
    · rw [hp] at h
      simp only [Option.some.injEq] at h
      subst h
      rw [hp, hzero]
      simp only [Bool.and_self, if_true]
      rw [hp]
    · have hp : (m.Name == name && m.Namespace == ns) = false := by simpa using hp
      rw [hp] at h
      rw [hp]
      simp only [Bool.false_and, Bool.false_eq_true, if_false]
      rw [hp]
      exact ih h

theorem getMachineProviderID_stamped (machine : Machine) (stamp : Option Nat) :
    getMachineProviderID { machine with DeletionTimestamp := stamp } =
      getMachineProviderID machine := rfl

theorem lookup_getD_of_mapLookup (annotations : Annotations) (key : String)
    (h : mapLookup annotations key = none) : (annotations.getD []).lookup key = none := by
  cases annotations with
  | none => rfl
  | some entries => exact h

theorem clientOf_GetNode (c : Cluster) (stamp : Option Nat) (now : Nat) (name : String)
    (node : Node) (h : findNode c.nodes name = some node) :
    (clientOf c (noFaults stamp now)).GetNode name = .ok node := by
  simp only [clientOf, noFaults, h]

theorem clientOf_GetMachine (c : Cluster) (stamp : Option Nat) (now : Nat) (name ns : String)
    (machine : Machine) (hne : name ≠ "")
    (h : findMachine c.machines name ns = some machine) :
    (clientOf c (noFaults stamp now)).GetMachine name ns = .ok machine := by
  simp only [clientOf, noFaults, h]
  rw [if_neg hne]

theorem clientOf_GetMachine_gone (c : Cluster) (stamp : Option Nat) (now : Nat)
    (name ns : String) (hne : name ≠ "") (h : findMachine c.machines name ns = none) :
    (clientOf c (noFaults stamp now)).GetMachine name ns = .error notFoundError := by
  simp only [clientOf, noFaults, h]
  rw [if_neg hne]

/-- C20 as amended: scenario A takes five invocations, from any store whose
request has no conditions, no binding annotation and no stop signal (in
particular no annotations), whose Node of the same name is annotated with
the namespace and name of a Machine of the store that has a controller
owner, no deletion timestamp and an empty providerID, every call
succeeding and the deleted Machine being held by a finalizer. The first
invocation records Processing=True and Succeeded=Unknown and requeues after
one second; the second records PermanentNodeDeletionExpected=Unknown and
requeues after one second; the third saves the binding annotation, issues
the one delete and requeues immediately, and the Machine gets its deletion
timestamp; the fourth issues no delete, changes nothing and requeues after
thirty seconds; the fifth, the Machine being gone, ends with
Processing=False and Succeeded=True; one delete is issued in all. -/
theorem C20_scenario_takes_five_passes (req : Request) (c : Cluster) (node : Node)
    (annotations : List (String × String)) (machine : Machine) (gone : List Machine)
    (t k₁ k₂ k₃ k₄ k₅ : Nat)
    (hname : c.remediation.Name = req.Name) (hns : c.remediation.Namespace = req.Namespace)
    (hconditions : c.remediation.Status.Conditions = [])
    (hbinding : mapLookup c.remediation.Annotations MachineNameNsAnnotation = none)
    (hstop : mapLookup c.remediation.Annotations NhcTimedOut = none)
    (hnode : findNode c.nodes req.Name = some node)
    (hann : node.Annotations = some annotations)
    (hvalue : annotations.lookup machineAnnotationOpenshift =
      some (machine.Namespace ++ "/" ++ machine.Name))
    (hmachine : findMachine c.machines machine.Name machine.Namespace = some machine)
    (hnonempty : machine.Name ≠ "")
    (hslashName : '/' ∉ machine.Name.data) (hslashNs : '/' ∉ machine.Namespace.data)
    (hzero : IsZero machine.DeletionTimestamp = true)
    (hown : hasControllerOwner machine = true)
    (hprovider : getMachineProviderID machine = ("", none))
    (hgone : findMachine gone machine.Name machine.Namespace = none) :
    let c₁ := (invoke req c (noFaults (some t) k₁)).1
    let c₂ := (invoke req c₁ (noFaults (some t) k₂)).1
    let c₃ := (invoke req c₂ (noFaults (some t) k₃)).1
    let c₄ := (invoke req c₃ (noFaults (some t) k₄)).1
    let c₅ := (invoke req (withMachines c₄ gone) (noFaults (some t) k₅)).1
    (statusPairs c₁.remediation.Status.Conditions =
        [(ProcessingType, ConditionTrue), (SucceededType, ConditionUnknown)] ∧
      (invoke req c (noFaults (some t) k₁)).2.finalResult =
        { Requeue := false, RequeueAfter := Second } ∧
      (invoke req c (noFaults (some t) k₁)).2.finalErr = none ∧
      (invoke req c (noFaults (some t) k₁)).2.calls.any Call.isGetMachine = false ∧
      (invoke req c (noFaults (some t) k₁)).2.calls.countP Call.isDelete = 0) ∧
    (statusPairs c₂.remediation.Status.Conditions =
        [(ProcessingType, ConditionTrue), (SucceededType, ConditionUnknown),
          (PermanentNodeDeletionExpectedType, ConditionUnknown)] ∧
      (invoke req c₁ (noFaults (some t) k₂)).2.finalResult =
        { Requeue := false, RequeueAfter := Second } ∧
      (invoke req c₁ (noFaults (some t) k₂)).2.finalErr = none ∧
      (invoke req c₁ (noFaults (some t) k₂)).2.calls.any Call.isUpdate = false ∧
      (invoke req c₁ (noFaults (some t) k₂)).2.calls.countP Call.isDelete = 0) ∧
    (mapLookup c₃.remediation.Annotations MachineNameNsAnnotation =
        some (machine.Namespace ++ "/" ++ machine.Name) ∧
      (invoke req c₂ (noFaults (some t) k₃)).2.calls.countP Call.isDelete = 1 ∧
      Call.delete machine ∈ (invoke req c₂ (noFaults (some t) k₃)).2.calls ∧
      (invoke req c₂ (noFaults (some t) k₃)).2.finalResult =
        { Requeue := true, RequeueAfter := 0 } ∧
      (invoke req c₂ (noFaults (some t) k₃)).2.finalErr = none ∧
      findMachine c₃.machines machine.Name machine.Namespace =
        some { machine with DeletionTimestamp := some (t + 1) } ∧
      IsZero (some (t + 1)) = false) ∧
    ((invoke req c₃ (noFaults (some t) k₄)).2.calls.countP Call.isDelete = 0 ∧
      (invoke req c₃ (noFaults (some t) k₄)).2.calls.any Call.isUpdate = false ∧
      (invoke req c₃ (noFaults (some t) k₄)).2.finalResult =
        { Requeue := false, RequeueAfter := 30 * Second } ∧
      (invoke req c₃ (noFaults (some t) k₄)).2.finalErr = none ∧
      c₄ = c₃) ∧
    (statusPairs c₅.remediation.Status.Conditions =
        [(ProcessingType, ConditionFalse), (SucceededType, ConditionTrue),
          (PermanentNodeDeletionExpectedType, ConditionUnknown)] ∧
      (invoke req (withMachines c₄ gone) (noFaults (some t) k₅)).2.calls.countP
        Call.isDelete = 0 ∧
      (invoke req (withMachines c₄ gone) (noFaults (some t) k₅)).2.finalResult =
        Result.empty ∧
      (invoke req (withMachines c₄ gone) (noFaults (some t) k₅)).2.finalErr = none) ∧
    (invoke req c (noFaults (some t) k₁)).2.calls.countP Call.isDelete +
      (invoke req c₁ (noFaults (some t) k₂)).2.calls.countP Call.isDelete +
      (invoke req c₂ (noFaults (some t) k₃)).2.calls.countP Call.isDelete +
      (invoke req c₃ (noFaults (some t) k₄)).2.calls.countP Call.isDelete +
      (invoke req (withMachines c₄ gone) (noFaults (some t) k₅)).2.calls.countP
        Call.isDelete = 1 := by
  obtain ⟨⟨rname, rns, anns, dts, ⟨conds⟩⟩, nodes, machines⟩ := c
  obtain ⟨qname, qns⟩ := req
  dsimp only at hname hns hconditions hbinding hstop hnode hmachine
  subst hconditions
  subst hname
  subst hns
  have hkeys : NhcTimedOut ≠ MachineNameNsAnnotation := by decide
  -- the first pass
  have hstop₀ : isTimedOutByNHC (some ⟨rname, rns, anns, dts, ⟨[]⟩⟩) = false :=
    isTimedOutByNHC_of_lookup _ hstop
  obtain ⟨hr₁, he₁, -, hcalls₁, hs₁⟩ :=
    invoke_of_body ⟨rname, rns⟩ ⟨⟨rname, rns, anns, dts, ⟨[]⟩⟩, nodes, machines⟩ (some t) k₁ _
      rfl rfl (reconcileBody_first_pass _ _ hstop₀ rfl)
  have hc₁ : (invoke ⟨rname, rns⟩ ⟨⟨rname, rns, anns, dts, ⟨[]⟩⟩, nodes, machines⟩
      (noFaults (some t) k₁)).1 =
      ⟨⟨rname, rns, anns, dts, ⟨scenarioStarted k₁⟩⟩, nodes, machines⟩ := hs₁.trans rfl
  -- the second pass
  have hstop₁ : isTimedOutByNHC (some ⟨rname, rns, anns, dts, ⟨scenarioStarted k₁⟩⟩) = false :=
    isTimedOutByNHC_of_lookup _ hstop
  have hfetch₁ := getMachine_from_node
    (clientOf ⟨⟨rname, rns, anns, dts, ⟨scenarioStarted k₁⟩⟩, nodes, machines⟩
      (noFaults (some t) k₂))
    ⟨rname, rns, anns, dts, ⟨scenarioStarted k₁⟩⟩ node annotations machine.Name
    machine.Namespace machine hbinding (clientOf_GetNode _ _ _ _ _ hnode) hann hvalue
    hslashName hslashNs (clientOf_GetMachine _ _ _ _ _ _ hnonempty hmachine)
  obtain ⟨hr₂, he₂, -, hcalls₂, hs₂⟩ :=
    invoke_of_body ⟨rname, rns⟩
      ⟨⟨rname, rns, anns, dts, ⟨scenarioStarted k₁⟩⟩, nodes, machines⟩ (some t) k₂ _
      rfl rfl (reconcileBody_classify_pass _ _ machine _ hstop₁ rfl rfl hfetch₁ hprovider rfl)
  have hc₂ : (invoke ⟨rname, rns⟩
      ⟨⟨rname, rns, anns, dts, ⟨scenarioStarted k₁⟩⟩, nodes, machines⟩
      (noFaults (some t) k₂)).1 =
      ⟨⟨rname, rns, anns, dts, ⟨scenarioStarted k₁ ++ [scenarioUnknownProvider k₂]⟩⟩,
        nodes, machines⟩ := hs₂.trans rfl
  -- the third pass
  have hstop₂ : isTimedOutByNHC
      (some ⟨rname, rns, anns, dts, ⟨scenarioStarted k₁ ++ [scenarioUnknownProvider k₂]⟩⟩) =
      false := isTimedOutByNHC_of_lookup _ hstop
  have hfetch₂ := getMachine_from_node
    (clientOf ⟨⟨rname, rns, anns, dts,
        ⟨scenarioStarted k₁ ++ [scenarioUnknownProvider k₂]⟩⟩, nodes, machines⟩
      (noFaults (some t) k₃))
    ⟨rname, rns, anns, dts, ⟨scenarioStarted k₁ ++ [scenarioUnknownProvider k₂]⟩⟩
    node annotations machine.Name
    machine.Namespace machine hbinding (clientOf_GetNode _ _ _ _ _ hnode) hann hvalue
    hslashName hslashNs (clientOf_GetMachine _ _ _ _ _ _ hnonempty hmachine)
  obtain ⟨hr₃, he₃, -, hcalls₃, hs₃⟩ :=
    invoke_of_body ⟨rname, rns⟩
      ⟨⟨rname, rns, anns, dts, ⟨scenarioStarted k₁ ++ [scenarioUnknownProvider k₂]⟩⟩,
        nodes, machines⟩ (some t) k₃ _
      rfl rfl (reconcileBody_delete_pass _ _ machine _ hstop₂ rfl rfl hbinding hfetch₂
        hprovider rfl hzero hown rfl rfl)
  have hc₃ : (invoke ⟨rname, rns⟩
      ⟨⟨rname, rns, anns, dts, ⟨scenarioStarted k₁ ++ [scenarioUnknownProvider k₂]⟩⟩,
        nodes, machines⟩ (noFaults (some t) k₃)).1 =
      ⟨⟨rname, rns,
          some (mapSet (anns.getD []) MachineNameNsAnnotation
            (machine.Namespace ++ "/" ++ machine.Name)), dts,
          ⟨scenarioStarted k₁ ++ [scenarioUnknownProvider k₂]⟩⟩,
        nodes, deleteMachine machines machine.Name machine.Namespace (some t)⟩ :=
    hs₃.trans rfl
  -- the fourth pass
  have hlookup₃ : mapLookup
      (some (mapSet (anns.getD []) MachineNameNsAnnotation
        (machine.Namespace ++ "/" ++ machine.Name))) MachineNameNsAnnotation =
      some (machine.Namespace ++ "/" ++ machine.Name) := lookup_mapSet _ _ _
  have hnhc₃ : mapLookup
      (some (mapSet (anns.getD []) MachineNameNsAnnotation
        (machine.Namespace ++ "/" ++ machine.Name))) NhcTimedOut = none :=
    (lookup_mapSet_other _ _ _ _ hkeys).trans (lookup_getD_of_mapLookup anns _ hstop)
  have hkey₃ : ∀ conditions : List Condition,
      bindingKey ⟨rname, rns,
        some (mapSet (anns.getD []) MachineNameNsAnnotation
          (machine.Namespace ++ "/" ++ machine.Name)), dts, ⟨conditions⟩⟩ =
        some (machine.Name, machine.Namespace) := by
    intro conditions
    unfold bindingKey
    dsimp only
    rw [hlookup₃]
    dsimp only
    rw [Split_join _ _ hslashNs hslashName]
  have hstamped := findMachine_deleteMachine machines machine.Name machine.Namespace machine t
    hmachine hzero
  have hfetch₃ : getMachine
      (clientOf ⟨⟨rname, rns,
          some (mapSet (anns.getD []) MachineNameNsAnnotation
            (machine.Namespace ++ "/" ++ machine.Name)), dts,
          ⟨scenarioStarted k₁ ++ [scenarioUnknownProvider k₂]⟩⟩,
        nodes, deleteMachine machines machine.Name machine.Namespace (some t)⟩
        (noFaults (some t) k₄))
      ⟨rname, rns,
        some (mapSet (anns.getD []) MachineNameNsAnnotation
          (machine.Namespace ++ "/" ++ machine.Name)), dts,
        ⟨scenarioStarted k₁ ++ [scenarioUnknownProvider k₂]⟩⟩ =
      ((.ok { machine with DeletionTimestamp := some (t + 1) }, false),
        [.getMachine machine.Name machine.Namespace]) := by
    rw [(getMachine_of_named_binding _ _ _ _ (hkey₃ _) hnonempty).1]
    unfold getMachineByKey
    rw [clientOf_GetMachine _ _ _ _ _ _ hnonempty hstamped]
    rfl
  obtain ⟨hr₄, he₄, -, hcalls₄, hs₄⟩ :=
    invoke_of_body ⟨rname, rns⟩
      ⟨⟨rname, rns,
          some (mapSet (anns.getD []) MachineNameNsAnnotation
            (machine.Namespace ++ "/" ++ machine.Name)), dts,
          ⟨scenarioStarted k₁ ++ [scenarioUnknownProvider k₂]⟩⟩,
        nodes, deleteMachine machines machine.Name machine.Namespace (some t)⟩ (some t) k₄ _
      rfl rfl (reconcileBody_poll_pass _ _ _ false _
        (isTimedOutByNHC_of_lookup _ hnhc₃) rfl rfl hfetch₃
        ((getMachineProviderID_stamped machine _).trans hprovider) rfl
        (by simp [IsZero]))
  have hc₄ : (invoke ⟨rname, rns⟩
      ⟨⟨rname, rns,
          some (mapSet (anns.getD []) MachineNameNsAnnotation
            (machine.Namespace ++ "/" ++ machine.Name)), dts,
          ⟨scenarioStarted k₁ ++ [scenarioUnknownProvider k₂]⟩⟩,
        nodes, deleteMachine machines machine.Name machine.Namespace (some t)⟩
      (noFaults (some t) k₄)).1 =
      ⟨⟨rname, rns,
          some (mapSet (anns.getD []) MachineNameNsAnnotation
            (machine.Namespace ++ "/" ++ machine.Name)), dts,
          ⟨scenarioStarted k₁ ++ [scenarioUnknownProvider k₂]⟩⟩,
        nodes, deleteMachine machines machine.Name machine.Namespace (some t)⟩ :=
    hs₄.trans rfl
  -- the fifth pass
  have hfetch₅ : getMachine
      (clientOf ⟨⟨rname, rns,
          some (mapSet (anns.getD []) MachineNameNsAnnotation
            (machine.Namespace ++ "/" ++ machine.Name)), dts,
          ⟨scenarioStarted k₁ ++ [scenarioUnknownProvider k₂]⟩⟩, nodes, gone⟩
        (noFaults (some t) k₅))
      ⟨rname, rns,
        some (mapSet (anns.getD []) MachineNameNsAnnotation
          (machine.Namespace ++ "/" ++ machine.Name)), dts,
        ⟨scenarioStarted k₁ ++ [scenarioUnknownProvider k₂]⟩⟩ =
      ((.error notFoundError, false), [.getMachine machine.Name machine.Namespace]) := by
    rw [(getMachine_of_named_binding _ _ _ _ (hkey₃ _) hnonempty).1]
    unfold getMachineByKey
    rw [clientOf_GetMachine_gone _ _ _ _ _ hnonempty hgone]
    rfl
  obtain ⟨hr₅, he₅, -, hcalls₅, hs₅⟩ :=
    invoke_of_body ⟨rname, rns⟩
      ⟨⟨rname, rns,
          some (mapSet (anns.getD []) MachineNameNsAnnotation
            (machine.Namespace ++ "/" ++ machine.Name)), dts,
          ⟨scenarioStarted k₁ ++ [scenarioUnknownProvider k₂]⟩⟩, nodes, gone⟩ (some t) k₅ _
      rfl rfl (reconcileBody_gone_pass _ _ notFoundError _
        (isTimedOutByNHC_of_lookup _ hnhc₃) rfl rfl hfetch₅ rfl)
  have hc₅ : (invoke ⟨rname, rns⟩
      ⟨⟨rname, rns,
          some (mapSet (anns.getD []) MachineNameNsAnnotation
            (machine.Namespace ++ "/" ++ machine.Name)), dts,
          ⟨scenarioStarted k₁ ++ [scenarioUnknownProvider k₂]⟩⟩, nodes, gone⟩
      (noFaults (some t) k₅)).1 =
      ⟨⟨rname, rns,
          some (mapSet (anns.getD []) MachineNameNsAnnotation
            (machine.Namespace ++ "/" ++ machine.Name)), dts,
          ⟨scenarioFinished k₂ k₅⟩⟩, nodes, gone⟩ := hs₅.trans rfl
  dsimp only
  rw [hc₁, hc₂, hc₃, hc₄]
  have hgoneStore : withMachines
      ⟨⟨rname, rns,
          some (mapSet (anns.getD []) MachineNameNsAnnotation
            (machine.Namespace ++ "/" ++ machine.Name)), dts,
          ⟨scenarioStarted k₁ ++ [scenarioUnknownProvider k₂]⟩⟩,
        nodes, deleteMachine machines machine.Name machine.Namespace (some t)⟩ gone =
      ⟨⟨rname, rns,
          some (mapSet (anns.getD []) MachineNameNsAnnotation
            (machine.Namespace ++ "/" ++ machine.Name)), dts,
          ⟨scenarioStarted k₁ ++ [scenarioUnknownProvider k₂]⟩⟩, nodes, gone⟩ := rfl
  rw [hgoneStore, hc₅, hr₁, he₁, hcalls₁, hr₂, he₂, hcalls₂, hr₃, he₃, hcalls₃, hr₄, he₄,
    hcalls₄, hr₅, he₅, hcalls₅]
  refine ⟨⟨rfl, rfl, rfl, rfl, rfl⟩, ⟨rfl, rfl, rfl, rfl, rfl⟩,
    ⟨hlookup₃, rfl, ?_, rfl, rfl, hstamped, by simp [IsZero]⟩, ⟨rfl, rfl, rfl, rfl, rfl⟩,
    ⟨rfl, rfl, rfl, rfl⟩, rfl⟩
  simp

/-- Witness of C20 as amended: the worker node of the controller test, its
Node and its owned Machine, the delete stamping the Machine with a deletion
time, and the Machine then removed. -/
theorem C20_scenario_takes_five_passes_witness :
    statusPairs scenarioAfter1.remediation.Status.Conditions =
      [(ProcessingType, ConditionTrue), (SucceededType, ConditionUnknown)] ∧
    mapLookup scenarioAfter3.remediation.Annotations MachineNameNsAnnotation =
      some "default/worker-node-x-machine" ∧
    (invoke workerRequest scenarioAfter2 (scenarioFaults 3)).2.calls.countP
      Call.isDelete = 1 ∧
    (invoke workerRequest scenarioAfter3 (scenarioFaults 4)).2.finalResult =
      { Requeue := false, RequeueAfter := 30 * Second } ∧
    statusPairs scenarioAfter5.remediation.Status.Conditions =
      [(ProcessingType, ConditionFalse), (SucceededType, ConditionTrue),
        (PermanentNodeDeletionExpectedType, ConditionUnknown)] :=
  have h := C20_scenario_takes_five_passes workerRequest freshCluster workerNode
    [(machineAnnotationOpenshift, "default/worker-node-x-machine")]
    (workerMachine (some true) none []) [] 5 1 2 3 4 5
    rfl rfl rfl rfl rfl rfl rfl rfl rfl (by decide) (by decide) (by decide) rfl rfl rfl rfl
  ⟨h.1.1, h.2.2.1.1, h.2.2.1.2.1, h.2.2.2.1.2.2.1, h.2.2.2.2.1.1⟩

end MachineDeletion
